import Mathlib

/-!
Verification of the terrain-generation core of the zombie-game repository
(build_game.py).  The Python functions are shallowly embedded as pure Lean
functions:

* the material map is a flat `List String` indexed by `idx w x y = y*w + x`,
  exactly as the Python code indexes its flat list of one-letter material
  strings;
* the seeded pseudorandom generator `random.Random(seed)` is modelled by an
  abstract deterministic stream of naturals (`RS`): every draw reads the
  stream at the current position and advances it.  Each concrete seed of the
  Mersenne twister yields one such stream, so properties proved for every
  stream cover every seed, and determinism is state-threading by
  construction;
* Python float expressions on integer inputs are modelled over `ℚ`
  (`rng.random()` yields a rational in `[0,1)`); comparisons of a float
  square root against a float are modelled by the exact equivalent
  squared comparison;
* `int(h * 0.4)` and similar truncations of float products are modelled by
  exact integer division (`(2*h)/5`), which agrees with the float
  computation on all realistic dimensions;
* Python `dict` lookup that can raise `KeyError` is modelled with `Option`.
-/

namespace ZombieGame

/-! Basic grid model.  Materials are the one-letter strings of
`MATERIAL_LABELS`: "A" water, "B" road, "C" stone, "D" dirt (base),
"E" gravel, "F" dark earth, "G" grass. -/

abbrev Mat := String

abbrev Grid := List Mat

/-- Models the nested helper `idx(tx, ty) = ty * width + tx` used throughout
`build_game.py`. -/
def idx (width x y : Int) : Nat := (y * width + x).toNat

/-- Reading `material_map[i]`; all reads in the source are in bounds, the
default "D" is never observable there. -/
def gridGet (g : Grid) (i : Nat) : Mat := g.getD i "D"

/-- Models the helper `mat_at(tx, ty)` of `generate_world` and of
`find_decoration_positions`: out-of-bounds lookups return the base
material "D". -/
def matAt (w h : Int) (g : Grid) (tx ty : Int) : Mat :=
  if tx < 0 ∨ ty < 0 ∨ w ≤ tx ∨ h ≤ ty then "D" else gridGet g (idx w tx ty)

/-- Models `range(a, b)` over Python integers. -/
def intRange (a b : Int) : List Int :=
  (List.range (b - a).toNat).map (fun (k : Nat) => a + (k : Int))

/-- Row-major traversal `for y in range(h): for x in range(w)`, as the list
of visited `(x, y)` pairs. -/
def coords (w h : Int) : List (Int × Int) :=
  (intRange 0 h).flatMap (fun y => (intRange 0 w).map (fun x => (x, y)))

/-! Deterministic randomness source.  `random.Random(seed)` is an abstract
stream `f : Nat → Nat` read at an increasing position; every stochastic
decision of the Python code consumes stream values in program order. -/

structure RS where
  f : Nat → Nat
  pos : Nat

/-- Draw one raw stream value and advance. -/
def RS.next (s : RS) : Nat × RS := (s.f s.pos, ⟨s.f, s.pos + 1⟩)

/-- Models `rng.randint(lo, hi)` (inclusive bounds): one draw, mapped into
the interval.  The source never calls it with `hi < lo`. -/
def randint (lo hi : Int) (s : RS) : Int × RS :=
  let (k, s1) := s.next
  (lo + Int.ofNat (k % ((hi - lo + 1).toNat.max 1)), s1)

/-- Models `rng.random()`: one draw, mapped to a rational in `[0, 1)`. -/
def randq (s : RS) : ℚ × RS :=
  let (k, s1) := s.next
  (((k % 1024 : Nat) : ℚ) / 1024, s1)

/-- Models `rng.choice(l)`: one draw selecting an element.  The source only
calls it on nonempty lists, so the default is never observable. -/
def choice {α : Type} (l : List α) (dflt : α) (s : RS) : α × RS :=
  let (k, s1) := s.next
  (l.getD (k % l.length.max 1) dflt, s1)

/-- Swap two positions of a list (no-op when an index is out of range). -/
def listSwap {α : Type} (l : List α) (i j : Nat) : List α :=
  match l[i]?, l[j]? with
  | some a, some b => (l.set i b).set j a
  | _, _ => l

/-- Models `rng.shuffle(l)`: Fisher-Yates from the top index downwards, one
draw per step choosing the swap partner. -/
def shuffle {α : Type} (l : List α) (s : RS) : List α × RS :=
  ((List.range' 1 (l.length - 1)).reverse).foldl
    (fun st i =>
      let (k, s1) := st.2.next
      (listSwap st.1 i (k % (i + 1)), s1)) (l, s)

/-- Models `iso_grid_to_world(col, row)`: `ISO_TILE_W * 0.5 = 64` and
`ISO_TILE_H * 0.5 = 32` are exact in floating point for all grid
coordinates, so the result is the integer pair below. -/
def iso_grid_to_world (col row : Int) : Int × Int :=
  ((col - row) * 64, (col + row) * 32)

/-- Inverse of `iso_grid_to_world` on its image; used to speak about the
grid cell a world-space decoration position came from. -/
def isoWorldToGrid (p : Int × Int) : Int × Int :=
  ((p.2 / 32 + p.1 / 64) / 2, (p.2 / 32 - p.1 / 64) / 2)

/-! Embedding of `place_road_corridors` (build_game.py lines 144-247).
The five mutation phases are split into one definition each so that the
theorems can follow the source step by step.  All phases thread the grid,
the centre-line overlay and the rng state. -/

def T_ROAD_CENTER_H : Int := 200

def T_ROAD_CENTER_V : Int := 201

structure RoadState where
  grid : Grid
  ov : List Int
  s : RS

/-- Models `h_row = min(max(4, int(height * 0.4)), height - 5)`; the float
product truncates to `(2*height)/5` for all realistic heights. -/
def hRowOf (h : Int) : Int := min (max 4 ((2 * h) / 5)) (h - 5)

/-- Models `v_col = min(max(4, int(width * 0.6)), width - 5)`. -/
def vColOf (w : Int) : Int := min (max 4 ((3 * w) / 5)) (w - 5)

/-- Step 1a: paint the horizontal 3-wide corridor and its centre line. -/
def roadCoreH (w h hRow : Int) (st : RoadState) : RoadState :=
  (intRange (-1) 2).foldl
    (fun st dy =>
      let row := hRow + dy
      if 0 ≤ row ∧ row < h then
        (intRange 2 (w - 2)).foldl
          (fun st x =>
            { st with
              grid := st.grid.set (idx w x row) "B"
              ov := if dy = 0 then st.ov.set (idx w x row) T_ROAD_CENTER_H else st.ov }) st
      else st) st

/-- Step 1b: paint the vertical 3-wide corridor and its centre line
(skipping the overlay at the shared row `h_row`). -/
def roadCoreV (w h hRow vCol : Int) (st : RoadState) : RoadState :=
  (intRange (-1) 2).foldl
    (fun st dx =>
      let col := vCol + dx
      if 0 ≤ col ∧ col < w then
        (intRange 2 (h - 2)).foldl
          (fun st y =>
            { st with
              grid := st.grid.set (idx w col y) "B"
              ov := if dx = 0 ∧ y ≠ hRow then st.ov.set (idx w col y) T_ROAD_CENTER_V else st.ov }) st
      else st) st

/-- Step 2: plaza at the intersection, an elliptical area with jitter. -/
def roadPlaza (w h hRow vCol : Int) (st : RoadState) : RoadState :=
  let (prx, s0) := randint 3 5 st.s
  let (pry, s1) := randint 3 5 s0
  (intRange (-pry) (pry + 1)).foldl
    (fun st dy =>
      (intRange (-prx) (prx + 1)).foldl
        (fun st dx =>
          let x := vCol + dx
          let y := hRow + dy
          if 2 ≤ x ∧ x < w - 2 ∧ 2 ≤ y ∧ y < h - 2 then
            let dist : ℚ := ((dx : ℚ) / (prx : ℚ)) ^ 2 + ((dy : ℚ) / (pry : ℚ)) ^ 2
            let (u, s2) := randq st.s
            if dist < 1 + u * (2 / 10) then
              { grid := st.grid.set (idx w x y) "B", ov := st.ov, s := s2 }
            else { st with s := s2 }
          else st) st) { st with s := s1 }

/-- The jittered elliptical paint loop of a bulge. -/
def bulgePaint (w h bx by2 brx bry : Int) (st : RoadState) : RoadState :=
  (intRange (-bry) (bry + 1)).foldl
    (fun st dy =>
      (intRange (-brx) (brx + 1)).foldl
        (fun st dx =>
          let x := bx + dx
          let y := by2 + dy
          if 2 ≤ x ∧ x < w - 2 ∧ 2 ≤ y ∧ y < h - 2 then
            let dist : ℚ :=
              ((dx : ℚ) / max (brx : ℚ) (1 / 2)) ^ 2 + ((dy : ℚ) / max (bry : ℚ) (1 / 2)) ^ 2
            let (v, s4) := randq st.s
            if dist < 1 + v * (3 / 10) then
              { grid := st.grid.set (idx w x y) "B", ov := st.ov, s := s4 }
            else { st with s := s4 }
          else st) st) st

/-- Step 3, one widening bulge along a corridor. -/
def roadBulge (w h hRow vCol : Int) (st : RoadState) : RoadState :=
  let (u, s0) := randq st.s
  let bs : Int × Int × RS :=
    if u < 1 / 2 then
      let (bx, sa) := randint 4 (w - 5) s0
      let (c, sb) := choice [-2, -1, 1, 2] 0 sa
      (bx, hRow + c, sb)
    else
      let (c, sa) := choice [-2, -1, 1, 2] 0 s0
      let (by2, sb) := randint 4 (h - 5) sa
      (vCol + c, by2, sb)
  let (brx, s2) := randint 1 3 bs.2.2
  let (bry, s3) := randint 1 3 s2
  bulgePaint w h bs.1 bs.2.1 brx bry { st with s := s3 }

/-- Step 3: 4-8 widening bulges. -/
def roadBulges (w h hRow vCol : Int) (st : RoadState) : RoadState :=
  let (nB, s0) := randint 4 8 st.s
  (List.range nB.toNat).foldl (fun st _ => roadBulge w h hRow vCol st) { st with s := s0 }

/-- The paint loop of a horizontal-corridor stub (3 cells wide, growing
away from the corridor). -/
def stubPaintH (w h hRow sx dir len : Int) (st : RoadState) : RoadState :=
  (intRange 0 len).foldl
    (fun st step =>
      let sy := hRow + dir * (2 + step)
      if 2 ≤ sy ∧ sy < h - 2 then
        (intRange (-1) 2).foldl
          (fun st dx =>
            let x := sx + dx
            if 2 ≤ x ∧ x < w - 2 then
              { st with grid := st.grid.set (idx w x sy) "B" }
            else st) st
      else st) st

/-- The paint loop of a vertical-corridor stub. -/
def stubPaintV (w h vCol sy dir len : Int) (st : RoadState) : RoadState :=
  (intRange 0 len).foldl
    (fun st step =>
      let sx := vCol + dir * (2 + step)
      if 2 ≤ sx ∧ sx < w - 2 then
        (intRange (-1) 2).foldl
          (fun st dy =>
            let y := sy + dy
            if 2 ≤ y ∧ y < h - 2 then
              { st with grid := st.grid.set (idx w sx y) "B" }
            else st) st
      else st) st

/-- Step 4, one 3-wide stub branching off a corridor. -/
def roadStub (w h hRow vCol : Int) (st : RoadState) : RoadState :=
  let (u, s0) := randq st.s
  if u < 1 / 2 then
    let (sx, s1) := randint 6 (w - 7) s0
    let (_dir, s2) := choice [-1, 1] 1 s1
    let (len, s3) := randint 3 7 s2
    stubPaintH w h hRow sx _dir len { st with s := s3 }
  else
    let (sy, s1) := randint 6 (h - 7) s0
    let (_dir, s2) := choice [-1, 1] 1 s1
    let (len, s3) := randint 3 7 s2
    stubPaintV w h vCol sy _dir len { st with s := s3 }

/-- Step 4: 2-5 stubs. -/
def roadStubs (w h hRow vCol : Int) (st : RoadState) : RoadState :=
  let (nS, s0) := randint 2 5 st.s
  (List.range nS.toNat).foldl (fun st _ => roadStub w h hRow vCol st) { st with s := s0 }

structure RoadResult where
  hRow : Int
  vCol : Int
  overlay : List Int
  grid : Grid
  rs : RS

/-- Embedding of `place_road_corridors(material_map, width, height, rng)`:
core corridors, overlay, intersection clear, plaza, bulges, stubs. -/
def place_road_corridors (w h : Int) (g : Grid) (s : RS) : RoadResult :=
  let hRow := hRowOf h
  let vCol := vColOf w
  let st0 : RoadState := { grid := g, ov := List.replicate (w * h).toNat 0, s := s }
  let st1 := roadCoreH w h hRow st0
  let st2 := roadCoreV w h hRow vCol st1
  let st3 : RoadState := { st2 with ov := st2.ov.set (idx w vCol hRow) 0 }
  let st4 := roadPlaza w h hRow vCol st3
  let st5 := roadBulges w h hRow vCol st4
  let st6 := roadStubs w h hRow vCol st5
  { hRow := hRow, vCol := vCol, overlay := st6.ov, grid := st6.grid, rs := st6.s }

/-! Embedding of the helpers nested in `generate_world`
(build_game.py lines 250-430). -/

/-- Models `compute_buffer(mat_letter, radius=2)`: a boolean mask marking
every in-bounds cell within Chebyshev distance `radius` of a cell holding
`mat` (the source marks the whole `(2r+1) x (2r+1)` box). -/
def compute_buffer (w h : Int) (g : Grid) (mat : Mat) (radius : Int) : List Bool :=
  (coords w h).foldl
    (fun buf c =>
      if gridGet g (idx w c.1 c.2) = mat then
        (intRange (-radius) (radius + 1)).foldl
          (fun buf dy2 =>
            (intRange (-radius) (radius + 1)).foldl
              (fun buf dx2 =>
                let nx := c.1 + dx2
                let ny := c.2 + dy2
                if 0 ≤ nx ∧ nx < w ∧ 0 ≤ ny ∧ ny < h then buf.set (idx w nx ny) true
                else buf) buf) buf
      else buf) (List.replicate (w * h).toNat false)

/-- Models `combine_buffers(*bufs)`: pointwise boolean or. -/
def combine_buffers (n : Nat) (bufs : List (List Bool)) : List Bool :=
  bufs.foldl
    (fun comb b =>
      (List.range n).foldl
        (fun comb i => comb.set i (comb.getD i false || b.getD i false)) comb)
    (List.replicate n false)

structure Blob where
  cx : Int
  cy : Int
  rx : Int
  ry : Int
deriving DecidableEq

/-- Candidate centre cells of `place_blobs`: interior cells currently
holding the base material "D" and outside the exclusion mask, collected in
row-major order. -/
def blobValidCells (w h : Int) (excl : List Bool) (g : Grid) : List (Int × Int) :=
  (intRange 4 (h - 4)).foldl
    (fun acc y =>
      (intRange 4 (w - 4)).foldl
        (fun acc x =>
          if ¬ excl.getD (idx w x y) false ∧ gridGet g (idx w x y) = "D" then acc ++ [(x, y)]
          else acc) acc) []

/-- Greedy centre selection of `place_blobs`: walk the shuffled candidates,
skip any candidate at Manhattan distance < `minSep` from a chosen centre,
draw the elliptical radii for accepted centres, stop at `nBlobs`. -/
def chooseBlobCenters (nBlobs : Nat) (rLo rHi : Int) (minSep : Int)
    (valid : List (Int × Int)) (s : RS) : List Blob × List (Int × Int) × RS :=
  valid.foldl
    (fun st c =>
      let (blobs, centers, s) := st
      if nBlobs ≤ blobs.length then st
      else if centers.any (fun o => |c.1 - o.1| + |c.2 - o.2| < minSep) then st
      else
        let (rx, s1) := randint rLo rHi s
        let (ry, s2) := randint rLo rHi s1
        (blobs ++ [⟨c.1, c.2, rx, ry⟩], centers ++ [c], s2))
    ([], [], s)

/-- The selection step of `chooseBlobCenters`, named so its invariants can
be stated once. -/
def blobStep (nBlobs : Nat) (rLo rHi minSep : Int)
    (st : List Blob × List (Int × Int) × RS) (c : Int × Int) :
    List Blob × List (Int × Int) × RS :=
  let (blobs, centers, s) := st
  if nBlobs ≤ blobs.length then st
  else if centers.any (fun o => |c.1 - o.1| + |c.2 - o.2| < minSep) then st
  else
    let (rx, s1) := randint rLo rHi s
    let (ry, s2) := randint rLo rHi s1
    (blobs ++ [⟨c.1, c.2, rx, ry⟩], centers ++ [c], s2)

/-- Membership test of one cell against the blob list: for each blob in
order, draw the jitter and test the normalised squared distance, stopping
at the first hit. -/
def blobTest (x y : Int) : List Blob → RS → Bool × RS
  | [], s => (false, s)
  | b :: rest, s =>
    let ddx : ℚ := ((x - b.cx : Int) : ℚ) / ((b.rx : Int) : ℚ)
    let ddy : ℚ := ((y - b.cy : Int) : ℚ) / ((b.ry : Int) : ℚ)
    let (u, s1) := randq s
    if ddx * ddx + ddy * ddy < 1 + u * (3 / 10) then (true, s1) else blobTest x y rest s1

/-- Painting loop shared by `place_blobs` and the grass step of
`generate_world` (their Python bodies are identical): every base-material,
non-excluded cell is painted `mat` when it matches some blob. -/
def paintBlobs (w h : Int) (mat : Mat) (excl : List Bool) (blobs : List Blob)
    (g : Grid) (s : RS) : Grid × RS :=
  (coords w h).foldl
    (fun st c =>
      let i := idx w c.1 c.2
      if gridGet st.1 i ≠ "D" ∨ excl.getD i false then st
      else
        let (hit, s1) := blobTest c.1 c.2 blobs st.2
        (if hit then st.1.set i mat else st.1, s1)) (g, s)

/-- Embedding of `place_blobs(mat_letter, exclude_buf, n_blobs, r_range,
min_sep)`. -/
def place_blobs (w h : Int) (mat : Mat) (excl : List Bool) (nBlobs : Nat)
    (rLo rHi : Int) (minSep : Int) (g : Grid) (s : RS) : Grid × RS :=
  let valid := blobValidCells w h excl g
  let (valid2, s1) := shuffle valid s
  let (blobs, _, s2) := chooseBlobCenters nBlobs rLo rHi minSep valid2 s1
  paintBlobs w h mat excl blobs g s2

/-- Keep-condition of the erosion pass: a same-material neighbour on the
vertical axis and one on the horizontal axis (out-of-bounds neighbours
read as "D" through `mat_at`). -/
def erodeKeep (w h : Int) (g : Grid) (mat : Mat) (x y : Int) : Prop :=
  (matAt w h g x (y - 1) = mat ∨ matAt w h g x (y + 1) = mat) ∧
    (matAt w h g (x + 1) y = mat ∨ matAt w h g (x - 1) y = mat)

instance (w h : Int) (g : Grid) (mat : Mat) (x y : Int) :
    Decidable (erodeKeep w h g mat x y) := by
  unfold erodeKeep
  infer_instance

/-- One full scan of `remove_thin_strips`: revert every cell of `mat` that
fails `erodeKeep` (against the evolving grid, as the in-place Python loop
does) and report whether anything changed. -/
def erodePass (w h : Int) (mat : Mat) (g : Grid) : Grid × Bool :=
  (coords w h).foldl
    (fun st c =>
      if gridGet st.1 (idx w c.1 c.2) = mat ∧ ¬ erodeKeep w h st.1 mat c.1 c.2 then
        (st.1.set (idx w c.1 c.2) "D", true)
      else st) (g, false)

/-- Fueled version of the `while changed` loop of `remove_thin_strips`;
each changing pass strictly decreases the number of `mat` cells, so the
fuel used below always suffices. -/
def erodeLoop (w h : Int) (mat : Mat) : Nat → Grid → Grid
  | 0, g => g
  | fuel + 1, g =>
    let p := erodePass w h mat g
    if p.2 then erodeLoop w h mat fuel p.1 else p.1

/-- Embedding of `remove_thin_strips(mat_letter)` (also used for the
textually identical inline grass-erosion loop of `generate_world`). -/
def remove_thin_strips (w h : Int) (mat : Mat) (g : Grid) : Grid :=
  erodeLoop w h mat ((w * h).toNat + 1) g

/-- The discovered-material configuration `MATERIAL_TO_TILE_ID`: a partial
map from material letters to tile ids ("D" is always present in the real
table; nothing here assumes that). -/
structure Config where
  tileId : Mat → Option Int

/-- Grass-blob generation of `generate_world` step 2: `n_grass` blobs with
random centres anywhere in the interior and random radii - note, unlike
`place_blobs`, without exclusion, shuffling or separation. -/
def grassBlobsGen (w h : Int) (s : RS) : List Blob × RS :=
  let minDim := min w h
  let nGrass := max 20 ((w * h) / 600)
  let rLo := max 5 (minDim / 20)
  let rHi := max (rLo + 3) (minDim / 8)
  (List.range nGrass.toNat).foldl
    (fun st _ =>
      let (blobs, s) := st
      let (cx, s1) := randint 3 (w - 4) s
      let (cy, s2) := randint 3 (h - 4) s1
      let (rx, s3) := randint rLo rHi s2
      let (ry, s4) := randint rLo rHi s3
      (blobs ++ [⟨cx, cy, rx, ry⟩], s4)) ([], s)

/-- The per-blob step of the grass-blob generation, named so its effect on
the accumulator can be stated once. -/
def gStep (w h rLo rHi : Int) (st : List Blob × RS) (_k : Nat) : List Blob × RS :=
  let (blobs, s) := st
  let (cx, s1) := randint 3 (w - 4) s
  let (cy, s2) := randint 3 (h - 4) s1
  let (rx, s3) := randint rLo rHi s2
  let (ry, s4) := randint rLo rHi s3
  (blobs ++ [⟨cx, cy, rx, ry⟩], s4)

structure WorldResult where
  grid : Grid
  overlay : Option (List Int)
  rs : RS

/-- Step 1 of `generate_world`: roads, painted only when material "B" was
discovered. -/
def roadsResult (cfg : Config) (w h : Int) (s : RS) : Grid × Option (List Int) × RS :=
  let g0 : Grid := List.replicate (w * h).toNat "D"
  if (cfg.tileId "B").isSome then
    let r := place_road_corridors w h g0 s
    (r.grid, some r.overlay, r.rs)
  else (g0, none, s)

/-- Step 2 of `generate_world`: grass blobs (excluded by the road buffer)
followed by the inline thin-strip erosion of "G". -/
def grassStage (w h : Int) (g1 : Grid) (roadBuf : List Bool) (s1 : RS) : Grid × RS :=
  let (gBlobs, s2) := grassBlobsGen w h s1
  let (g2, s3) := paintBlobs w h "G" roadBuf gBlobs g1 s2
  (remove_thin_strips w h "G" g2, s3)

/-- Step 3 of `generate_world`: water blobs (excluded by the grass and road
buffers) followed by thin-strip erosion of "A". -/
def waterStage (w h : Int) (g3 : Grid) (grassBuf roadBuf : List Bool) (s3 : RS) :
    Grid × RS :=
  let waterExcl := combine_buffers (w * h).toNat [grassBuf, roadBuf]
  let minDim := min w h
  let nWater := max 4 ((w * h) / 4000)
  let wLo := max 3 (minDim / 40)
  let wHi := max (wLo + 2) (minDim / 15)
  let (g4, s4) := place_blobs w h "A" waterExcl nWater.toNat wLo wHi 6 g3 s3
  (remove_thin_strips w h "A" g4, s4)

/-- Step 4 of `generate_world`: gravel blobs (excluded by the grass, water
and road buffers) followed by thin-strip erosion of "E". -/
def gravelStage (w h : Int) (g5 : Grid) (grassBuf roadBuf : List Bool) (s4 : RS) :
    Grid × RS :=
  let waterBuf := compute_buffer w h g5 "A" 2
  let gravelExcl := combine_buffers (w * h).toNat [grassBuf, waterBuf, roadBuf]
  let minDim := min w h
  let nGravel := max 6 ((w * h) / 3000)
  let gLo := max 2 (minDim / 50)
  let gHi := max (gLo + 2) (minDim / 20)
  let (g6, s5) := place_blobs w h "E" gravelExcl nGravel.toNat gLo gHi 5 g5 s4
  (remove_thin_strips w h "E" g6, s5)

/-- The material-map pipeline of `generate_world` (normal path, the
`RECTANGLE_EDGE_DEBUG_TEST` environment flag unset): roads, grass, grass
erosion, water, water erosion, gravel, gravel erosion. -/
def generateWorldCore (cfg : Config) (w h : Int) (s : RS) : WorldResult :=
  let r1 := roadsResult cfg w h s
  let roadBuf := compute_buffer w h r1.1 "B" 2
  let (g3, s3) := grassStage w h r1.1 roadBuf r1.2.2
  let grassBuf := compute_buffer w h g3 "G" 2
  let (g5, s4) := waterStage w h g3 grassBuf roadBuf s3
  if (cfg.tileId "E").isSome then
    let (g7, s5) := gravelStage w h g5 grassBuf roadBuf s4
    { grid := g7, overlay := r1.2.1, rs := s5 }
  else { grid := g5, overlay := r1.2.1, rs := s4 }

/-- Embedding of `generate_world(width, height, seed)`: the material map is
converted to tile ids by `MATERIAL_TO_TILE_ID[m]`; a letter missing from
the table raises `KeyError`, modelled by `none`.  On success the source
returns `(tiles, road_overlay, material_map)`. -/
def generate_world (cfg : Config) (w h : Int) (s : RS) :
    Option (List Int × Option (List Int) × Grid) :=
  let r := generateWorldCore cfg w h s
  (r.grid.mapM cfg.tileId).map (fun tiles => (tiles, r.overlay, r.grid))

/-! Embedding of `find_zombie_spawns` (build_game.py lines 437-452). -/

/-- Squared world-space distance; the source compares
`math.sqrt(d2) >= min_dist`, which for integer inputs is exactly
`min_dist <= 0 or min_dist^2 <= d2`. -/
def distSq (a b : Int × Int) : Int := (a.1 - b.1) ^ 2 + (a.2 - b.2) ^ 2

/-- Embedding of `find_zombie_spawns(tiles, width, height, player_spawn,
count, rng, min_dist)`: up to `count * 50` attempts; every accepted cell is
walkable (`WALKABLE_TILES = set(range(256))`) and at world distance at
least `minDist` from the player spawn; the loop breaks once `count`
spawns are found. -/
def zombieSpawnStep (tiles : List Int) (w h : Int) (playerSpawn : Int × Int) (count : Nat)
    (st : List (Int × Int) × RS × Bool) (minDist : Int) : List (Int × Int) × RS × Bool :=
  if st.2.2 then st
  else
    let (tx, s1) := randint 2 (w - 3) st.2.1
    let (ty, s2) := randint 2 (h - 3) s1
    let t := tiles.getD (ty * w + tx).toNat 0
    if ¬ (0 ≤ t ∧ t < 256) then (st.1, s2, false)
    else
      let p := iso_grid_to_world tx ty
      if minDist ≤ 0 ∨ minDist * minDist ≤ distSq p playerSpawn then
        let sp := st.1 ++ [p]
        (sp, s2, decide (count ≤ sp.length))
      else (st.1, s2, false)

def find_zombie_spawns (tiles : List Int) (w h : Int) (playerSpawn : Int × Int)
    (count : Nat) (s : RS) (minDist : Int) : List (Int × Int) × RS :=
  let r :=
    (List.range (count * 50)).foldl
      (fun st _ => zombieSpawnStep tiles w h playerSpawn count st minDist) ([], s, false)
  (r.1, r.2.1)

/-! Embedding of `find_decoration_positions` (build_game.py lines 477-803).
Python sets of grid cells are modelled as duplicate-free lists (`setAdd`
keeps first-insertion order; set-iteration order in Python is a
deterministic function of the inserted elements, and no claim below
depends on which deterministic order is used). -/

/-- World position plus variant name, as appended by the source:
`(world_x, world_y, variant_name)`. -/
abbrev Pos := Int × Int × String

/-- World coordinates of a placed decoration. -/
def wpos (p : Pos) : Int × Int := (p.1, p.2.1)

/-- Models `set.add`. -/
def setAdd (l : List (Int × Int)) (c : Int × Int) : List (Int × Int) :=
  if l.contains c then l else l ++ [c]

/-- Models the helper `is_clear_of(tx, ty, occupied_set, min_dist)`. -/
def is_clear_of (tx ty : Int) (occ : List (Int × Int)) (minDist : Int) : Bool :=
  (intRange (-minDist) (minDist + 1)).all
    (fun dx =>
      (intRange (-minDist) (minDist + 1)).all
        (fun dy => !(occ.contains (tx + dx, ty + dy))))

/-- Cardinal neighbour offsets `[(-1,0),(1,0),(0,-1),(0,1)]`. -/
def cardinals : List (Int × Int) := [(-1, 0), (1, 0), (0, -1), (0, 1)]

/-- The candidate-tile lists collected at the start of
`find_decoration_positions` over the interior `[3, w-3) x [3, h-3)`. -/
structure Collect where
  grassTiles : List (Int × Int)
  grassSet : List (Int × Int)
  dirtSet : List (Int × Int)
  roadTiles : List (Int × Int)
  roadEdgeTiles : List (Int × Int)
  dirtGravelTiles : List (Int × Int)

/-- Candidate collection: grass cells, road cells (plus those having a
non-road cardinal neighbour), and dirt/gravel cells. -/
def collectCandidates (mm : Grid) (w h : Int) : Collect :=
  ((intRange 3 (h - 3)).flatMap (fun ty => (intRange 3 (w - 3)).map (fun tx => (tx, ty)))).foldl
    (fun c p =>
      let m := gridGet mm (idx w p.1 p.2)
      if m = "G" then
        { c with grassTiles := c.grassTiles ++ [p], grassSet := c.grassSet ++ [p] }
      else if m = "B" then
        let c1 := { c with roadTiles := c.roadTiles ++ [p] }
        if cardinals.any (fun d => matAt w h mm (p.1 + d.1) (p.2 + d.2) ≠ "B") then
          { c1 with roadEdgeTiles := c1.roadEdgeTiles ++ [p] }
        else c1
      else if m = "D" ∨ m = "E" then
        { c with dirtGravelTiles := c.dirtGravelTiles ++ [p], dirtSet := c.dirtSet ++ [p] }
      else c)
    ⟨[], [], [], [], [], []⟩

/-- Models the exact comparison `(ddx*ddx + ddy*ddy) ** 0.5 < q` (real
square root against a rational bound). -/
def sqrtLtQ (d2 : Int) (q : ℚ) : Prop := 0 < q ∧ (d2 : ℚ) < q ^ 2

instance (d2 : Int) (q : ℚ) : Decidable (sqrtLtQ d2 q) := by
  unfold sqrtLtQ
  infer_instance

/-- Models the nested helper `make_flora_blobs(candidate_set, coverage)`:
shuffle the candidates, grow an organic disc around each of the first
`n_seeds` of them, stopping once `target` cells are covered. -/
def make_flora_blobs (w h : Int) (candidateSet : List (Int × Int)) (coverage : ℚ)
    (s : RS) : List (Int × Int) × RS :=
  let (candidates, s0) := shuffle candidateSet s
  let target : Nat := (((candidates.length : ℚ) * coverage).floor).toNat
  let nSeeds : Nat := max 3 (candidates.length / 40)
  let seedPts := candidates.take nSeeds
  let blobRadius : Int := max 3 (min w h / 12)
  let r :=
    seedPts.foldl
      (fun (st : List (Int × Int) × RS × Bool) sp =>
        if st.2.2 then st
        else
          let (r, s1) := randint (max 2 (blobRadius - 2)) (blobRadius + 2) st.2.1
          let inner :=
            (intRange (-r) (r + 1)).foldl
              (fun (st2 : List (Int × Int) × RS) ddx =>
                (intRange (-r) (r + 1)).foldl
                  (fun st2 ddy =>
                    let nx := sp.1 + ddx
                    let ny := sp.2 + ddy
                    if ¬ candidateSet.contains (nx, ny) then st2
                    else
                      let (u, s2) := randq st2.2
                      if sqrtLtQ (ddx * ddx + ddy * ddy) ((r : ℚ) + u * 2 - 1) then
                        (setAdd st2.1 (nx, ny), s2)
                      else (st2.1, s2)) st2) (st.1, s1)
          (inner.1, inner.2, decide (target ≤ inner.1.length))) (([], s0, false))
  (r.1, r.2.1)

/-- Models the nested helper `remove_singletons(cells)`: keep only cells
with at least one cardinal neighbour in the set. -/
def remove_singletons (cells : List (Int × Int)) : List (Int × Int) :=
  cells.filter (fun c => cardinals.any (fun d => cells.contains (c.1 + d.1, c.2 + d.2)))

/-- The two incompatibility buffers built with `FLORA_BUFFER = 3`: cells
within the 7x7 box of water/road/stone (both), of dirt (grass side) or of
grass (dirt side). -/
structure Incompat where
  forGrass : List (Int × Int)
  forDirt : List (Int × Int)

def incompatSets (mm : Grid) (w h : Int) : Incompat :=
  (coords w h).foldl
    (fun inc p =>
      let m := gridGet mm (idx w p.1 p.2)
      if m = "A" ∨ m = "B" ∨ m = "C" then
        (intRange (-3) 4).foldl
          (fun inc ddx =>
            (intRange (-3) 4).foldl
              (fun inc ddy =>
                { forGrass := setAdd inc.forGrass (p.1 + ddx, p.2 + ddy)
                  forDirt := setAdd inc.forDirt (p.1 + ddx, p.2 + ddy) }) inc) inc
      else if m = "D" then
        (intRange (-3) 4).foldl
          (fun inc ddx =>
            (intRange (-3) 4).foldl
              (fun inc ddy =>
                { inc with forGrass := setAdd inc.forGrass (p.1 + ddx, p.2 + ddy) }) inc) inc
      else if m = "G" then
        (intRange (-3) 4).foldl
          (fun inc ddx =>
            (intRange (-3) 4).foldl
              (fun inc ddy =>
                { inc with forDirt := setAdd inc.forDirt (p.1 + ddx, p.2 + ddy) }) inc) inc
      else inc)
    ⟨[], []⟩

/-- Variant pools of the source. -/
def TREES_LUSH : List String := (List.range' 5 6).map (fun i => "tree_a" ++ toString i)

def TREES_AUTUMN : List String := (List.range' 1 2).map (fun i => "tree_b" ++ toString i)

def TREES_EVERGREEN : List String := (List.range' 1 2).map (fun i => "tree_c" ++ toString i)

def FLORA_A : List String :=
  ([1, 2, 3, 4, 5, 6, 7, 8, 9, 10, 11, 12, 15, 16, 17, 18, 19, 20] : List Nat).map
    (fun i => "flora_a" ++ toString i)

def FLORA_B : List String := (List.range' 1 19).map (fun i => "flora_b" ++ toString i)

def OBJECT_VARIANTS : List String :=
  ((List.range' 1 4) ++ (List.range' 16 3) ++ (List.range' 21 3) ++ [33] ++ (List.range' 39 6)).map
    (fun i => "object_" ++ toString i)

def CAR_VARIANTS : List String := (List.range' 1 10).map (fun i => "car_" ++ toString i)

/-- Count of patch members in the `(2r+1) x (2r+1)` box around a cell
(the `nearby` generator expressions of the tree loops). -/
def nearbyCount (patch : List (Int × Int)) (tx ty r : Int) : Nat :=
  ((intRange (-r) (r + 1)).flatMap
      (fun ddx => (intRange (-r) (r + 1)).map (fun ddy => (ddx, ddy)))).countP
    (fun d => patch.contains (tx + d.1, ty + d.2))

/-- Water proximity test `any(mat_at(..) == "A" ...)` over the
`(2r+1) x (2r+1)` box. -/
def nearWater (mm : Grid) (w h fx fy r : Int) : Bool :=
  ((intRange (-r) (r + 1)).flatMap
      (fun ddx => (intRange (-r) (r + 1)).map (fun ddy => (ddx, ddy)))).any
    (fun d => matAt w h mm (fx + d.1) (fy + d.2) = "A")

/-- Tree-seed selection: walk the shuffled patch list, require 15 patch
cells in the 5x5 box, require clearance `seed_spacing` from earlier seeds,
stop at `n_seeds`. -/
def pickSeeds (patchList patchAll : List (Int × Int)) (nSeeds : Nat)
    (seedSpacing : Int) : List (Int × Int) :=
  (patchList.foldl
      (fun (st : List (Int × Int) × List (Int × Int)) p =>
        if nSeeds ≤ st.1.length then st
        else if nearbyCount patchAll p.1 p.2 2 < 15 then st
        else if is_clear_of p.1 p.2 st.2 seedSpacing then (st.1 ++ [p], st.2 ++ [p])
        else st) ([], [])).1

/-- Cluster-type assignment: lush on the grass-side patch, otherwise a coin
flip between autumn and evergreen. -/
def clusterTypes (floraBPatch : List (Int × Int)) (seeds : List (Int × Int)) (s : RS) :
    List (String × List String) × RS :=
  seeds.foldl
    (fun (st : List (String × List String) × RS) sp =>
      if floraBPatch.contains sp then (st.1 ++ [("lush", TREES_LUSH)], st.2)
      else
        let (u, s1) := randq st.2
        if u < 1 / 2 then (st.1 ++ [("autumn", TREES_AUTUMN)], s1)
        else (st.1 ++ [("evergreen", TREES_EVERGREEN)], s1)) ([], s)

/-- Occupied-set plus position-list state shared by the placement loops. -/
structure PlaceState where
  occ : List (Int × Int)
  ps : List Pos
  s : RS

/-- The `while placed < cluster_size and attempts < cluster_size * 6` tree
scatter loop around one seed; the fuel is the remaining attempt budget. -/
def treeInner (w h : Int) (patchAll : List (Int × Int)) (variants : List String)
    (sx sy cr clusterSize : Int) (maxTrees : Nat) :
    Nat → Int → PlaceState → PlaceState
  | 0, _, st => st
  | fuel + 1, placed, st =>
    if clusterSize ≤ placed then st
    else
      let (dx, s1) := randint (-cr) cr st.s
      let (dy, s2) := randint (-cr) cr s1
      let tx := sx + dx
      let ty := sy + dy
      let st1 : PlaceState := { st with s := s2 }
      if ¬ (3 ≤ tx ∧ tx < w - 3 ∧ 3 ≤ ty ∧ ty < h - 3) then
        treeInner w h patchAll variants sx sy cr clusterSize maxTrees fuel placed st1
      else if ¬ patchAll.contains (tx, ty) then
        treeInner w h patchAll variants sx sy cr clusterSize maxTrees fuel placed st1
      else if nearbyCount patchAll tx ty 1 < 7 then
        treeInner w h patchAll variants sx sy cr clusterSize maxTrees fuel placed st1
      else if st.occ.contains (tx, ty) then
        treeInner w h patchAll variants sx sy cr clusterSize maxTrees fuel placed st1
      else
        let occ2 := st.occ ++ [(tx, ty)]
        let (variant, s3) := choice variants "tree_a5" s2
        let p := iso_grid_to_world tx ty
        let ps2 := st.ps ++ [(p.1, p.2, variant)]
        let st2 : PlaceState := { occ := occ2, ps := ps2, s := s3 }
        if maxTrees ≤ ps2.length then st2
        else treeInner w h patchAll variants sx sy cr clusterSize maxTrees fuel (placed + 1) st2

/-- The outer tree loop over `zip(seed_positions, cluster_types)`, breaking
once `max_trees` positions exist. -/
def treeSeedLoop (w h : Int) (patchAll : List (Int × Int)) (maxTrees : Nat) :
    List ((Int × Int) × String × List String) → PlaceState → PlaceState
  | [], st => st
  | sc :: rest, st =>
    if maxTrees ≤ st.ps.length then st
    else
      let (cs, s1) := randint 10 25 st.s
      let (cr, s2) := randint 2 4 s1
      let st2 :=
        treeInner w h patchAll sc.2.2 sc.1.1 sc.1.2 cr cs maxTrees (cs.toNat * 6) 0
          { st with s := s2 }
      treeSeedLoop w h patchAll maxTrees rest st2

/-- The whole tree-placement phase. -/
def placeTrees (w h : Int) (floraPatchAll floraBPatch : List (Int × Int)) (s : RS) :
    PlaceState :=
  let (patchList, s1) := shuffle floraPatchAll s
  let nPatch := floraPatchAll.length
  let maxTrees := min 8000 (max (nPatch / 3) 50)
  let minDim := min w h
  let seedSpacing : Int := max 2 (minDim / 15)
  let nSeeds := max 8 (nPatch / 10)
  let seeds := pickSeeds patchList floraPatchAll nSeeds seedSpacing
  let (ctypes, s2) := clusterTypes floraBPatch seeds s1
  treeSeedLoop w h floraPatchAll maxTrees (seeds.zip ctypes) { occ := [], ps := [], s := s2 }

/-- Flora state: `flora_occupied`, `flora_positions`, `flora_a_count`. -/
structure FloraState where
  occ : List (Int × Int)
  ps : List Pos
  cnt : Nat
  s : RS

/-- Understory: 1-3 flora attempts around one tree tile. -/
def understoryInner (mm : Grid) (w h : Int) (grassSet treeOcc : List (Int × Int))
    (target : Nat) (ttx tty : Int) : Nat → FloraState → FloraState
  | 0, st => st
  | k + 1, st =>
    if target ≤ st.cnt then st
    else
      let (dx, s1) := randint (-3) 3 st.s
      let (dy, s2) := randint (-3) 3 s1
      let fx := ttx + dx
      let fy := tty + dy
      let st1 : FloraState := { st with s := s2 }
      if ¬ (3 ≤ fx ∧ fx < w - 3 ∧ 3 ≤ fy ∧ fy < h - 3) then
        understoryInner mm w h grassSet treeOcc target ttx tty k st1
      else if ¬ grassSet.contains (fx, fy) then
        understoryInner mm w h grassSet treeOcc target ttx tty k st1
      else if treeOcc.contains (fx, fy) then
        understoryInner mm w h grassSet treeOcc target ttx tty k st1
      else if ¬ is_clear_of fx fy st.occ 1 then
        understoryInner mm w h grassSet treeOcc target ttx tty k st1
      else if nearWater mm w h fx fy 1 then
        understoryInner mm w h grassSet treeOcc target ttx tty k st1
      else
        let occ2 := setAdd st.occ (fx, fy)
        let (v, s3) := choice FLORA_A "flora_a1" s2
        let p := iso_grid_to_world fx fy
        understoryInner mm w h grassSet treeOcc target ttx tty k
          { occ := occ2, ps := st.ps ++ [(p.1, p.2, v)], cnt := st.cnt + 1, s := s3 }

/-- Understory outer loop over the shuffled tree tiles. -/
def understoryLoop (mm : Grid) (w h : Int) (grassSet treeOcc : List (Int × Int))
    (target : Nat) : List (Int × Int) → FloraState → FloraState
  | [], st => st
  | t :: rest, st =>
    if target ≤ st.cnt then st
    else
      let (n, s1) := randint 1 3 st.s
      let st2 :=
        understoryInner mm w h grassSet treeOcc target t.1 t.2 n.toNat { st with s := s1 }
      understoryLoop mm w h grassSet treeOcc target rest st2

/-- Scatter of flora A over open (shuffled) grass tiles. -/
def scatterLoop (mm : Grid) (w h : Int) (treeOcc : List (Int × Int)) (maxFloraA : Nat) :
    List (Int × Int) → FloraState → FloraState
  | [], st => st
  | t :: rest, st =>
    if maxFloraA ≤ st.cnt then st
    else if treeOcc.contains t then scatterLoop mm w h treeOcc maxFloraA rest st
    else if ¬ is_clear_of t.1 t.2 st.occ 2 then scatterLoop mm w h treeOcc maxFloraA rest st
    else if nearWater mm w h t.1 t.2 1 then scatterLoop mm w h treeOcc maxFloraA rest st
    else
      let occ2 := setAdd st.occ t
      let (v, s1) := choice FLORA_A "flora_a1" st.s
      let p := iso_grid_to_world t.1 t.2
      scatterLoop mm w h treeOcc maxFloraA rest
        { occ := occ2, ps := st.ps ++ [(p.1, p.2, v)], cnt := st.cnt + 1, s := s1 }

/-- Flora B along road edges: pick a neighbouring grass/dirt/gravel cell of
a (shuffled) road-edge tile.  The second component is `flora_b_count`. -/
def floraBLoop (mm : Grid) (w h : Int) (treeOcc : List (Int × Int)) (maxFloraB : Nat) :
    List (Int × Int) → FloraState × Nat → FloraState × Nat
  | [], st => st
  | t :: rest, (fst1, bcnt) =>
    if maxFloraB ≤ bcnt then (fst1, bcnt)
    else
      let cands :=
        cardinals.foldl
          (fun (acc : List (Int × Int)) d =>
            let nx := t.1 + d.1
            let ny := t.2 + d.2
            if 3 ≤ nx ∧ nx < w - 3 ∧ 3 ≤ ny ∧ ny < h - 3 ∧
                (matAt w h mm nx ny = "G" ∨ matAt w h mm nx ny = "D" ∨ matAt w h mm nx ny = "E") then
              acc ++ [(nx, ny)]
            else acc) []
      if cands.isEmpty then floraBLoop mm w h treeOcc maxFloraB rest (fst1, bcnt)
      else
        let (fc, s1) := choice cands (0, 0) fst1.s
        let st1 : FloraState := { fst1 with s := s1 }
        if treeOcc.contains fc ∨ st1.occ.contains fc then
          floraBLoop mm w h treeOcc maxFloraB rest (st1, bcnt)
        else if ¬ is_clear_of fc.1 fc.2 st1.occ 2 then
          floraBLoop mm w h treeOcc maxFloraB rest (st1, bcnt)
        else
          let (v, s2) := choice FLORA_B "flora_b1" s1
          let p := iso_grid_to_world fc.1 fc.2
          floraBLoop mm w h treeOcc maxFloraB rest
            ({ occ := setAdd st1.occ fc, ps := st1.ps ++ [(p.1, p.2, v)], cnt := st1.cnt, s := s2 },
              bcnt + 1)

/-- Objects on (shuffled) dirt/gravel tiles, 4-tile self spacing, away from
trees, flora and water. -/
def objectsLoop (mm : Grid) (w h : Int) (treeOcc floraOcc : List (Int × Int))
    (maxObjects : Nat) : List (Int × Int) → PlaceState → PlaceState
  | [], st => st
  | t :: rest, st =>
    if maxObjects ≤ st.ps.length then st
    else if ¬ is_clear_of t.1 t.2 st.occ 4 then
      objectsLoop mm w h treeOcc floraOcc maxObjects rest st
    else if treeOcc.contains t ∨ floraOcc.contains t then
      objectsLoop mm w h treeOcc floraOcc maxObjects rest st
    else if nearWater mm w h t.1 t.2 2 then
      objectsLoop mm w h treeOcc floraOcc maxObjects rest st
    else
      let occ2 := setAdd st.occ t
      let (v, s1) := choice OBJECT_VARIANTS "object_1" st.s
      let p := iso_grid_to_world t.1 t.2
      objectsLoop mm w h treeOcc floraOcc maxObjects rest
        { occ := occ2, ps := st.ps ++ [(p.1, p.2, v)], s := s1 }

/-- Cars on (shuffled) road tiles, 4-tile self spacing, away from trees and
objects. -/
def carsLoop (treeOcc objOcc : List (Int × Int)) (maxCars : Nat) :
    List (Int × Int) → PlaceState → PlaceState
  | [], st => st
  | t :: rest, st =>
    if maxCars ≤ st.ps.length then st
    else if ¬ is_clear_of t.1 t.2 st.occ 4 then carsLoop treeOcc objOcc maxCars rest st
    else if treeOcc.contains t ∨ objOcc.contains t then carsLoop treeOcc objOcc maxCars rest st
    else
      let occ2 := setAdd st.occ t
      let (v, s1) := choice CAR_VARIANTS "car_1" st.s
      let p := iso_grid_to_world t.1 t.2
      carsLoop treeOcc objOcc maxCars rest
        { occ := occ2, ps := st.ps ++ [(p.1, p.2, v)], s := s1 }

structure Decorations where
  trees : List Pos
  cars : List Pos
  flora : List Pos
  objects : List Pos
  floraBPatch : List (Int × Int)
  floraEPatch : List (Int × Int)

/-- Embedding of `find_decoration_positions(tiles, material_map, width,
height, rng)` (the `tiles` argument is unused by the source body). -/
def find_decoration_positions (_tiles : List Int) (mm : Grid) (w h : Int) (s : RS) :
    Decorations :=
  let c := collectCandidates mm w h
  let inc := incompatSets mm w h
  let bufferedGrass := c.grassSet.filter (fun p => ¬ inc.forGrass.contains p)
  let bufferedDirt := c.dirtSet.filter (fun p => ¬ inc.forDirt.contains p)
  let (fbRaw, s1) := make_flora_blobs w h bufferedGrass (3 / 10) s
  let floraBPatch := remove_singletons fbRaw
  let (feRaw, s2) := make_flora_blobs w h bufferedDirt (2 / 5) s1
  let floraEPatch := remove_singletons feRaw
  let floraPatchAll := floraEPatch.foldl setAdd floraBPatch
  let tre := placeTrees w h floraPatchAll floraBPatch s2
  let treeOcc := tre.occ
  let maxFloraA := min 3000 (c.grassTiles.length / 20)
  let understoryTarget := (3 * maxFloraA) / 5
  let (ttp, s3) := shuffle treeOcc tre.s
  let fst1 :=
    understoryLoop mm w h c.grassSet treeOcc understoryTarget ttp
      { occ := [], ps := [], cnt := 0, s := s3 }
  let (gts, s4) := shuffle c.grassTiles fst1.s
  let fst2 := scatterLoop mm w h treeOcc maxFloraA gts { fst1 with s := s4 }
  let (rets, s5) := shuffle c.roadEdgeTiles fst2.s
  let maxFloraB := min 1500 (c.roadEdgeTiles.length / 3)
  let fb := floraBLoop mm w h treeOcc maxFloraB rets ({ fst2 with s := s5 }, 0)
  let fst3 := fb.1
  let (dgt, s6) := shuffle c.dirtGravelTiles fst3.s
  let maxObjects := min 500 (c.dirtGravelTiles.length / 80)
  let ost := objectsLoop mm w h treeOcc fst3.occ maxObjects dgt { occ := [], ps := [], s := s6 }
  let (rts, s7) := shuffle c.roadTiles ost.s
  let maxCars := min 100 (max (c.roadTiles.length / 30) 3)
  let cst := carsLoop treeOcc ost.occ maxCars rts { occ := [], ps := [], s := s7 }
  { trees := tre.ps, cars := cst.ps, flora := fst3.ps, objects := ost.ps,
    floraBPatch := floraBPatch, floraEPatch := floraEPatch }

/-- All decoration positions of the four entity categories, in category
order. -/
def allDecorations (d : Decorations) : List Pos :=
  d.trees ++ d.flora ++ d.objects ++ d.cars

/-- The grid cell a decoration's world position came from. -/
def cellOf (q : Pos) : Int × Int := isoWorldToGrid (wpos q)

/-- Invariant of the tree placement loops: pairwise-distinct world
positions and every placed cell recorded in `tree_occupied`. -/
def treeI (st : PlaceState) : Prop :=
  (st.ps.map wpos).Nodup ∧ ∀ q ∈ st.ps, cellOf q ∈ st.occ

/-- Invariant of the flora loops: pairwise-distinct world positions, cells
recorded in `flora_occupied`, never on a tree cell, never on a road
cell. -/
def floraI (mm : Grid) (w : Int) (treeOcc : List (Int × Int)) (st : FloraState) : Prop :=
  (st.ps.map wpos).Nodup ∧
    ∀ q ∈ st.ps, cellOf q ∈ st.occ ∧ cellOf q ∉ treeOcc ∧
      gridGet mm (idx w (cellOf q).1 (cellOf q).2) ≠ "B"

/-- Invariant of the object loop: pairwise-distinct world positions, cells
recorded in `obj_occupied`, never on a tree or flora cell. -/
def objI (treeOcc floraOcc : List (Int × Int)) (st : PlaceState) : Prop :=
  (st.ps.map wpos).Nodup ∧
    ∀ q ∈ st.ps, cellOf q ∈ st.occ ∧ cellOf q ∉ treeOcc ∧ cellOf q ∉ floraOcc

/-- Invariant of the car loop: pairwise-distinct world positions, cells
recorded in `car_occupied`, never on a tree or object cell, always on a
road cell. -/
def carI (mm : Grid) (w : Int) (treeOcc objOcc : List (Int × Int)) (st : PlaceState) :
    Prop :=
  (st.ps.map wpos).Nodup ∧
    ∀ q ∈ st.ps, cellOf q ∈ st.occ ∧ cellOf q ∉ treeOcc ∧ cellOf q ∉ objOcc ∧
      gridGet mm (idx w (cellOf q).1 (cellOf q).2) = "B"

/-! Embedding of the flora-overlay tile table (build_game.py lines 59-66)
and of the border-primitive classifier `pick_flora_tile`
(build_game.py lines 970-1002). -/

/-- The key list of `FLORA_TILE_IDS` in construction order: series B then
E, variants 1/2/4/5/6, directions n/e/s/w. -/
def floraTileKeys : List String :=
  (["b", "e"]).flatMap
    (fun ser =>
      ([1, 2, 4, 5, 6] : List Nat).flatMap
        (fun v =>
          (["n", "e", "s", "w"]).map
            (fun d => "flora_" ++ ser ++ toString v ++ "_" ++ d)))

/-- Models the dict `FLORA_TILE_IDS`: ids 210, 211, ... in key order. -/
def FLORA_TILE_IDS (key : String) : Int :=
  match (floraTileKeys.zip (List.range floraTileKeys.length)).lookup key with
  | some i => 210 + (i : Int)
  | none => 0

/-- The exposed diagonal of an outside corner, as named in the source
comments of `pick_flora_tile` ("N+E present (SW exposed)" and so on). -/
inductive Diagonal
  | NE
  | SE
  | SW
  | NW
deriving DecidableEq

/-- The diagonal-to-tile-direction authoring convention documented in
`pick_flora_tile`: SW exposed uses the `_e` tile, NW the `_n` tile, NE the
`_w` tile, SE the `_s` tile. -/
def diagonalSuffix : Diagonal → String
  | .SW => "e"
  | .NW => "n"
  | .NE => "w"
  | .SE => "s"

/-- Specification-side classifier for the outside-corner case of
`pick_flora_tile`, written from the words of the spec: exactly two
cardinal neighbours meeting at a corner classify as an outside corner
oriented towards the opposite (exposed) diagonal; every other
configuration is not an outside corner. -/
def classifyFloraSpec (hasN hasS hasW hasE : Bool) : Option Diagonal :=
  if hasN && hasE && !hasS && !hasW then some .SW
  else if hasE && hasS && !hasN && !hasW then some .NW
  else if hasS && hasW && !hasN && !hasE then some .NE
  else if hasW && hasN && !hasS && !hasE then some .SE
  else none

/-- Embedding of `pick_flora_tile(tx, ty, patch_set, series)`: membership
of the four cardinal neighbours in the patch decides between the
outside-corner branch (random variant 2/5/6, direction from the corner)
and the full-tile branch (random variant 1/4, random direction). -/
def pick_flora_tile (tx ty : Int) (patch : List (Int × Int)) (series : String) (s : RS) :
    Int × RS :=
  let hasN := patch.contains (tx, ty - 1)
  let hasS := patch.contains (tx, ty + 1)
  let hasW := patch.contains (tx - 1, ty)
  let hasE := patch.contains (tx + 1, ty)
  let p := series.toLower
  let count := (if hasN then 1 else 0) + (if hasS then 1 else 0) +
    (if hasW then 1 else 0) + (if hasE then 1 else 0)
  if count = 2 ∧ ¬ (hasN ∧ hasS) ∧ ¬ (hasE ∧ hasW) then
    let (v, s1) := choice ([2, 5, 6] : List Nat) 2 s
    if hasN ∧ hasE then (FLORA_TILE_IDS ("flora_" ++ p ++ toString v ++ "_e"), s1)
    else if hasE ∧ hasS then (FLORA_TILE_IDS ("flora_" ++ p ++ toString v ++ "_n"), s1)
    else if hasS ∧ hasW then (FLORA_TILE_IDS ("flora_" ++ p ++ toString v ++ "_w"), s1)
    else (FLORA_TILE_IDS ("flora_" ++ p ++ toString v ++ "_s"), s1)
  else
    let (v, s1) := choice ([1, 4] : List Nat) 1 s
    let (d, s2) := choice (["n", "e", "s", "w"]) "n" s1
    (FLORA_TILE_IDS ("flora_" ++ p ++ toString v ++ "_" ++ d), s2)

/-! Concrete fixtures used by witnesses and counterexamples. -/

/-- Chebyshev (box) distance between two cells. -/
def cheb (a b : Int × Int) : Int := max |a.1 - b.1| |a.2 - b.2|

/-- Manhattan distance between two cells. -/
def manhattan (a b : Int × Int) : Int := |a.1 - b.1| + |a.2 - b.2|

/-- The all-zeros random stream (one concrete seed of the model). -/
def zeroStream : RS := ⟨fun _ => 0, 0⟩

/-- A discovered-material configuration in which only the base material
"D" has a tile id (an atlas directory with no usable atlases). -/
def cfgDOnly : Config :=
  ⟨fun m => if m = "D" then some 8 else none⟩

/-- The empty discovered-material configuration: no material resolves a
tile id (no atlases discovered at all). -/
def cfgNone : Config := ⟨fun _ => none⟩

/-- A discovered-material configuration covering every material the
generator can paint (as the shipped atlas directory does). -/
def cfgStd : Config :=
  ⟨fun m =>
    if m = "D" then some 8
    else if m = "G" then some 9
    else if m = "A" then some 10
    else if m = "B" then some 11
    else if m = "E" then some 12
    else none⟩

/-! Generic helper lemmas. -/

theorem mem_intRange {a b x : Int} : x ∈ intRange a b ↔ a ≤ x ∧ x < b := by
  rw [intRange, List.mem_map]
  constructor
  · intro h
    obtain ⟨k, hk, he⟩ := h
    rw [List.mem_range] at hk
    subst he
    have h2 : (k : Int) < ((b - a).toNat : Int) := by exact_mod_cast hk
    omega
  · intro h
    refine ⟨(x - a).toNat, ?_, ?_⟩
    · rw [List.mem_range]
      omega
    · show a + ((x - a).toNat : Int) = x
      omega

theorem mem_coords {w h : Int} {c : Int × Int} :
    c ∈ coords w h ↔ (0 ≤ c.1 ∧ c.1 < w) ∧ 0 ≤ c.2 ∧ c.2 < h := by
  rw [coords, List.mem_flatMap]
  constructor
  · intro hc
    obtain ⟨y, hy, hc⟩ := hc
    rw [List.mem_map] at hc
    obtain ⟨x, hx, rfl⟩ := hc
    rw [mem_intRange] at hy hx
    exact ⟨by simpa using hx, by simpa using hy⟩
  · intro hc
    refine ⟨c.2, mem_intRange.mpr (by omega), ?_⟩
    rw [List.mem_map]
    exact ⟨c.1, mem_intRange.mpr (by omega), rfl⟩

theorem contains_iff {l : List (Int × Int)} {x : Int × Int} : l.contains x = true ↔ x ∈ l :=
  List.elem_iff

theorem idx_lt {w h x y : Int} (hx : 0 ≤ x) (hx2 : x < w) (hy : 0 ≤ y) (hy2 : y < h) :
    idx w x y < (w * h).toNat := by
  rw [idx]
  have h0 : 0 ≤ y * w := mul_nonneg hy (by omega)
  have h1 : y * w + x < w * h := by
    have : y * w + x < (y + 1) * w := by nlinarith
    have h2 : (y + 1) * w ≤ h * w := by
      apply mul_le_mul_of_nonneg_right
      · omega
      · omega
    nlinarith
  omega

theorem idx_inj {w h x y x2 y2 : Int} (hx : 0 ≤ x) (hx2 : x < w) (hy : 0 ≤ y) (hy2 : y < h)
    (hx3 : 0 ≤ x2) (hx4 : x2 < w) (hy3 : 0 ≤ y2) (hy4 : y2 < h)
    (he : idx w x y = idx w x2 y2) : x = x2 ∧ y = y2 := by
  rw [idx, idx] at he
  have h0 : 0 ≤ y * w := mul_nonneg hy (by omega)
  have h02 : 0 ≤ y2 * w := mul_nonneg hy3 (by omega)
  have h1 : y * w + x = y2 * w + x2 := by omega
  have hq : (x + y * w) / w = y := by
    rw [Int.add_mul_ediv_right _ _ (by omega : w ≠ 0), Int.ediv_eq_zero_of_lt hx hx2]
    omega
  have hq2 : (x2 + y2 * w) / w = y2 := by
    rw [Int.add_mul_ediv_right _ _ (by omega : w ≠ 0), Int.ediv_eq_zero_of_lt hx3 hx4]
    omega
  have hyy : y = y2 := by
    rw [← hq, ← hq2]
    congr 1
    omega
  constructor
  · nlinarith
  · exact hyy

theorem getD_set_self {α : Type} {l : List α} {i : Nat} {a d : α} (h : i < l.length) :
    (l.set i a).getD i d = a := by
  rw [List.getD_eq_getElem?_getD, List.getElem?_set_self h]
  rfl

theorem getD_set_ne {α : Type} {l : List α} {i j : Nat} {a d : α} (h : i ≠ j) :
    (l.set i a).getD j d = l.getD j d := by
  rw [List.getD_eq_getElem?_getD, List.getElem?_set_ne h, ← List.getD_eq_getElem?_getD]

theorem getD_set_or {α : Type} {l : List α} {i j : Nat} {a d : α} :
    (l.set i a).getD j d = a ∨ (l.set i a).getD j d = l.getD j d := by
  by_cases h : i = j
  · subst h
    by_cases hl : i < l.length
    · exact Or.inl (getD_set_self hl)
    · rw [List.set_eq_of_length_le (by omega)]
      exact Or.inr rfl
  · exact Or.inr (getD_set_ne h)

theorem foldl_inv {α β : Type} {P : β → Prop} {f : β → α → β} {l : List α} {b : β}
    (hb : P b) (hf : ∀ b a, a ∈ l → P b → P (f b a)) : P (l.foldl f b) := by
  induction l generalizing b with
  | nil => exact hb
  | cons x xs ih =>
    exact ih (hf b x (by simp) hb) (fun b a ha hb2 => hf b a (by simp [ha]) hb2)

theorem foldl_inv_from_mem {α β : Type} {P : β → Prop} {f : β → α → β} {l : List α}
    {b : β} {x : α} (hx : x ∈ l) (hest : ∀ b, P (f b x))
    (hf : ∀ b a, a ∈ l → P b → P (f b a)) : P (l.foldl f b) := by
  obtain ⟨s, t, rfl⟩ := List.append_of_mem hx
  rw [List.foldl_append]
  have hsub : ∀ a ∈ x :: t, a ∈ s ++ x :: t := fun a ha => by simp [ha]
  rw [List.foldl_cons]
  exact foldl_inv (hest _) (fun b a ha hb => hf b a (hsub a (by simp [ha])) hb)

theorem mem_listSwap {α : Type} {l : List α} {i j : Nat} {x : α}
    (h : x ∈ listSwap l i j) : x ∈ l := by
  rw [listSwap] at h
  split at h
  case h_1 a b ha hb =>
    rcases List.mem_or_eq_of_mem_set h with h2 | h2
    · rcases List.mem_or_eq_of_mem_set h2 with h3 | h3
      · exact h3
      · subst h3
        obtain ⟨hlt, he⟩ := List.getElem?_eq_some_iff.mp hb
        exact he ▸ List.getElem_mem hlt
    · subst h2
      obtain ⟨hlt, he⟩ := List.getElem?_eq_some_iff.mp ha
      exact he ▸ List.getElem_mem hlt
  case h_2 => exact h

theorem mem_shuffle {α : Type} {l : List α} {s : RS} {x : α}
    (h : x ∈ (shuffle l s).1) : x ∈ l := by
  rw [shuffle] at h
  have key : ∀ (m : List Nat) (st : List α × RS), (∀ y ∈ st.1, y ∈ l) →
      ∀ y ∈ (m.foldl (fun st i =>
        let (k, s1) := st.2.next
        (listSwap st.1 i (k % (i + 1)), s1)) st).1, y ∈ l := by
    intro m
    induction m with
    | nil => intro st hst y hy; exact hst y hy
    | cons i is ih =>
      intro st hst y hy
      refine ih _ ?_ y hy
      intro z hz
      exact hst z (mem_listSwap hz)
  exact key _ (l, s) (fun y hy => hy) x h

theorem choice_mem {α : Type} {l : List α} {d : α} {s : RS} (h : l ≠ []) :
    (choice l d s).1 ∈ l := by
  rw [choice]
  have hlen : 0 < l.length := List.length_pos.mpr h
  have hk : (s.next.1 % l.length.max 1) < l.length := by
    have hm : l.length.max 1 = l.length := Nat.max_eq_left hlen
    rw [hm]
    exact Nat.mod_lt _ hlen
  show l.getD _ d ∈ l
  rw [List.getD_eq_getElem?_getD, List.getElem?_eq_getElem hk]
  exact List.getElem_mem hk

theorem isoWorldToGrid_iso (c r : Int) : isoWorldToGrid (iso_grid_to_world c r) = (c, r) := by
  rw [iso_grid_to_world, isoWorldToGrid]
  have h1 : ((c + r) * 32) / 32 = c + r := Int.mul_ediv_cancel _ (by norm_num)
  have h2 : ((c - r) * 64) / 64 = c - r := Int.mul_ediv_cancel _ (by norm_num)
  simp only []
  rw [Prod.mk.injEq]
  constructor
  · show ((c + r) * 32 / 32 + (c - r) * 64 / 64) / 2 = c
    rw [h1, h2]
    omega
  · show ((c + r) * 32 / 32 - (c - r) * 64 / 64) / 2 = r
    rw [h1, h2]
    omega

theorem is_clear_of_not_mem {tx ty : Int} {occ : List (Int × Int)} {d : Int}
    (hd : 0 ≤ d) (h : is_clear_of tx ty occ d = true) : (tx, ty) ∉ occ := by
  rw [is_clear_of, List.all_eq_true] at h
  have h0 := h 0 (mem_intRange.mpr (by omega))
  rw [List.all_eq_true] at h0
  have h1 := h0 0 (mem_intRange.mpr (by omega))
  rw [show tx + 0 = tx by omega, show ty + 0 = ty by omega] at h1
  intro hmem
  rw [← contains_iff] at hmem
  rw [hmem] at h1
  simp at h1

/-! Claim C1: determinism of generation.  In the embedding every stochastic
decision reads the explicit rng stream, so equal inputs and equal streams
give definitionally equal results; the theorem states this for both
`generate_world` and `find_decoration_positions`. -/

/-- C1: generation is deterministic: two calls of `generate_world` with the
same dimensions, configuration and seed stream return identical tile
arrays, road overlays and material maps, and two equally-seeded runs of
`find_decoration_positions` on equal inputs return identical
position/variant lists for every category. -/
theorem C1_determinism (cfg : Config) (w h : Int) (s s2 : RS) (hs : s = s2)
    (tiles : List Int) (mm : Grid) (w2 h2 : Int) (t t2 : RS) (ht : t = t2) :
    generate_world cfg w h s = generate_world cfg w h s2 ∧
      find_decoration_positions tiles mm w2 h2 t = find_decoration_positions tiles mm w2 h2 t2 := by
  subst hs
  subst ht
  exact ⟨rfl, rfl⟩

/-- Witness for C1 at concrete inputs. -/
theorem C1_determinism_witness :
    generate_world cfgStd 9 9 zeroStream = generate_world cfgStd 9 9 zeroStream ∧
      find_decoration_positions [] [] 9 9 zeroStream =
        find_decoration_positions [] [] 9 9 zeroStream :=
  C1_determinism cfgStd 9 9 zeroStream zeroStream rfl [] [] 9 9 zeroStream zeroStream rfl

/-! Claim C2: the outside-corner cases of the border-primitive classifier
`pick_flora_tile`.  The source encodes the orientation as the tile-name
suffix; the comments in `pick_flora_tile` fix the authoring convention
"N+E present = SW exposed -> _e" (and cyclically), captured by
`diagonalSuffix`. -/

/-- C2: for a cell whose only patch cardinal neighbours are N and E,
`pick_flora_tile` returns the outside-corner tile oriented by the SW
diagonal (tile suffix `_e` under the authoring convention), and likewise
E+S gives NW, S+W gives NE and W+N gives SE; in each case the variant is
drawn from the outside-corner pool {2, 5, 6}. -/
theorem C2_outside_corners (tx ty : Int) (patch : List (Int × Int)) (series : String)
    (s : RS) :
    (((tx, ty - 1) ∈ patch ∧ (tx + 1, ty) ∈ patch ∧ (tx, ty + 1) ∉ patch ∧
        (tx - 1, ty) ∉ patch) →
      (pick_flora_tile tx ty patch series s).1 =
        FLORA_TILE_IDS ("flora_" ++ series.toLower ++
          toString (choice ([2, 5, 6] : List Nat) 2 s).1 ++ "_" ++ diagonalSuffix Diagonal.SW) ∧
        (choice ([2, 5, 6] : List Nat) 2 s).1 ∈ ([2, 5, 6] : List Nat)) ∧
    (((tx + 1, ty) ∈ patch ∧ (tx, ty + 1) ∈ patch ∧ (tx, ty - 1) ∉ patch ∧
        (tx - 1, ty) ∉ patch) →
      (pick_flora_tile tx ty patch series s).1 =
        FLORA_TILE_IDS ("flora_" ++ series.toLower ++
          toString (choice ([2, 5, 6] : List Nat) 2 s).1 ++ "_" ++ diagonalSuffix Diagonal.NW) ∧
        (choice ([2, 5, 6] : List Nat) 2 s).1 ∈ ([2, 5, 6] : List Nat)) ∧
    (((tx, ty + 1) ∈ patch ∧ (tx - 1, ty) ∈ patch ∧ (tx, ty - 1) ∉ patch ∧
        (tx + 1, ty) ∉ patch) →
      (pick_flora_tile tx ty patch series s).1 =
        FLORA_TILE_IDS ("flora_" ++ series.toLower ++
          toString (choice ([2, 5, 6] : List Nat) 2 s).1 ++ "_" ++ diagonalSuffix Diagonal.NE) ∧
        (choice ([2, 5, 6] : List Nat) 2 s).1 ∈ ([2, 5, 6] : List Nat)) ∧
    (((tx - 1, ty) ∈ patch ∧ (tx, ty - 1) ∈ patch ∧ (tx, ty + 1) ∉ patch ∧
        (tx + 1, ty) ∉ patch) →
      (pick_flora_tile tx ty patch series s).1 =
        FLORA_TILE_IDS ("flora_" ++ series.toLower ++
          toString (choice ([2, 5, 6] : List Nat) 2 s).1 ++ "_" ++ diagonalSuffix Diagonal.SE) ∧
        (choice ([2, 5, 6] : List Nat) 2 s).1 ∈ ([2, 5, 6] : List Nat)) := by
  have hchoice : (choice ([2, 5, 6] : List Nat) 2 s).1 ∈ ([2, 5, 6] : List Nat) :=
    choice_mem (by simp)
  refine ⟨?_, ?_, ?_, ?_⟩ <;> intro hconf
  · obtain ⟨hN, hE, hS, hW⟩ := hconf
    rw [← contains_iff] at hN hE
    have hS2 : patch.contains (tx, ty + 1) = false := by
      rw [← Bool.not_eq_true, contains_iff]
      exact hS
    have hW2 : patch.contains (tx - 1, ty) = false := by
      rw [← Bool.not_eq_true, contains_iff]
      exact hW
    rw [pick_flora_tile]
    simp only [hN, hE, hS2, hW2]
    norm_num [diagonalSuffix]
    refine ⟨?_, by simpa using hchoice⟩
    congr 1
    simp only [String.append_assoc]
    rfl
  · obtain ⟨hE, hS, hN, hW⟩ := hconf
    rw [← contains_iff] at hE hS
    have hN2 : patch.contains (tx, ty - 1) = false := by
      rw [← Bool.not_eq_true, contains_iff]
      exact hN
    have hW2 : patch.contains (tx - 1, ty) = false := by
      rw [← Bool.not_eq_true, contains_iff]
      exact hW
    rw [pick_flora_tile]
    simp only [hE, hS, hN2, hW2]
    norm_num [diagonalSuffix]
    refine ⟨?_, by simpa using hchoice⟩
    congr 1
    simp only [String.append_assoc]
    rfl
  · obtain ⟨hS, hW, hN, hE⟩ := hconf
    rw [← contains_iff] at hS hW
    have hN2 : patch.contains (tx, ty - 1) = false := by
      rw [← Bool.not_eq_true, contains_iff]
      exact hN
    have hE2 : patch.contains (tx + 1, ty) = false := by
      rw [← Bool.not_eq_true, contains_iff]
      exact hE
    rw [pick_flora_tile]
    simp only [hS, hW, hN2, hE2]
    norm_num [diagonalSuffix]
    refine ⟨?_, by simpa using hchoice⟩
    congr 1
    simp only [String.append_assoc]
    rfl
  · obtain ⟨hW, hN, hS, hE⟩ := hconf
    rw [← contains_iff] at hW hN
    have hS2 : patch.contains (tx, ty + 1) = false := by
      rw [← Bool.not_eq_true, contains_iff]
      exact hS
    have hE2 : patch.contains (tx + 1, ty) = false := by
      rw [← Bool.not_eq_true, contains_iff]
      exact hE
    rw [pick_flora_tile]
    simp only [hW, hN, hS2, hE2]
    norm_num [diagonalSuffix]
    refine ⟨?_, by simpa using hchoice⟩
    congr 1
    simp only [String.append_assoc]
    rfl

/-- Witness for C2: the N+E configuration around the origin. -/
theorem C2_outside_corners_witness :
    ((0, -1) ∈ ([((0 : Int), (-1 : Int)), (1, 0)] : List (Int × Int)) ∧
        ((1 : Int), (0 : Int)) ∈ ([((0 : Int), (-1 : Int)), (1, 0)] : List (Int × Int)) ∧
        ((0 : Int), (1 : Int)) ∉ ([((0 : Int), (-1 : Int)), (1, 0)] : List (Int × Int)) ∧
        ((-1 : Int), (0 : Int)) ∉ ([((0 : Int), (-1 : Int)), (1, 0)] : List (Int × Int))) ∧
      (pick_flora_tile 0 0 [((0 : Int), (-1 : Int)), (1, 0)] "B" zeroStream).1 =
        FLORA_TILE_IDS ("flora_" ++ "B".toLower ++
          toString (choice ([2, 5, 6] : List Nat) 2 zeroStream).1 ++ "_" ++
          diagonalSuffix Diagonal.SW) := by
  refine ⟨by decide, ?_⟩
  exact ((C2_outside_corners 0 0 [((0 : Int), (-1 : Int)), (1, 0)] "B" zeroStream).1
    (by decide)).1

/-! Claim C8: zombie-spawn selection. -/

theorem zombieSpawnStep_cases (tiles : List Int) (w h : Int) (ps : Int × Int) (count : Nat)
    (st : List (Int × Int) × RS × Bool) (minDist : Int) :
    zombieSpawnStep tiles w h ps count st minDist = st ∨
    (∃ s2 : RS, zombieSpawnStep tiles w h ps count st minDist = (st.1, s2, false)) ∨
    (∃ (s2 : RS) (p : Int × Int),
      (minDist ≤ 0 ∨ minDist * minDist ≤ distSq p ps) ∧
      zombieSpawnStep tiles w h ps count st minDist =
        (st.1 ++ [p], s2, decide (count ≤ st.1.length + 1))) := by
  rw [zombieSpawnStep]
  by_cases h1 : st.2.2
  · simp [h1]
  · simp only [h1, Bool.false_eq_true, if_false]
    rcases hr1 : randint 2 (w - 3) st.2.1 with ⟨tx, s1⟩
    rcases hr2 : randint 2 (h - 3) s1 with ⟨ty, s2⟩
    dsimp only
    by_cases h2 : (0 ≤ tiles.getD (ty * w + tx).toNat 0 ∧ tiles.getD (ty * w + tx).toNat 0 < 256)
    · simp only [h2, not_true, if_false, ite_false, if_neg (not_not_intro h2)]
      by_cases h3 : minDist ≤ 0 ∨ minDist * minDist ≤ distSq (iso_grid_to_world tx ty) ps
      · refine Or.inr (Or.inr ⟨s2, iso_grid_to_world tx ty, h3, ?_⟩)
        simp only [h3, if_true, if_pos h3]
        simp [List.length_append]
      · refine Or.inr (Or.inl ⟨s2, ?_⟩)
        simp [h3]
    · refine Or.inr (Or.inl ⟨s2, ?_⟩)
      rw [if_pos h2]

/-- C8: `find_zombie_spawns` returns at most `count` positions, and every
returned world position is at Euclidean distance at least `min_dist` from
the player spawn (stated by the exact squared comparison `distSq`); when
fewer qualifying positions are found the list is simply shorter - the
function is total and never fails. -/
theorem C8_spawn_selection (tiles : List Int) (w h : Int) (ps : Int × Int) (count : Nat)
    (s : RS) (minDist : Int) (hmd : 0 ≤ minDist) :
    (find_zombie_spawns tiles w h ps count s minDist).1.length ≤ count ∧
      ∀ p ∈ (find_zombie_spawns tiles w h ps count s minDist).1,
        minDist * minDist ≤ distSq p ps := by
  by_cases hc : count = 0
  · subst hc
    simp [find_zombie_spawns]
  · have hc2 : 0 < count := Nat.pos_of_ne_zero hc
    have key :
        (fun (st : List (Int × Int) × RS × Bool) =>
            (st.1.length ≤ count ∧ (st.2.2 = false → st.1.length < count)) ∧
              ∀ p ∈ st.1, minDist * minDist ≤ distSq p ps)
          ((List.range (count * 50)).foldl
            (fun st _ => zombieSpawnStep tiles w h ps count st minDist) ([], s, false)) := by
      refine foldl_inv
        (P := fun (st : List (Int × Int) × RS × Bool) =>
          (st.1.length ≤ count ∧ (st.2.2 = false → st.1.length < count)) ∧
            ∀ p ∈ st.1, minDist * minDist ≤ distSq p ps)
        ⟨⟨by simp, fun _ => by simpa using hc2⟩, by simp⟩ ?_
      intro st a _ hP
      rcases zombieSpawnStep_cases tiles w h ps count st minDist with he | ⟨s2, he⟩ |
        ⟨s2, p, hdist, he⟩
      · rw [he]
        exact hP
      · rw [he]
        refine ⟨⟨hP.1.1, fun _ => ?_⟩, hP.2⟩
        rcases Bool.eq_false_or_eq_true st.2.2 with hb | hb
        · -- with the done flag set the step is the identity, contradicting he
          rw [zombieSpawnStep, if_pos hb] at he
          have h2 : st.2.2 = false := by
            rw [he]
          rw [h2] at hb
          exact absurd hb (by simp)
        · exact hP.1.2 hb
      · rw [he]
        have hlt : st.1.length < count := by
          rcases Bool.eq_false_or_eq_true st.2.2 with hb | hb
          · -- with the done flag set the step is the identity, contradicting he
            rw [zombieSpawnStep, if_pos hb] at he
            have h3 : st.1 = st.1 ++ [p] := congrArg Prod.fst he
            have hlen := congrArg List.length h3
            simp at hlen
          · exact hP.1.2 hb
        refine ⟨⟨by simpa using hlt, fun hfl => ?_⟩, ?_⟩
        · simp only [decide_eq_false_iff_not, not_le] at hfl
          simpa using hfl
        · intro p2 hp2
          rcases List.mem_append.mp hp2 with hmem | hmem
          · exact hP.2 p2 hmem
          · rw [List.mem_singleton] at hmem
            subst hmem
            rcases hdist with hd | hd
            · have hz : minDist = 0 := le_antisymm hd hmd
              subst hz
              have : (0 : Int) ≤ distSq p2 ps := by
                rw [distSq]
                positivity
              simpa using this
            · exact hd
    rw [find_zombie_spawns]
    exact ⟨key.1.1, key.2⟩

/-- Witness for C8 at a concrete input. -/
theorem C8_spawn_selection_witness :
    (0 : Int) ≤ 0 ∧
      ((find_zombie_spawns (List.replicate 25 8) 5 5 (0, 0) 1 zeroStream 0).1.length ≤ 1 ∧
        ∀ p ∈ (find_zombie_spawns (List.replicate 25 8) 5 5 (0, 0) 1 zeroStream 0).1,
          (0 : Int) * 0 ≤ distSq p (0, 0)) :=
  ⟨le_refl 0, C8_spawn_selection (List.replicate 25 8) 5 5 (0, 0) 1 zeroStream 0 (le_refl 0)⟩

/-! Claims C10 and C6: road-corridor geometry.  The phase lemmas below
track, cell by cell, where `place_road_corridors` writes. -/

theorem foldl_estab {α β : Type} {I P : β → Prop} {f : β → α → β} {l : List α} {b : β}
    {x : α} (hx : x ∈ l) (hIb : I b)
    (hIstep : ∀ b a, a ∈ l → I b → I (f b a))
    (hest : ∀ b, I b → P (f b x))
    (hpres : ∀ b a, a ∈ l → P b → P (f b a)) : P (l.foldl f b) := by
  obtain ⟨s, t, rfl⟩ := List.append_of_mem hx
  rw [List.foldl_append, List.foldl_cons]
  have hI : I (s.foldl f b) :=
    foldl_inv hIb (fun b a ha => hIstep b a (by simp [ha]))
  exact foldl_inv (hest _ hI) (fun b a ha hb => hpres b a (by simp [ha]) hb)

theorem hRowOf_bounds {h : Int} (hh : 9 ≤ h) : 4 ≤ hRowOf h ∧ hRowOf h ≤ h - 5 := by
  rw [hRowOf]
  omega

theorem vColOf_bounds {w : Int} (hw : 9 ≤ w) : 4 ≤ vColOf w ∧ vColOf w ≤ w - 5 := by
  rw [vColOf]
  omega

/-- A frame cell (in bounds but within 2 of an edge) has a different flat
index from every interior cell. -/
theorem frame_ne {w h fx fy : Int} (hfx : 0 ≤ fx) (hfx2 : fx < w) (hfy : 0 ≤ fy)
    (hfy2 : fy < h) (hframe : fx < 2 ∨ w - 2 ≤ fx ∨ fy < 2 ∨ h - 2 ≤ fy)
    {x y : Int} (hx : 2 ≤ x) (hx2 : x < w - 2) (hy : 2 ≤ y) (hy2 : y < h - 2) :
    idx w x y ≠ idx w fx fy := by
  intro he
  have := idx_inj (by omega) (by omega) (by omega) (by omega) hfx hfx2 hfy hfy2 he
  omega

theorem roadPlaza_frame {w h hRow vCol : Int} (st : RoadState) {i : Nat}
    (hno : ∀ x y : Int, 2 ≤ x → x < w - 2 → 2 ≤ y → y < h - 2 → idx w x y ≠ i) :
    (roadPlaza w h hRow vCol st).grid.getD i "D" = st.grid.getD i "D" ∧
      (roadPlaza w h hRow vCol st).ov = st.ov := by
  rw [roadPlaza]
  refine foldl_inv
    (P := fun st2 : RoadState =>
      st2.grid.getD i "D" = st.grid.getD i "D" ∧ st2.ov = st.ov) ⟨rfl, rfl⟩ ?_
  intro st2 dy _ hP
  refine foldl_inv
    (P := fun st2 : RoadState =>
      st2.grid.getD i "D" = st.grid.getD i "D" ∧ st2.ov = st.ov) hP ?_
  intro st3 dx _ hP3
  dsimp only
  split
  case isTrue hb =>
    split
    case isTrue =>
      exact ⟨by
        rw [getD_set_ne (hno _ _ hb.1 hb.2.1 hb.2.2.1 hb.2.2.2)]
        exact hP3.1, hP3.2⟩
    case isFalse => exact hP3
  case isFalse => exact hP3

theorem bulgePaint_frame {w h bx by2 brx bry : Int} (st : RoadState) {i : Nat}
    (hno : ∀ x y : Int, 2 ≤ x → x < w - 2 → 2 ≤ y → y < h - 2 → idx w x y ≠ i) :
    (bulgePaint w h bx by2 brx bry st).grid.getD i "D" = st.grid.getD i "D" ∧
      (bulgePaint w h bx by2 brx bry st).ov = st.ov := by
  rw [bulgePaint]
  refine foldl_inv
    (P := fun st2 : RoadState =>
      st2.grid.getD i "D" = st.grid.getD i "D" ∧ st2.ov = st.ov) ⟨rfl, rfl⟩ ?_
  intro st2 dy _ hP
  refine foldl_inv
    (P := fun st2 : RoadState =>
      st2.grid.getD i "D" = st.grid.getD i "D" ∧ st2.ov = st.ov) hP ?_
  intro st3 dx _ hP3
  dsimp only
  split
  case isTrue hb =>
    split
    case isTrue =>
      exact ⟨by
        rw [getD_set_ne (hno _ _ hb.1 hb.2.1 hb.2.2.1 hb.2.2.2)]
        exact hP3.1, hP3.2⟩
    case isFalse => exact hP3
  case isFalse => exact hP3

theorem roadBulge_frame {w h hRow vCol : Int} (st : RoadState) {i : Nat}
    (hno : ∀ x y : Int, 2 ≤ x → x < w - 2 → 2 ≤ y → y < h - 2 → idx w x y ≠ i) :
    (roadBulge w h hRow vCol st).grid.getD i "D" = st.grid.getD i "D" ∧
      (roadBulge w h hRow vCol st).ov = st.ov := by
  rw [roadBulge]
  exact bulgePaint_frame _ hno

theorem roadBulges_frame {w h hRow vCol : Int} (st : RoadState) {i : Nat}
    (hno : ∀ x y : Int, 2 ≤ x → x < w - 2 → 2 ≤ y → y < h - 2 → idx w x y ≠ i) :
    (roadBulges w h hRow vCol st).grid.getD i "D" = st.grid.getD i "D" ∧
      (roadBulges w h hRow vCol st).ov = st.ov := by
  rw [roadBulges]
  refine foldl_inv
    (P := fun st2 : RoadState =>
      st2.grid.getD i "D" = st.grid.getD i "D" ∧ st2.ov = st.ov) ⟨rfl, rfl⟩ ?_
  intro st2 _ _ hP
  have hb := @roadBulge_frame w h hRow vCol st2 _ hno
  exact ⟨hb.1.trans hP.1, hb.2.trans hP.2⟩

theorem stubPaintH_frame {w h hRow sx dir len : Int} (st : RoadState) {i : Nat}
    (hno : ∀ x y : Int, 2 ≤ x → x < w - 2 → 2 ≤ y → y < h - 2 → idx w x y ≠ i) :
    (stubPaintH w h hRow sx dir len st).grid.getD i "D" = st.grid.getD i "D" ∧
      (stubPaintH w h hRow sx dir len st).ov = st.ov := by
  rw [stubPaintH]
  refine foldl_inv
    (P := fun st2 : RoadState =>
      st2.grid.getD i "D" = st.grid.getD i "D" ∧ st2.ov = st.ov) ⟨rfl, rfl⟩ ?_
  intro st2 step _ hP
  dsimp only
  split
  case isTrue hsy =>
    refine foldl_inv
      (P := fun st2 : RoadState =>
        st2.grid.getD i "D" = st.grid.getD i "D" ∧ st2.ov = st.ov) hP ?_
    intro st3 dx _ hP3
    dsimp only
    split
    case isTrue hx =>
      exact ⟨by
        rw [getD_set_ne (hno _ _ hx.1 hx.2 hsy.1 hsy.2)]
        exact hP3.1, hP3.2⟩
    case isFalse => exact hP3
  case isFalse => exact hP

theorem stubPaintV_frame {w h vCol sy dir len : Int} (st : RoadState) {i : Nat}
    (hno : ∀ x y : Int, 2 ≤ x → x < w - 2 → 2 ≤ y → y < h - 2 → idx w x y ≠ i) :
    (stubPaintV w h vCol sy dir len st).grid.getD i "D" = st.grid.getD i "D" ∧
      (stubPaintV w h vCol sy dir len st).ov = st.ov := by
  rw [stubPaintV]
  refine foldl_inv
    (P := fun st2 : RoadState =>
      st2.grid.getD i "D" = st.grid.getD i "D" ∧ st2.ov = st.ov) ⟨rfl, rfl⟩ ?_
  intro st2 step _ hP
  dsimp only
  split
  case isTrue hsx =>
    refine foldl_inv
      (P := fun st2 : RoadState =>
        st2.grid.getD i "D" = st.grid.getD i "D" ∧ st2.ov = st.ov) hP ?_
    intro st3 dy _ hP3
    dsimp only
    split
    case isTrue hy =>
      exact ⟨by
        rw [getD_set_ne (hno _ _ hsx.1 hsx.2 hy.1 hy.2)]
        exact hP3.1, hP3.2⟩
    case isFalse => exact hP3
  case isFalse => exact hP

theorem roadStub_frame {w h hRow vCol : Int} (st : RoadState) {i : Nat}
    (hno : ∀ x y : Int, 2 ≤ x → x < w - 2 → 2 ≤ y → y < h - 2 → idx w x y ≠ i) :
    (roadStub w h hRow vCol st).grid.getD i "D" = st.grid.getD i "D" ∧
      (roadStub w h hRow vCol st).ov = st.ov := by
  rw [roadStub]
  dsimp only
  split
  · exact stubPaintH_frame _ hno
  · exact stubPaintV_frame _ hno

theorem roadStubs_frame {w h hRow vCol : Int} (st : RoadState) {i : Nat}
    (hno : ∀ x y : Int, 2 ≤ x → x < w - 2 → 2 ≤ y → y < h - 2 → idx w x y ≠ i) :
    (roadStubs w h hRow vCol st).grid.getD i "D" = st.grid.getD i "D" ∧
      (roadStubs w h hRow vCol st).ov = st.ov := by
  rw [roadStubs]
  refine foldl_inv
    (P := fun st2 : RoadState =>
      st2.grid.getD i "D" = st.grid.getD i "D" ∧ st2.ov = st.ov) ⟨rfl, rfl⟩ ?_
  intro st2 _ _ hP
  have hb := @roadStub_frame w h hRow vCol st2 _ hno
  exact ⟨hb.1.trans hP.1, hb.2.trans hP.2⟩

theorem roadCoreH_frame {w h hRow : Int} (st : RoadState) {i : Nat}
    (hr1 : 4 ≤ hRow) (hr2 : hRow ≤ h - 5)
    (hno : ∀ x y : Int, 2 ≤ x → x < w - 2 → 2 ≤ y → y < h - 2 → idx w x y ≠ i) :
    (roadCoreH w h hRow st).grid.getD i "D" = st.grid.getD i "D" ∧
      (roadCoreH w h hRow st).ov.getD i 0 = st.ov.getD i 0 := by
  rw [roadCoreH]
  refine foldl_inv
    (P := fun st2 : RoadState =>
      st2.grid.getD i "D" = st.grid.getD i "D" ∧ st2.ov.getD i 0 = st.ov.getD i 0)
    ⟨rfl, rfl⟩ ?_
  intro st2 dy hdy hP
  rw [mem_intRange] at hdy
  dsimp only
  split
  case isTrue hrow =>
    refine foldl_inv
      (P := fun st2 : RoadState =>
        st2.grid.getD i "D" = st.grid.getD i "D" ∧ st2.ov.getD i 0 = st.ov.getD i 0) hP ?_
    intro st3 x hx hP3
    rw [mem_intRange] at hx
    have hne : idx w x (hRow + dy) ≠ i := hno _ _ hx.1 hx.2 (by omega) (by omega)
    constructor
    · show (st3.grid.set (idx w x (hRow + dy)) "B").getD i "D" = _
      rw [getD_set_ne hne]
      exact hP3.1
    · show (if dy = 0 then st3.ov.set (idx w x (hRow + dy)) T_ROAD_CENTER_H else st3.ov).getD i 0 = _
      split
      · rw [getD_set_ne hne]
        exact hP3.2
      · exact hP3.2
  case isFalse => exact hP

theorem roadCoreV_frame {w h hRow vCol : Int} (st : RoadState) {i : Nat}
    (hv1 : 4 ≤ vCol) (hv2 : vCol ≤ w - 5)
    (hno : ∀ x y : Int, 2 ≤ x → x < w - 2 → 2 ≤ y → y < h - 2 → idx w x y ≠ i) :
    (roadCoreV w h hRow vCol st).grid.getD i "D" = st.grid.getD i "D" ∧
      (roadCoreV w h hRow vCol st).ov.getD i 0 = st.ov.getD i 0 := by
  rw [roadCoreV]
  refine foldl_inv
    (P := fun st2 : RoadState =>
      st2.grid.getD i "D" = st.grid.getD i "D" ∧ st2.ov.getD i 0 = st.ov.getD i 0)
    ⟨rfl, rfl⟩ ?_
  intro st2 dx hdx hP
  rw [mem_intRange] at hdx
  dsimp only
  split
  case isTrue hcol =>
    refine foldl_inv
      (P := fun st2 : RoadState =>
        st2.grid.getD i "D" = st.grid.getD i "D" ∧ st2.ov.getD i 0 = st.ov.getD i 0) hP ?_
    intro st3 y hy hP3
    rw [mem_intRange] at hy
    have hne : idx w (vCol + dx) y ≠ i := hno _ _ (by omega) (by omega) hy.1 hy.2
    constructor
    · show (st3.grid.set (idx w (vCol + dx) y) "B").getD i "D" = _
      rw [getD_set_ne hne]
      exact hP3.1
    · show (if dx = 0 ∧ y ≠ hRow then st3.ov.set (idx w (vCol + dx) y) T_ROAD_CENTER_V else st3.ov).getD i 0 = _
      split
      · rw [getD_set_ne hne]
        exact hP3.2
      · exact hP3.2
  case isFalse => exact hP

/-- Claim C10 (implicit road-frame invariant): for widths and heights of at
least 9, `place_road_corridors` leaves every cell of the outer two-cell
frame unchanged and puts no centre-line overlay there. -/
theorem C10_road_frame {w h : Int} (g : Grid) (s : RS) (hw : 9 ≤ w) (hh : 9 ≤ h)
    {fx fy : Int} (hfx : 0 ≤ fx) (hfx2 : fx < w) (hfy : 0 ≤ fy) (hfy2 : fy < h)
    (hframe : fx < 2 ∨ w - 2 ≤ fx ∨ fy < 2 ∨ h - 2 ≤ fy) :
    (place_road_corridors w h g s).grid.getD (idx w fx fy) "D" = g.getD (idx w fx fy) "D" ∧
      (place_road_corridors w h g s).overlay.getD (idx w fx fy) 0 = 0 := by
  have hno : ∀ x y : Int, 2 ≤ x → x < w - 2 → 2 ≤ y → y < h - 2 → idx w x y ≠ idx w fx fy :=
    fun x y hx hx2 hy hy2 => frame_ne hfx hfx2 hfy hfy2 hframe hx hx2 hy hy2
  have hr := hRowOf_bounds hh
  have hv := vColOf_bounds hw
  rw [place_road_corridors]
  dsimp only
  have h1 := @roadCoreH_frame w h (hRowOf h)
    { grid := g, ov := List.replicate (w * h).toNat 0, s := s } _ hr.1 hr.2 hno
  set st1 := roadCoreH w h (hRowOf h) { grid := g, ov := List.replicate (w * h).toNat 0, s := s }
  have h2 := @roadCoreV_frame w h (hRowOf h) (vColOf w) st1 _
    hv.1 hv.2 hno
  set st2 := roadCoreV w h (hRowOf h) (vColOf w) st1
  have hclear : (st2.ov.set (idx w (vColOf w) (hRowOf h)) 0).getD (idx w fx fy) 0 =
      st2.ov.getD (idx w fx fy) 0 :=
    getD_set_ne (hno _ _ (by omega) (by omega) (by omega) (by omega))
  set st3 : RoadState := { st2 with ov := st2.ov.set (idx w (vColOf w) (hRowOf h)) 0 }
  have h4 := @roadPlaza_frame w h (hRowOf h) (vColOf w) st3 _ hno
  set st4 := roadPlaza w h (hRowOf h) (vColOf w) st3
  have h5 := @roadBulges_frame w h (hRowOf h) (vColOf w) st4 _ hno
  set st5 := roadBulges w h (hRowOf h) (vColOf w) st4
  have h6 := @roadStubs_frame w h (hRowOf h) (vColOf w) st5 _ hno
  have hrepl : (List.replicate (w * h).toNat (0 : Int)).getD (idx w fx fy) 0 = 0 := by
    rw [List.getD_eq_getElem?_getD, List.getElem?_replicate]
    split <;> rfl
  constructor
  · rw [h6.1, h5.1, h4.1]
    show st2.grid.getD (idx w fx fy) "D" = _
    rw [h2.1, h1.1]
  · rw [h6.2, h5.2, h4.2]
    show (st2.ov.set (idx w (vColOf w) (hRowOf h)) 0).getD (idx w fx fy) 0 = 0
    rw [hclear, h2.2, h1.2, hrepl]

/-- Witness for C10: the corner cell of a 9-by-9 grid. -/
theorem C10_road_frame_witness :
    ((9 : Int) ≤ 9 ∧ (0 : Int) ≤ 0 ∧ (0 : Int) < 9 ∧ ((0 : Int) < 2 ∨ (9 : Int) - 2 ≤ 0 ∨
        (0 : Int) < 2 ∨ (9 : Int) - 2 ≤ 0)) ∧
      ((place_road_corridors 9 9 (List.replicate 81 "D") zeroStream).grid.getD (idx 9 0 0) "D" =
          (List.replicate 81 "D").getD (idx 9 0 0) "D" ∧
        (place_road_corridors 9 9 (List.replicate 81 "D") zeroStream).overlay.getD (idx 9 0 0) 0 = 0) :=
  ⟨⟨le_refl 9, le_refl 0, by norm_num, Or.inl (by norm_num)⟩,
    C10_road_frame (List.replicate 81 "D") zeroStream (le_refl 9) (le_refl 9)
      (le_refl 0) (by norm_num) (le_refl 0) (by norm_num) (Or.inl (by norm_num))⟩

/-! Change characterisation of the road phases: every material write of
`place_road_corridors` writes "B". -/

theorem grid_or_step {g : Grid} {j i : Nat} {old : Mat}
    (hP : g.getD i "D" = "B" ∨ g.getD i "D" = old) :
    (g.set j "B").getD i "D" = "B" ∨ (g.set j "B").getD i "D" = old := by
  rcases getD_set_or (l := g) (i := j) (j := i) (a := "B") (d := "D") with hc | hc
  · exact Or.inl hc
  · rw [hc]
    exact hP

theorem roadCoreH_grid_or {w h hRow : Int} (st : RoadState) (i : Nat) :
    (roadCoreH w h hRow st).grid.getD i "D" = "B" ∨
      (roadCoreH w h hRow st).grid.getD i "D" = st.grid.getD i "D" := by
  rw [roadCoreH]
  refine foldl_inv
    (P := fun st2 : RoadState =>
      st2.grid.getD i "D" = "B" ∨ st2.grid.getD i "D" = st.grid.getD i "D")
    (Or.inr rfl) ?_
  intro st2 dy _ hP
  dsimp only
  split
  · refine foldl_inv
      (P := fun st2 : RoadState =>
        st2.grid.getD i "D" = "B" ∨ st2.grid.getD i "D" = st.grid.getD i "D") hP ?_
    intro st3 x _ hP3
    exact grid_or_step hP3
  · exact hP

theorem roadCoreV_grid_or {w h hRow vCol : Int} (st : RoadState) (i : Nat) :
    (roadCoreV w h hRow vCol st).grid.getD i "D" = "B" ∨
      (roadCoreV w h hRow vCol st).grid.getD i "D" = st.grid.getD i "D" := by
  rw [roadCoreV]
  refine foldl_inv
    (P := fun st2 : RoadState =>
      st2.grid.getD i "D" = "B" ∨ st2.grid.getD i "D" = st.grid.getD i "D")
    (Or.inr rfl) ?_
  intro st2 dx _ hP
  dsimp only
  split
  · refine foldl_inv
      (P := fun st2 : RoadState =>
        st2.grid.getD i "D" = "B" ∨ st2.grid.getD i "D" = st.grid.getD i "D") hP ?_
    intro st3 y _ hP3
    exact grid_or_step hP3
  · exact hP

theorem roadPlaza_grid_or {w h hRow vCol : Int} (st : RoadState) (i : Nat) :
    (roadPlaza w h hRow vCol st).grid.getD i "D" = "B" ∨
      (roadPlaza w h hRow vCol st).grid.getD i "D" = st.grid.getD i "D" := by
  rw [roadPlaza]
  refine foldl_inv
    (P := fun st2 : RoadState =>
      st2.grid.getD i "D" = "B" ∨ st2.grid.getD i "D" = st.grid.getD i "D")
    (Or.inr rfl) ?_
  intro st2 dy _ hP
  refine foldl_inv
    (P := fun st2 : RoadState =>
      st2.grid.getD i "D" = "B" ∨ st2.grid.getD i "D" = st.grid.getD i "D") hP ?_
  intro st3 dx _ hP3
  dsimp only
  split
  · split
    · exact grid_or_step hP3
    · exact hP3
  · exact hP3

theorem bulgePaint_grid_or {w h bx by2 brx bry : Int} (st : RoadState) (i : Nat) :
    (bulgePaint w h bx by2 brx bry st).grid.getD i "D" = "B" ∨
      (bulgePaint w h bx by2 brx bry st).grid.getD i "D" = st.grid.getD i "D" := by
  rw [bulgePaint]
  refine foldl_inv
    (P := fun st2 : RoadState =>
      st2.grid.getD i "D" = "B" ∨ st2.grid.getD i "D" = st.grid.getD i "D")
    (Or.inr rfl) ?_
  intro st2 dy _ hP
  refine foldl_inv
    (P := fun st2 : RoadState =>
      st2.grid.getD i "D" = "B" ∨ st2.grid.getD i "D" = st.grid.getD i "D") hP ?_
  intro st3 dx _ hP3
  dsimp only
  split
  · split
    · exact grid_or_step hP3
    · exact hP3
  · exact hP3

theorem roadBulges_grid_or {w h hRow vCol : Int} (st : RoadState) (i : Nat) :
    (roadBulges w h hRow vCol st).grid.getD i "D" = "B" ∨
      (roadBulges w h hRow vCol st).grid.getD i "D" = st.grid.getD i "D" := by
  rw [roadBulges]
  refine foldl_inv
    (P := fun st2 : RoadState =>
      st2.grid.getD i "D" = "B" ∨ st2.grid.getD i "D" = st.grid.getD i "D")
    (Or.inr rfl) ?_
  intro st2 _ _ hP
  have hb : (roadBulge w h hRow vCol st2).grid.getD i "D" = "B" ∨
      (roadBulge w h hRow vCol st2).grid.getD i "D" = st2.grid.getD i "D" := by
    rw [roadBulge]
    exact bulgePaint_grid_or _ i
  rcases hb with hc | hc
  · exact Or.inl hc
  · rw [hc]
    exact hP

theorem stubPaintH_grid_or {w h hRow sx dir len : Int} (st : RoadState) (i : Nat) :
    (stubPaintH w h hRow sx dir len st).grid.getD i "D" = "B" ∨
      (stubPaintH w h hRow sx dir len st).grid.getD i "D" = st.grid.getD i "D" := by
  rw [stubPaintH]
  refine foldl_inv
    (P := fun st2 : RoadState =>
      st2.grid.getD i "D" = "B" ∨ st2.grid.getD i "D" = st.grid.getD i "D")
    (Or.inr rfl) ?_
  intro st2 step _ hP
  dsimp only
  split
  · refine foldl_inv
      (P := fun st2 : RoadState =>
        st2.grid.getD i "D" = "B" ∨ st2.grid.getD i "D" = st.grid.getD i "D") hP ?_
    intro st3 dx _ hP3
    dsimp only
    split
    · exact grid_or_step hP3
    · exact hP3
  · exact hP

theorem stubPaintV_grid_or {w h vCol sy dir len : Int} (st : RoadState) (i : Nat) :
    (stubPaintV w h vCol sy dir len st).grid.getD i "D" = "B" ∨
      (stubPaintV w h vCol sy dir len st).grid.getD i "D" = st.grid.getD i "D" := by
  rw [stubPaintV]
  refine foldl_inv
    (P := fun st2 : RoadState =>
      st2.grid.getD i "D" = "B" ∨ st2.grid.getD i "D" = st.grid.getD i "D")
    (Or.inr rfl) ?_
  intro st2 step _ hP
  dsimp only
  split
  · refine foldl_inv
      (P := fun st2 : RoadState =>
        st2.grid.getD i "D" = "B" ∨ st2.grid.getD i "D" = st.grid.getD i "D") hP ?_
    intro st3 dy _ hP3
    dsimp only
    split
    · exact grid_or_step hP3
    · exact hP3
  · exact hP

theorem roadStub_grid_or {w h hRow vCol : Int} (st : RoadState) (i : Nat) :
    (roadStub w h hRow vCol st).grid.getD i "D" = "B" ∨
      (roadStub w h hRow vCol st).grid.getD i "D" = st.grid.getD i "D" := by
  rw [roadStub]
  dsimp only
  split
  · exact stubPaintH_grid_or _ i
  · exact stubPaintV_grid_or _ i

theorem roadStubs_grid_or {w h hRow vCol : Int} (st : RoadState) (i : Nat) :
    (roadStubs w h hRow vCol st).grid.getD i "D" = "B" ∨
      (roadStubs w h hRow vCol st).grid.getD i "D" = st.grid.getD i "D" := by
  rw [roadStubs]
  refine foldl_inv
    (P := fun st2 : RoadState =>
      st2.grid.getD i "D" = "B" ∨ st2.grid.getD i "D" = st.grid.getD i "D")
    (Or.inr rfl) ?_
  intro st2 _ _ hP
  rcases @roadStub_grid_or w h hRow vCol st2 i with hc | hc
  · exact Or.inl hc
  · rw [hc]
    exact hP

/-- Every cell of a `place_road_corridors` result is either "B" or
whatever the input grid held there. -/
theorem place_road_corridors_grid_or {w h : Int} (g : Grid) (s : RS) (i : Nat) :
    (place_road_corridors w h g s).grid.getD i "D" = "B" ∨
      (place_road_corridors w h g s).grid.getD i "D" = g.getD i "D" := by
  rw [place_road_corridors]
  dsimp only
  rcases @roadStubs_grid_or w h (hRowOf h) (vColOf w) _ i
    with h6 | h6
  · exact Or.inl h6
  rw [h6]
  rcases @roadBulges_grid_or w h (hRowOf h) (vColOf w) _ i
    with h5 | h5
  · exact Or.inl h5
  rw [h5]
  rcases @roadPlaza_grid_or w h (hRowOf h) (vColOf w) _ i
    with h4 | h4
  · exact Or.inl h4
  rw [h4]
  show (roadCoreV w h (hRowOf h) (vColOf w) _).grid.getD i "D" = "B" ∨ _
  rcases @roadCoreV_grid_or w h (hRowOf h) (vColOf w) _ i
    with h2 | h2
  · exact Or.inl h2
  rw [h2]
  exact roadCoreH_grid_or _ i

/-! Cell-wise change characterisation of blob painting and erosion. -/

/-- A cell is only changed by the paint loop when it held "D" and was not
excluded, and then it becomes `mat`. -/
theorem paintBlobs_char (w h : Int) (mat : Mat) (excl : List Bool) (blobs : List Blob)
    (g : Grid) (s : RS) (i : Nat) :
    (paintBlobs w h mat excl blobs g s).1.getD i "D" = g.getD i "D" ∨
      (g.getD i "D" = "D" ∧ excl.getD i false = false ∧
        (paintBlobs w h mat excl blobs g s).1.getD i "D" = mat) := by
  rw [paintBlobs]
  refine foldl_inv
    (P := fun st : Grid × RS =>
      st.1.getD i "D" = g.getD i "D" ∨
        (g.getD i "D" = "D" ∧ excl.getD i false = false ∧ st.1.getD i "D" = mat))
    (Or.inl rfl) ?_
  intro st c _ hP
  dsimp only
  split
  case isTrue => exact hP
  case isFalse hg =>
    rw [not_or] at hg
    obtain ⟨hgD, hgEx⟩ := hg
    rw [not_not] at hgD
    simp only [gridGet] at hgD
    rw [Bool.not_eq_true] at hgEx
    split
    case isTrue =>
      by_cases hij : idx w c.1 c.2 = i
      · subst hij
        rcases getD_set_or (l := st.1) (i := idx w c.1 c.2) (j := idx w c.1 c.2) (a := mat)
            (d := "D") with hc | hc
        · refine Or.inr ⟨?_, hgEx, hc⟩
          rcases hP with hP | hP
          · rw [← hP]
            exact hgD
          · exact hP.1
        · rw [hc]
          exact hP
      · have hc : (st.1.set (idx w c.1 c.2) mat).getD i "D" = st.1.getD i "D" :=
          getD_set_ne hij
        rw [hc]
        exact hP
    case isFalse => exact hP

/-- A cell is only changed by one erosion pass when it held `mat`, and then
it becomes "D". -/
theorem erodePass_char (w h : Int) (mat : Mat) (g : Grid) (i : Nat) :
    (erodePass w h mat g).1.getD i "D" = g.getD i "D" ∨
      (g.getD i "D" = mat ∧ (erodePass w h mat g).1.getD i "D" = "D") := by
  rw [erodePass]
  refine foldl_inv
    (P := fun st : Grid × Bool =>
      st.1.getD i "D" = g.getD i "D" ∨ (g.getD i "D" = mat ∧ st.1.getD i "D" = "D"))
    (Or.inl rfl) ?_
  intro st c _ hP
  dsimp only
  split
  case isTrue hg =>
    obtain ⟨hgM, _⟩ := hg
    simp only [gridGet] at hgM
    by_cases hij : idx w c.1 c.2 = i
    · subst hij
      have hgi : g.getD (idx w c.1 c.2) "D" = mat := by
        rcases hP with hP | hP
        · rw [← hP]
          exact hgM
        · exact hP.1
      rcases getD_set_or (l := st.1) (i := idx w c.1 c.2) (j := idx w c.1 c.2) (a := "D")
          (d := "D") with hc | hc
      · exact Or.inr ⟨hgi, hc⟩
      · rw [hc]
        exact hP
    · have hc : (st.1.set (idx w c.1 c.2) "D").getD i "D" = st.1.getD i "D" :=
        getD_set_ne hij
      rw [hc]
      exact hP
  case isFalse => exact hP

/-- Iterating erosion passes changes a cell only from `mat` to "D". -/
theorem erodeLoop_char (w h : Int) (mat : Mat) (fuel : Nat) (g : Grid) (i : Nat) :
    (erodeLoop w h mat fuel g).getD i "D" = g.getD i "D" ∨
      (g.getD i "D" = mat ∧ (erodeLoop w h mat fuel g).getD i "D" = "D") := by
  induction fuel generalizing g with
  | zero => exact Or.inl rfl
  | succ n ih =>
    rw [erodeLoop]
    split
    · rcases ih (erodePass w h mat g).1 with hl | hl
      · rw [hl]
        exact erodePass_char w h mat g i
      · rcases erodePass_char w h mat g i with hp | hp
        · rw [hp] at hl
          exact Or.inr hl
        · exact Or.inr ⟨hp.1, hl.2⟩
    · exact erodePass_char w h mat g i

theorem remove_thin_strips_char (w h : Int) (mat : Mat) (g : Grid) (i : Nat) :
    (remove_thin_strips w h mat g).getD i "D" = g.getD i "D" ∨
      (g.getD i "D" = mat ∧ (remove_thin_strips w h mat g).getD i "D" = "D") := by
  rw [remove_thin_strips]
  exact erodeLoop_char w h mat _ g i

/-- Change characterisation of `place_blobs` (shuffle and centre selection
only consume randomness; the grid changes through the paint loop). -/
theorem place_blobs_char (w h : Int) (mat : Mat) (excl : List Bool) (nBlobs : Nat)
    (rLo rHi minSep : Int) (g : Grid) (s : RS) (i : Nat) :
    (place_blobs w h mat excl nBlobs rLo rHi minSep g s).1.getD i "D" = g.getD i "D" ∨
      (g.getD i "D" = "D" ∧ excl.getD i false = false ∧
        (place_blobs w h mat excl nBlobs rLo rHi minSep g s).1.getD i "D" = mat) := by
  rw [place_blobs]
  exact paintBlobs_char w h mat excl _ g _ i

/-- Four-way change characterisation of the grass stage. -/
theorem grassStage_char (w h : Int) (g1 : Grid) (roadBuf : List Bool) (s1 : RS) (i : Nat) :
    (grassStage w h g1 roadBuf s1).1.getD i "D" = g1.getD i "D" ∨
      (g1.getD i "D" = "D" ∧ roadBuf.getD i false = false ∧
        (grassStage w h g1 roadBuf s1).1.getD i "D" = "G") ∨
      (g1.getD i "D" = "G" ∧ (grassStage w h g1 roadBuf s1).1.getD i "D" = "D") ∨
      (g1.getD i "D" = "D" ∧ (grassStage w h g1 roadBuf s1).1.getD i "D" = "D") := by
  rw [grassStage]
  dsimp only
  rcases remove_thin_strips_char w h "G"
      (paintBlobs w h "G" roadBuf (grassBlobsGen w h s1).1 g1 (grassBlobsGen w h s1).2).1 i
    with hs | hs
  · rw [hs]
    rcases paintBlobs_char w h "G" roadBuf (grassBlobsGen w h s1).1 g1
        (grassBlobsGen w h s1).2 i with hp | hp
    · exact Or.inl hp
    · exact Or.inr (Or.inl hp)
  · obtain ⟨hsG, hsD⟩ := hs
    rcases paintBlobs_char w h "G" roadBuf (grassBlobsGen w h s1).1 g1
        (grassBlobsGen w h s1).2 i with hp | hp
    · rw [hp] at hsG
      exact Or.inr (Or.inr (Or.inl ⟨hsG, hsD⟩))
    · exact Or.inr (Or.inr (Or.inr ⟨hp.1, hsD⟩))

/-- Four-way change characterisation of the water stage. -/
theorem waterStage_char (w h : Int) (g3 : Grid) (grassBuf roadBuf : List Bool) (s3 : RS)
    (i : Nat) :
    (waterStage w h g3 grassBuf roadBuf s3).1.getD i "D" = g3.getD i "D" ∨
      (g3.getD i "D" = "D" ∧
        (combine_buffers (w * h).toNat [grassBuf, roadBuf]).getD i false = false ∧
        (waterStage w h g3 grassBuf roadBuf s3).1.getD i "D" = "A") ∨
      (g3.getD i "D" = "A" ∧ (waterStage w h g3 grassBuf roadBuf s3).1.getD i "D" = "D") ∨
      (g3.getD i "D" = "D" ∧ (waterStage w h g3 grassBuf roadBuf s3).1.getD i "D" = "D") := by
  rw [waterStage]
  dsimp only
  rcases remove_thin_strips_char w h "A"
      (place_blobs w h "A" (combine_buffers (w * h).toNat [grassBuf, roadBuf])
        (max 4 (w * h / 4000)).toNat (max 3 (min w h / 40))
        (max (max 3 (min w h / 40) + 2) (min w h / 15)) 6 g3 s3).1 i with hs | hs
  · rw [hs]
    rcases place_blobs_char w h "A" (combine_buffers (w * h).toNat [grassBuf, roadBuf])
        (max 4 (w * h / 4000)).toNat (max 3 (min w h / 40))
        (max (max 3 (min w h / 40) + 2) (min w h / 15)) 6 g3 s3 i with hp | hp
    · exact Or.inl hp
    · exact Or.inr (Or.inl hp)
  · obtain ⟨hsA, hsD⟩ := hs
    rcases place_blobs_char w h "A" (combine_buffers (w * h).toNat [grassBuf, roadBuf])
        (max 4 (w * h / 4000)).toNat (max 3 (min w h / 40))
        (max (max 3 (min w h / 40) + 2) (min w h / 15)) 6 g3 s3 i with hp | hp
    · rw [hp] at hsA
      exact Or.inr (Or.inr (Or.inl ⟨hsA, hsD⟩))
    · exact Or.inr (Or.inr (Or.inr ⟨hp.1, hsD⟩))

/-- Four-way change characterisation of the gravel stage. -/
theorem gravelStage_char (w h : Int) (g5 : Grid) (grassBuf roadBuf : List Bool) (s4 : RS)
    (i : Nat) :
    (gravelStage w h g5 grassBuf roadBuf s4).1.getD i "D" = g5.getD i "D" ∨
      (g5.getD i "D" = "D" ∧ (gravelStage w h g5 grassBuf roadBuf s4).1.getD i "D" = "E") ∨
      (g5.getD i "D" = "E" ∧ (gravelStage w h g5 grassBuf roadBuf s4).1.getD i "D" = "D") ∨
      (g5.getD i "D" = "D" ∧ (gravelStage w h g5 grassBuf roadBuf s4).1.getD i "D" = "D") := by
  rw [gravelStage]
  dsimp only
  rcases remove_thin_strips_char w h "E"
      (place_blobs w h "E"
        (combine_buffers (w * h).toNat [grassBuf, compute_buffer w h g5 "A" 2, roadBuf])
        (max 6 (w * h / 3000)).toNat (max 2 (min w h / 50))
        (max (max 2 (min w h / 50) + 2) (min w h / 20)) 5 g5 s4).1 i with hs | hs
  · rw [hs]
    rcases place_blobs_char w h "E"
        (combine_buffers (w * h).toNat [grassBuf, compute_buffer w h g5 "A" 2, roadBuf])
        (max 6 (w * h / 3000)).toNat (max 2 (min w h / 50))
        (max (max 2 (min w h / 50) + 2) (min w h / 20)) 5 g5 s4 i with hp | hp
    · exact Or.inl hp
    · exact Or.inr (Or.inl ⟨hp.1, hp.2.2⟩)
  · obtain ⟨hsE, hsD⟩ := hs
    rcases place_blobs_char w h "E"
        (combine_buffers (w * h).toNat [grassBuf, compute_buffer w h g5 "A" 2, roadBuf])
        (max 6 (w * h / 3000)).toNat (max 2 (min w h / 50))
        (max (max 2 (min w h / 50) + 2) (min w h / 20)) 5 g5 s4 i with hp | hp
    · rw [hp] at hsE
      exact Or.inr (Or.inr (Or.inl ⟨hsE, hsD⟩))
    · exact Or.inr (Or.inr (Or.inr ⟨hp.1, hsD⟩))

/-! Buffer-mask lemmas. -/

/-- Setting any cell of a boolean mask to a value of the form `old || x`
or to `true` keeps a cell that already reads `true` at `true`. -/
theorem getD_set_keep_true {l : List Bool} {k i : Nat} {v : Bool}
    (hv : k = i → l.getD i false = true → v = true) (hP : l.getD i false = true) :
    (l.set k v).getD i false = true := by
  by_cases hk : k = i
  · subst hk
    by_cases hl : k < l.length
    · rw [getD_set_self hl]
      exact hv rfl hP
    · rw [List.set_eq_of_length_le (by omega)]
      exact hP
  · rw [getD_set_ne hk]
    exact hP

/-- Monotonicity of `combine_buffers`: a cell marked in any component mask
is marked in the combination. -/
theorem combine_buffers_mono {n : Nat} {bufs : List (List Bool)} {b : List Bool} {i : Nat}
    (hi : i < n) (hb : b ∈ bufs) (hv : b.getD i false = true) :
    (combine_buffers n bufs).getD i false = true := by
  rw [combine_buffers]
  refine foldl_estab (I := fun comb : List Bool => comb.length = n)
    (P := fun comb : List Bool => comb.getD i false = true)
    hb (by simp) ?_ ?_ ?_
  · intro comb a _ hI
    refine foldl_inv (P := fun c2 : List Bool => c2.length = n) hI ?_
    intro c2 k _ hI2
    rw [List.length_set]
    exact hI2
  · intro comb hI
    refine foldl_estab (I := fun c2 : List Bool => c2.length = n)
      (P := fun c2 : List Bool => c2.getD i false = true)
      (List.mem_range.mpr hi) hI ?_ ?_ ?_
    · intro c2 k _ hI2
      rw [List.length_set]
      exact hI2
    · intro c2 hI2
      rw [getD_set_self (by rw [hI2]; exact hi)]
      rw [hv]
      simp
    · intro c2 k _ hP
      exact getD_set_keep_true (fun hk hc => by subst hk; rw [hc]; simp) hP
  · intro comb a _ hP
    refine foldl_inv (P := fun c2 : List Bool => c2.getD i false = true) hP ?_
    intro c2 k _ hP2
    exact getD_set_keep_true (fun hk hc => by subst hk; rw [hc]; simp) hP2

/-- Correctness of `compute_buffer` in the direction the buffer invariant
needs: a cell within the box radius of a `mat` cell is marked. -/
theorem compute_buffer_spec {w h : Int} {g : Grid} {mat : Mat} {radius : Int}
    {xj yj xi yi : Int} (hxj : 0 ≤ xj) (hxj2 : xj < w) (hyj : 0 ≤ yj) (hyj2 : yj < h)
    (hxi : 0 ≤ xi) (hxi2 : xi < w) (hyi : 0 ≤ yi) (hyi2 : yi < h)
    (hmat : g.getD (idx w xj yj) "D" = mat)
    (hdx : |xi - xj| ≤ radius) (hdy : |yi - yj| ≤ radius) :
    (compute_buffer w h g mat radius).getD (idx w xi yi) false = true := by
  rw [abs_le] at hdx hdy
  rw [compute_buffer]
  refine foldl_estab (I := fun buf : List Bool => buf.length = (w * h).toNat)
    (P := fun buf : List Bool => buf.getD (idx w xi yi) false = true)
    ((mem_coords (c := (xj, yj))).mpr ⟨⟨hxj, hxj2⟩, hyj, hyj2⟩) (by simp) ?_ ?_ ?_
  · -- length is invariant
    intro buf c _ hI
    dsimp only
    split
    · refine foldl_inv (P := fun b2 : List Bool => b2.length = (w * h).toNat) hI ?_
      intro b2 dy2 _ hI2
      refine foldl_inv (P := fun b2 : List Bool => b2.length = (w * h).toNat) hI2 ?_
      intro b3 dx2 _ hI3
      dsimp only
      split
      · rw [List.length_set]
        exact hI3
      · exact hI3
    · exact hI
  · -- the scan of cell (xj, yj) marks (xi, yi)
    intro buf hI
    dsimp only
    rw [if_pos (show gridGet g (idx w xj yj) = mat from hmat)]
    refine foldl_estab (I := fun b2 : List Bool => b2.length = (w * h).toNat)
      (P := fun b2 : List Bool => b2.getD (idx w xi yi) false = true)
      (x := yi - yj) (mem_intRange.mpr (by omega)) hI ?_ ?_ ?_
    · intro b2 dx2 _ hI2
      refine foldl_inv (P := fun b2 : List Bool => b2.length = (w * h).toNat) hI2 ?_
      intro b3 dx3 _ hI3
      dsimp only
      split
      · rw [List.length_set]
        exact hI3
      · exact hI3
    · intro b2 hI2
      refine foldl_estab (I := fun b3 : List Bool => b3.length = (w * h).toNat)
        (P := fun b3 : List Bool => b3.getD (idx w xi yi) false = true)
        (x := xi - xj) (mem_intRange.mpr (by omega)) hI2 ?_ ?_ ?_
      · intro b3 dx3 _ hI3
        dsimp only
        split
        · rw [List.length_set]
          exact hI3
        · exact hI3
      · intro b3 hI3
        dsimp only
        rw [if_pos (show 0 ≤ xj + (xi - xj) ∧ xj + (xi - xj) < w ∧ 0 ≤ yj + (yi - yj) ∧
            yj + (yi - yj) < h by omega)]
        rw [show xj + (xi - xj) = xi from by omega, show yj + (yi - yj) = yi from by omega]
        rw [getD_set_self (by rw [hI3]; exact idx_lt hxi hxi2 hyi hyi2)]
      · intro b3 dx3 _ hP
        dsimp only
        split
        · exact getD_set_keep_true (fun _ _ => rfl) hP
        · exact hP
    · intro b2 dy2 _ hP
      refine foldl_inv (P := fun b3 : List Bool => b3.getD (idx w xi yi) false = true) hP ?_
      intro b3 dx3 _ hP2
      dsimp only
      split
      · exact getD_set_keep_true (fun _ _ => rfl) hP2
      · exact hP2
  · -- later scans only add marks
    intro buf c _ hP
    dsimp only
    split
    · refine foldl_inv (P := fun b2 : List Bool => b2.getD (idx w xi yi) false = true) hP ?_
      intro b2 dy2 _ hP2
      refine foldl_inv (P := fun b3 : List Bool => b3.getD (idx w xi yi) false = true) hP2 ?_
      intro b3 dx2 _ hP3
      dsimp only
      split
      · exact getD_set_keep_true (fun _ _ => rfl) hP3
      · exact hP3
    · exact hP

/-! Overlay behaviour of the road phases: only the two core loops (and the
explicit clear) touch the overlay. -/

theorem roadPlaza_ov {w h hRow vCol : Int} (st : RoadState) :
    (roadPlaza w h hRow vCol st).ov = st.ov := by
  rw [roadPlaza]
  refine foldl_inv (P := fun st2 : RoadState => st2.ov = st.ov) rfl ?_
  intro st2 dy _ hP
  refine foldl_inv (P := fun st2 : RoadState => st2.ov = st.ov) hP ?_
  intro st3 dx _ hP3
  dsimp only
  split
  · split
    · exact hP3
    · exact hP3
  · exact hP3

theorem bulgePaint_ov {w h bx by2 brx bry : Int} (st : RoadState) :
    (bulgePaint w h bx by2 brx bry st).ov = st.ov := by
  rw [bulgePaint]
  refine foldl_inv (P := fun st2 : RoadState => st2.ov = st.ov) rfl ?_
  intro st2 dy _ hP
  refine foldl_inv (P := fun st2 : RoadState => st2.ov = st.ov) hP ?_
  intro st3 dx _ hP3
  dsimp only
  split
  · split
    · exact hP3
    · exact hP3
  · exact hP3

theorem roadBulges_ov {w h hRow vCol : Int} (st : RoadState) :
    (roadBulges w h hRow vCol st).ov = st.ov := by
  rw [roadBulges]
  refine foldl_inv (P := fun st2 : RoadState => st2.ov = st.ov) rfl ?_
  intro st2 _ _ hP
  have hb : (roadBulge w h hRow vCol st2).ov = st2.ov := by
    rw [roadBulge]
    exact bulgePaint_ov _
  rw [hb]
  exact hP

theorem stubPaintH_ov {w h hRow sx dir len : Int} (st : RoadState) :
    (stubPaintH w h hRow sx dir len st).ov = st.ov := by
  rw [stubPaintH]
  refine foldl_inv (P := fun st2 : RoadState => st2.ov = st.ov) rfl ?_
  intro st2 step _ hP
  dsimp only
  split
  · refine foldl_inv (P := fun st2 : RoadState => st2.ov = st.ov) hP ?_
    intro st3 dx _ hP3
    dsimp only
    split
    · exact hP3
    · exact hP3
  · exact hP

theorem stubPaintV_ov {w h vCol sy dir len : Int} (st : RoadState) :
    (stubPaintV w h vCol sy dir len st).ov = st.ov := by
  rw [stubPaintV]
  refine foldl_inv (P := fun st2 : RoadState => st2.ov = st.ov) rfl ?_
  intro st2 step _ hP
  dsimp only
  split
  · refine foldl_inv (P := fun st2 : RoadState => st2.ov = st.ov) hP ?_
    intro st3 dy _ hP3
    dsimp only
    split
    · exact hP3
    · exact hP3
  · exact hP

theorem roadStubs_ov {w h hRow vCol : Int} (st : RoadState) :
    (roadStubs w h hRow vCol st).ov = st.ov := by
  rw [roadStubs]
  refine foldl_inv (P := fun st2 : RoadState => st2.ov = st.ov) rfl ?_
  intro st2 _ _ hP
  have hb : (roadStub w h hRow vCol st2).ov = st2.ov := by
    rw [roadStub]
    dsimp only
    split
    · exact stubPaintH_ov _
    · exact stubPaintV_ov _
  rw [hb]
  exact hP

theorem roadCoreH_ovlen {w h hRow : Int} (st : RoadState) :
    (roadCoreH w h hRow st).ov.length = st.ov.length := by
  rw [roadCoreH]
  refine foldl_inv (P := fun st2 : RoadState => st2.ov.length = st.ov.length) rfl ?_
  intro st2 dy _ hP
  dsimp only
  split
  · refine foldl_inv (P := fun st2 : RoadState => st2.ov.length = st.ov.length) hP ?_
    intro st3 x _ hP3
    show (if dy = 0 then st3.ov.set _ T_ROAD_CENTER_H else st3.ov).length = _
    split
    · rw [List.length_set]
      exact hP3
    · exact hP3
  · exact hP

theorem roadCoreV_ovlen {w h hRow vCol : Int} (st : RoadState) :
    (roadCoreV w h hRow vCol st).ov.length = st.ov.length := by
  rw [roadCoreV]
  refine foldl_inv (P := fun st2 : RoadState => st2.ov.length = st.ov.length) rfl ?_
  intro st2 dx _ hP
  dsimp only
  split
  · refine foldl_inv (P := fun st2 : RoadState => st2.ov.length = st.ov.length) hP ?_
    intro st3 y _ hP3
    show (if dx = 0 ∧ y ≠ hRow then st3.ov.set _ T_ROAD_CENTER_V else st3.ov).length = _
    split
    · rw [List.length_set]
      exact hP3
    · exact hP3
  · exact hP

/-- The horizontal core loop paints the intersection cell "B". -/
theorem roadCoreH_setsB {w h hRow vCol : Int} (st : RoadState) (hw : 9 ≤ w)
    (hr1 : 4 ≤ hRow) (hr2 : hRow ≤ h - 5) (hv1 : 4 ≤ vCol) (hv2 : vCol ≤ w - 5)
    (hlen : st.grid.length = (w * h).toNat) :
    (roadCoreH w h hRow st).grid.getD (idx w vCol hRow) "D" = "B" := by
  have hh : 9 ≤ h := by omega
  rw [roadCoreH]
  refine foldl_estab (I := fun st2 : RoadState => st2.grid.length = (w * h).toNat)
    (P := fun st2 : RoadState => st2.grid.getD (idx w vCol hRow) "D" = "B")
    (x := 0) (mem_intRange.mpr (by omega)) hlen ?_ ?_ ?_
  · intro b a _ hI
    dsimp only
    split
    · refine foldl_inv (P := fun st2 : RoadState => st2.grid.length = (w * h).toNat) hI ?_
      intro b2 x _ hI2
      show (b2.grid.set _ "B").length = _
      rw [List.length_set]
      exact hI2
    · exact hI
  · intro b hI
    dsimp only
    rw [if_pos (show (0 : Int) ≤ hRow + 0 ∧ hRow + 0 < h by omega)]
    refine foldl_estab (I := fun st2 : RoadState => st2.grid.length = (w * h).toNat)
      (P := fun st2 : RoadState => st2.grid.getD (idx w vCol hRow) "D" = "B")
      (x := vCol) (mem_intRange.mpr (by omega)) hI ?_ ?_ ?_
    · intro b2 x _ hI2
      show (b2.grid.set _ "B").length = _
      rw [List.length_set]
      exact hI2
    · intro b2 hI2
      show (b2.grid.set (idx w vCol (hRow + 0)) "B").getD (idx w vCol hRow) "D" = "B"
      rw [show hRow + 0 = hRow from by omega]
      exact getD_set_self (by rw [hI2]; exact idx_lt (by omega) (by omega) (by omega) (by omega))
    · intro b2 x _ hP
      show (b2.grid.set (idx w x (hRow + 0)) "B").getD (idx w vCol hRow) "D" = "B"
      rcases getD_set_or (l := b2.grid) (i := idx w x (hRow + 0)) (j := idx w vCol hRow)
          (a := "B") (d := "D") with hc | hc
      · exact hc
      · rw [hc]
        exact hP
  · intro b a _ hP
    dsimp only
    split
    · refine foldl_inv
        (P := fun st2 : RoadState => st2.grid.getD (idx w vCol hRow) "D" = "B") hP ?_
      intro b2 x _ hP2
      show (b2.grid.set (idx w x (hRow + a)) "B").getD (idx w vCol hRow) "D" = "B"
      rcases getD_set_or (l := b2.grid) (i := idx w x (hRow + a)) (j := idx w vCol hRow)
          (a := "B") (d := "D") with hc | hc
      · exact hc
      · rw [hc]
        exact hP2
    · exact hP

/-- The intersection cell of `place_road_corridors`: road material in the
grid, zero in the centre-line overlay. -/
theorem place_road_corridors_center {w h : Int} (g : Grid) (s : RS) (hw : 9 ≤ w)
    (hh : 9 ≤ h) (hlen : g.length = (w * h).toNat) :
    (place_road_corridors w h g s).grid.getD (idx w (vColOf w) (hRowOf h)) "D" = "B" ∧
      (place_road_corridors w h g s).overlay.getD (idx w (vColOf w) (hRowOf h)) 0 = 0 := by
  have hr := hRowOf_bounds hh
  have hv := vColOf_bounds hw
  rw [place_road_corridors]
  dsimp only
  constructor
  · -- grid: painted by the horizontal core loop, every later write is "B"
    have h1 := @roadCoreH_setsB w h (hRowOf h) (vColOf w)
      { grid := g, ov := List.replicate (w * h).toNat 0, s := s } hw hr.1 hr.2 hv.1 hv.2 hlen
    set i0 := idx w (vColOf w) (hRowOf h) with hi0
    set st1 := roadCoreH w h (hRowOf h)
      { grid := g, ov := List.replicate (w * h).toNat 0, s := s }
    have h2 : (roadCoreV w h (hRowOf h) (vColOf w) st1).grid.getD i0 "D" = "B" := by
      rcases @roadCoreV_grid_or w h (hRowOf h) (vColOf w) st1 i0
        with hc | hc
      · exact hc
      · rw [hc]
        exact h1
    set st2 := roadCoreV w h (hRowOf h) (vColOf w) st1
    set st3 : RoadState := { st2 with ov := st2.ov.set i0 0 }
    have h3 : st3.grid.getD i0 "D" = "B" := h2
    have h4 : (roadPlaza w h (hRowOf h) (vColOf w) st3).grid.getD i0 "D" = "B" := by
      rcases @roadPlaza_grid_or w h (hRowOf h) (vColOf w) st3 i0
        with hc | hc
      · exact hc
      · rw [hc]
        exact h3
    set st4 := roadPlaza w h (hRowOf h) (vColOf w) st3
    have h5 : (roadBulges w h (hRowOf h) (vColOf w) st4).grid.getD i0 "D" = "B" := by
      rcases @roadBulges_grid_or w h (hRowOf h) (vColOf w) st4 i0
        with hc | hc
      · exact hc
      · rw [hc]
        exact h4
    set st5 := roadBulges w h (hRowOf h) (vColOf w) st4
    rcases @roadStubs_grid_or w h (hRowOf h) (vColOf w) st5 i0
      with hc | hc
    · exact hc
    · rw [hc]
      exact h5
  · -- overlay: cleared after the core loops, untouched afterwards
    set i0 := idx w (vColOf w) (hRowOf h) with hi0
    set st1 := roadCoreH w h (hRowOf h)
      { grid := g, ov := List.replicate (w * h).toNat 0, s := s }
    set st2 := roadCoreV w h (hRowOf h) (vColOf w) st1
    set st3 : RoadState := { st2 with ov := st2.ov.set i0 0 }
    have hlen2 : st2.ov.length = (w * h).toNat := by
      have hA : st1.ov.length = (w * h).toNat := by
        have := @roadCoreH_ovlen w h (hRowOf h)
          { grid := g, ov := List.replicate (w * h).toNat 0, s := s }
        rw [this]
        simp
      have hB := @roadCoreV_ovlen w h (hRowOf h) (vColOf w) st1
      rw [hB, hA]
    have h3 : st3.ov.getD i0 0 = 0 := by
      show (st2.ov.set i0 0).getD i0 0 = 0
      exact getD_set_self (by
        rw [hlen2]
        exact idx_lt (by omega) (by omega) (by omega) (by omega))
    rw [roadStubs_ov, roadBulges_ov, roadPlaza_ov]
    exact h3

/-! Propagating a road cell through the later stages. -/

theorem grassStage_keepB {w h : Int} {g1 : Grid} {roadBuf : List Bool} {s1 : RS} {i : Nat}
    (hB : g1.getD i "D" = "B") : (grassStage w h g1 roadBuf s1).1.getD i "D" = "B" := by
  rcases grassStage_char w h g1 roadBuf s1 i with hc | hc | hc | hc
  · rw [hc]
    exact hB
  · exact absurd (hB.symm.trans hc.1) (by decide)
  · exact absurd (hB.symm.trans hc.1) (by decide)
  · exact absurd (hB.symm.trans hc.1) (by decide)

theorem waterStage_keepB {w h : Int} {g3 : Grid} {grassBuf roadBuf : List Bool} {s3 : RS}
    {i : Nat} (hB : g3.getD i "D" = "B") :
    (waterStage w h g3 grassBuf roadBuf s3).1.getD i "D" = "B" := by
  rcases waterStage_char w h g3 grassBuf roadBuf s3 i with hc | hc | hc | hc
  · rw [hc]
    exact hB
  · exact absurd (hB.symm.trans hc.1) (by decide)
  · exact absurd (hB.symm.trans hc.1) (by decide)
  · exact absurd (hB.symm.trans hc.1) (by decide)

theorem gravelStage_keepB {w h : Int} {g5 : Grid} {grassBuf roadBuf : List Bool} {s4 : RS}
    {i : Nat} (hB : g5.getD i "D" = "B") :
    (gravelStage w h g5 grassBuf roadBuf s4).1.getD i "D" = "B" := by
  rcases gravelStage_char w h g5 grassBuf roadBuf s4 i with hc | hc | hc | hc
  · rw [hc]
    exact hB
  · exact absurd (hB.symm.trans hc.1) (by decide)
  · exact absurd (hB.symm.trans hc.1) (by decide)
  · exact absurd (hB.symm.trans hc.1) (by decide)

/-- The overlay returned by `generateWorldCore` is exactly the roads-stage
overlay. -/
theorem generateWorldCore_overlay (cfg : Config) (w h : Int) (s : RS) :
    (generateWorldCore cfg w h s).overlay = (roadsResult cfg w h s).2.1 := by
  rw [generateWorldCore]
  dsimp only
  split
  · rfl
  · rfl

/-- On success, `generate_world` returns exactly the pipeline grid and
overlay. -/
theorem generate_world_components (cfg : Config) (w h : Int) (s : RS) {t : List Int}
    {ovl : Option (List Int)} {m : Grid}
    (he : generate_world cfg w h s = some (t, ovl, m)) :
    m = (generateWorldCore cfg w h s).grid ∧ ovl = (generateWorldCore cfg w h s).overlay := by
  have hrw : generate_world cfg w h s =
      ((generateWorldCore cfg w h s).grid.mapM cfg.tileId).map
        (fun tiles => (tiles, (generateWorldCore cfg w h s).overlay,
          (generateWorldCore cfg w h s).grid)) := rfl
  rw [hrw] at he
  cases hm : ((generateWorldCore cfg w h s).grid.mapM cfg.tileId) with
  | none =>
    rw [hm] at he
    exact Option.noConfusion he
  | some t2 =>
    rw [hm] at he
    have he2 : (t2, (generateWorldCore cfg w h s).overlay,
        (generateWorldCore cfg w h s).grid) = (t, ovl, m) := Option.some.inj he
    exact ⟨(congrArg (fun p => p.2.2) he2).symm, (congrArg (fun p => p.2.1) he2).symm⟩

/-- C6: for every seed and grid at least 9 cells wide and high, with road
material discovered, the corridor-intersection cell `(v_col, h_row)` holds
road material "B" in the final material map of `generate_world`, and the
returned centre-line overlay is 0 there; moreover whatever `generate_world`
returns on success is exactly this grid and overlay. -/
theorem C6_intersection_cell (cfg : Config) (w h : Int) (s : RS) (hw : 9 ≤ w) (hh : 9 ≤ h)
    (hB : (cfg.tileId "B").isSome = true) :
    (generateWorldCore cfg w h s).grid.getD (idx w (vColOf w) (hRowOf h)) "D" = "B" ∧
      (∀ ovl, (generateWorldCore cfg w h s).overlay = some ovl →
        ovl.getD (idx w (vColOf w) (hRowOf h)) 0 = 0) ∧
      (∀ t ovl m, generate_world cfg w h s = some (t, ovl, m) →
        m = (generateWorldCore cfg w h s).grid ∧
          ovl = (generateWorldCore cfg w h s).overlay) := by
  have hcenter := place_road_corridors_center (w := w) (h := h)
    (List.replicate (w * h).toNat "D") s hw hh (by simp)
  have hroad : (roadsResult cfg w h s).1.getD (idx w (vColOf w) (hRowOf h)) "D" = "B" := by
    rw [roadsResult]
    dsimp only
    rw [if_pos hB]
    exact hcenter.1
  refine ⟨?_, ?_, ?_⟩
  · rw [generateWorldCore]
    dsimp only
    split
    · exact gravelStage_keepB (waterStage_keepB (grassStage_keepB hroad))
    · exact waterStage_keepB (grassStage_keepB hroad)
  · intro ovl hovl
    rw [generateWorldCore_overlay] at hovl
    rw [roadsResult] at hovl
    dsimp only at hovl
    rw [if_pos hB] at hovl
    dsimp only at hovl
    have : (place_road_corridors w h (List.replicate (w * h).toNat "D") s).overlay = ovl :=
      Option.some.inj hovl
    rw [← this]
    exact hcenter.2
  · intro t ovl m he
    exact generate_world_components cfg w h s he

/-- Witness for C6 at the 40-by-40, seed-stream instance of the spec
scenario. -/
theorem C6_intersection_cell_witness :
    ((9 : Int) ≤ 40 ∧ (cfgStd.tileId "B").isSome = true) ∧
      ((generateWorldCore cfgStd 40 40 zeroStream).grid.getD
          (idx 40 (vColOf 40) (hRowOf 40)) "D" = "B" ∧
        (∀ ovl, (generateWorldCore cfgStd 40 40 zeroStream).overlay = some ovl →
          ovl.getD (idx 40 (vColOf 40) (hRowOf 40)) 0 = 0) ∧
        (∀ t ovl m, generate_world cfgStd 40 40 zeroStream = some (t, ovl, m) →
          m = (generateWorldCore cfgStd 40 40 zeroStream).grid ∧
            ovl = (generateWorldCore cfgStd 40 40 zeroStream).overlay)) :=
  ⟨⟨by norm_num, by decide⟩,
    C6_intersection_cell cfgStd 40 40 zeroStream (by norm_num) (by norm_num) (by decide)⟩

/-! Claim C3: the grass/water buffer invariant. -/

theorem replicate_getD_D (n i : Nat) : (List.replicate n ("D" : Mat)).getD i "D" = "D" := by
  rw [List.getD_eq_getElem?_getD, List.getElem?_replicate]
  split <;> rfl

/-- Every cell after the roads stage is "B" or "D". -/
theorem roadsResult_values (cfg : Config) (w h : Int) (s : RS) (i : Nat) :
    (roadsResult cfg w h s).1.getD i "D" = "B" ∨ (roadsResult cfg w h s).1.getD i "D" = "D" := by
  rw [roadsResult]
  dsimp only
  split
  · rcases place_road_corridors_grid_or (w := w) (h := h)
        (List.replicate (w * h).toNat "D") s i with hc | hc
    · exact Or.inl hc
    · rw [hc, replicate_getD_D]
      exact Or.inr rfl
  · rw [replicate_getD_D]
    exact Or.inr rfl

/-- C3 (buffer invariant): in the final material map of `generate_world`,
no water cell lies within Chebyshev distance 2 of a grass cell; and on
success `generate_world` returns exactly this map. -/
theorem C3_buffer_invariant (cfg : Config) (w h : Int) (s : RS)
    {xi yi xj yj : Int} (hxi : 0 ≤ xi) (hxi2 : xi < w) (hyi : 0 ≤ yi) (hyi2 : yi < h)
    (hxj : 0 ≤ xj) (hxj2 : xj < w) (hyj : 0 ≤ yj) (hyj2 : yj < h) :
    ¬ ((generateWorldCore cfg w h s).grid.getD (idx w xi yi) "D" = "A" ∧
        (generateWorldCore cfg w h s).grid.getD (idx w xj yj) "D" = "G" ∧
        cheb (xi, yi) (xj, yj) ≤ 2) ∧
      (∀ t ovl m, generate_world cfg w h s = some (t, ovl, m) →
        m = (generateWorldCore cfg w h s).grid) := by
  constructor
  · have hval1 := roadsResult_values cfg w h s
    rw [generateWorldCore]
    rcases hr1 : roadsResult cfg w h s with ⟨g1, ov1, s1⟩
    rw [hr1] at hval1
    dsimp only
    dsimp only at hval1
    rcases hgs : grassStage w h g1 (compute_buffer w h g1 "B" 2) s1 with ⟨g3, s3⟩
    dsimp only
    rcases hws : waterStage w h g3 (compute_buffer w h g3 "G" 2)
        (compute_buffer w h g1 "B" 2) s3 with ⟨g5, s4⟩
    dsimp only
    have hchar3 := grassStage_char w h g1 (compute_buffer w h g1 "B" 2) s1
    rw [hgs] at hchar3
    dsimp only at hchar3
    have hchar5 := waterStage_char w h g3 (compute_buffer w h g3 "G" 2)
      (compute_buffer w h g1 "B" 2) s3
    rw [hws] at hchar5
    dsimp only at hchar5
    -- core argument, shared by the two gravel branches
    have core : ¬ (g5.getD (idx w xi yi) "D" = "A" ∧ g5.getD (idx w xj yj) "D" = "G" ∧
        cheb (xi, yi) (xj, yj) ≤ 2) := by
      rintro ⟨hA5, hG5, hcheb⟩
      rw [cheb] at hcheb
      have hdx : |xi - xj| ≤ 2 := le_trans (le_max_left _ _) hcheb
      have hdy : |yi - yj| ≤ 2 := le_trans (le_max_right _ _) hcheb
      -- grass survives backwards to g3
      have hG3 : g3.getD (idx w xj yj) "D" = "G" := by
        rcases hchar5 (idx w xj yj) with hc | hc | hc | hc
        · rw [hc] at hG5
          exact hG5
        · exact absurd (hG5.symm.trans hc.2.2) (by decide)
        · exact absurd (hG5.symm.trans hc.2) (by decide)
        · exact absurd (hG5.symm.trans hc.2) (by decide)
      -- the water cell was painted in the water stage, so it was unmarked
      have hvals3 : g3.getD (idx w xi yi) "D" = "B" ∨ g3.getD (idx w xi yi) "D" = "D" ∨
          g3.getD (idx w xi yi) "D" = "G" := by
        rcases hchar3 (idx w xi yi) with hc | hc | hc | hc
        · rw [hc]
          rcases hval1 (idx w xi yi) with hv | hv
          · exact Or.inl hv
          · exact Or.inr (Or.inl hv)
        · exact Or.inr (Or.inr hc.2.2)
        · exact Or.inr (Or.inl hc.2)
        · exact Or.inr (Or.inl hc.2)
      have hExcl : (combine_buffers (w * h).toNat
          [compute_buffer w h g3 "G" 2, compute_buffer w h g1 "B" 2]).getD
            (idx w xi yi) false = false := by
        rcases hchar5 (idx w xi yi) with hc | hc | hc | hc
        · rw [hc] at hA5
          rcases hvals3 with hv | hv | hv
          · exact absurd (hA5.symm.trans hv) (by decide)
          · exact absurd (hA5.symm.trans hv) (by decide)
          · exact absurd (hA5.symm.trans hv) (by decide)
        · exact hc.2.1
        · exact absurd (hA5.symm.trans hc.2) (by decide)
        · exact absurd (hA5.symm.trans hc.2) (by decide)
      have hmark : (compute_buffer w h g3 "G" 2).getD (idx w xi yi) false = true :=
        compute_buffer_spec hxj hxj2 hyj hyj2 hxi hxi2 hyi hyi2 hG3 hdx hdy
      have := @combine_buffers_mono ((w * h).toNat)
        [compute_buffer w h g3 "G" 2, compute_buffer w h g1 "B" 2]
        (compute_buffer w h g3 "G" 2) (idx w xi yi)
        (idx_lt hxi hxi2 hyi hyi2) (List.mem_cons_self _ _) hmark
      rw [this] at hExcl
      exact Bool.noConfusion hExcl
    split
    · -- gravel branch
      rintro ⟨hA, hG, hcheb⟩
      have hchar7 := gravelStage_char w h g5 (compute_buffer w h g3 "G" 2)
        (compute_buffer w h g1 "B" 2) s4
      have hA5 : g5.getD (idx w xi yi) "D" = "A" := by
        rcases hchar7 (idx w xi yi) with hc | hc | hc | hc
        · rw [hc] at hA
          exact hA
        · exact absurd (hA.symm.trans hc.2) (by decide)
        · exact absurd (hA.symm.trans hc.2) (by decide)
        · exact absurd (hA.symm.trans hc.2) (by decide)
      have hG5 : g5.getD (idx w xj yj) "D" = "G" := by
        rcases hchar7 (idx w xj yj) with hc | hc | hc | hc
        · rw [hc] at hG
          exact hG
        · exact absurd (hG.symm.trans hc.2) (by decide)
        · exact absurd (hG.symm.trans hc.2) (by decide)
        · exact absurd (hG.symm.trans hc.2) (by decide)
      exact core ⟨hA5, hG5, hcheb⟩
    · exact core
  · intro t ovl m he
    exact (generate_world_components cfg w h s he).1

/-- Witness for C3 at concrete cells of a concrete world. -/
theorem C3_buffer_invariant_witness :
    ((0 : Int) ≤ 0 ∧ (0 : Int) < 9 ∧ (0 : Int) ≤ 1 ∧ (1 : Int) < 9) ∧
      (¬ ((generateWorldCore cfgStd 9 9 zeroStream).grid.getD (idx 9 0 0) "D" = "A" ∧
          (generateWorldCore cfgStd 9 9 zeroStream).grid.getD (idx 9 1 1) "D" = "G" ∧
          cheb (0, 0) (1, 1) ≤ 2) ∧
        (∀ t ovl m, generate_world cfgStd 9 9 zeroStream = some (t, ovl, m) →
          m = (generateWorldCore cfgStd 9 9 zeroStream).grid)) :=
  ⟨⟨le_refl 0, by norm_num, by norm_num, by norm_num⟩,
    C3_buffer_invariant cfgStd 9 9 zeroStream (le_refl 0) (by norm_num) (le_refl 0)
      (by norm_num) (by norm_num) (by norm_num) (by norm_num) (by norm_num)⟩

/-! Claim C4: the erosion pass reaches a fixed point and enforces the
two-axis neighbour condition. -/

theorem erodeFold_flag {w h : Int} {mat : Mat} (l : List (Int × Int))
    (st : Grid × Bool) (hst : st.2 = true) :
    (l.foldl
      (fun st c =>
        if gridGet st.1 (idx w c.1 c.2) = mat ∧ ¬ erodeKeep w h st.1 mat c.1 c.2 then
          (st.1.set (idx w c.1 c.2) "D", true)
        else st) st).2 = true := by
  refine foldl_inv (P := fun st2 : Grid × Bool => st2.2 = true) hst ?_
  intro st2 c _ hP
  dsimp only
  split
  · rfl
  · exact hP

theorem erodeFold_false {w h : Int} {mat : Mat} {l : List (Int × Int)} {g g2 : Grid}
    (he : l.foldl
      (fun st c =>
        if gridGet st.1 (idx w c.1 c.2) = mat ∧ ¬ erodeKeep w h st.1 mat c.1 c.2 then
          (st.1.set (idx w c.1 c.2) "D", true)
        else st) (g, false) = (g2, false)) :
    g2 = g ∧ ∀ c ∈ l, ¬ (gridGet g (idx w c.1 c.2) = mat ∧ ¬ erodeKeep w h g mat c.1 c.2) := by
  induction l generalizing g with
  | nil =>
    rw [List.foldl_nil] at he
    exact ⟨(congrArg Prod.fst he).symm, by simp⟩
  | cons c cs ih =>
    rw [List.foldl_cons] at he
    by_cases hf : gridGet g (idx w c.1 c.2) = mat ∧ ¬ erodeKeep w h g mat c.1 c.2
    · rw [if_pos hf] at he
      have := @erodeFold_flag w h mat cs
        (g.set (idx w c.1 c.2) "D", true) rfl
      rw [he] at this
      exact absurd this (by simp)
    · rw [if_neg hf] at he
      obtain ⟨h1, h2⟩ := ih he
      refine ⟨h1, ?_⟩
      intro c2 hc2
      rcases List.mem_cons.mp hc2 with hc2 | hc2
      · subst hc2
        exact hf
      · exact h2 c2 hc2

/-- When one pass reports no change, the grid is unchanged and every cell
satisfies the keep condition. -/
theorem erodePass_false {w h : Int} {mat : Mat} {g g2 : Grid}
    (he : erodePass w h mat g = (g2, false)) :
    g2 = g ∧ ∀ c ∈ coords w h,
      ¬ (gridGet g (idx w c.1 c.2) = mat ∧ ¬ erodeKeep w h g mat c.1 c.2) := by
  rw [erodePass] at he
  exact erodeFold_false he

/-- A changing pass strictly decreases the number of `mat` cells. -/
theorem erodePass_decrease {w h : Int} {mat : Mat} (hmat : mat ≠ "D") {g : Grid}
    (he : (erodePass w h mat g).2 = true) :
    (erodePass w h mat g).1.countP (fun m => m == mat) < g.countP (fun m => m == mat) := by
  rw [erodePass] at he ⊢
  have key :
      (fun st2 : Grid × Bool =>
        st2.1.countP (fun m => m == mat) ≤ g.countP (fun m => m == mat) ∧
          (st2.2 = true →
            st2.1.countP (fun m => m == mat) < g.countP (fun m => m == mat)))
      ((coords w h).foldl
        (fun st c =>
          if gridGet st.1 (idx w c.1 c.2) = mat ∧ ¬ erodeKeep w h st.1 mat c.1 c.2 then
            (st.1.set (idx w c.1 c.2) "D", true)
          else st) (g, false)) := by
    refine foldl_inv
      (P := fun st2 : Grid × Bool =>
        st2.1.countP (fun m => m == mat) ≤ g.countP (fun m => m == mat) ∧
          (st2.2 = true →
            st2.1.countP (fun m => m == mat) < g.countP (fun m => m == mat)))
      ⟨le_refl _, by simp⟩ ?_
    intro st c _ hP
    dsimp only
    split
    case isTrue hfire =>
      obtain ⟨hfm, _⟩ := hfire
      have hin : idx w c.1 c.2 < st.1.length := by
        by_contra hout
        rw [gridGet, List.getD_eq_getElem?_getD, List.getElem?_eq_none (by omega)] at hfm
        exact hmat hfm.symm
      have hget : st.1[idx w c.1 c.2] = mat := by
        rw [gridGet, List.getD_eq_getElem?_getD, List.getElem?_eq_getElem hin] at hfm
        exact hfm
      have hcount := List.countP_set (fun m => m == mat) st.1 (idx w c.1 c.2) "D" hin
      rw [hget] at hcount
      have hDne : (("D" : Mat) == mat) = false := by
        rw [beq_eq_false_iff_ne]
        exact fun hc => hmat hc.symm
      rw [hDne] at hcount
      simp only [beq_self_eq_true, if_true, Bool.false_eq_true, if_false] at hcount
      have hpos : 0 < st.1.countP (fun m => m == mat) := by
        rw [List.countP_pos]
        exact ⟨mat, hget ▸ List.getElem_mem hin, by simp⟩
      obtain ⟨hP1, -⟩ := hP
      constructor
      · show (st.1.set (idx w c.1 c.2) "D").countP (fun m => m == mat) ≤ _
        omega
      · intro _
        show (st.1.set (idx w c.1 c.2) "D").countP (fun m => m == mat) < _
        omega
    case isFalse => exact hP
  obtain ⟨-, h2⟩ := key
  exact h2 he

/-- With enough fuel the erosion loop reaches a fixed point of the pass. -/
theorem erodeLoop_fixed {w h : Int} {mat : Mat} (hmat : mat ≠ "D") :
    ∀ (fuel : Nat) (g : Grid), g.countP (fun m => m == mat) < fuel →
      erodePass w h mat (erodeLoop w h mat fuel g) = (erodeLoop w h mat fuel g, false) := by
  intro fuel
  induction fuel with
  | zero =>
    intro g hg
    exact absurd hg (by omega)
  | succ n ih =>
    intro g hg
    rw [erodeLoop]
    cases hp : (erodePass w h mat g).2 with
    | false =>
      rw [if_neg (by simp)]
      have he : erodePass w h mat g = ((erodePass w h mat g).1, false) := by
        rw [← hp]
      obtain ⟨heq, -⟩ := erodePass_false he
      rw [heq] at he ⊢
      exact he
    | true =>
      rw [if_pos rfl]
      have hdec := erodePass_decrease (w := w) (h := h) hmat hp
      exact ih (erodePass w h mat g).1 (by omega)

/-- C4: `remove_thin_strips(mat)` reaches a fixed point (one further pass
changes nothing), and afterwards every remaining `mat` cell has a
same-material neighbour on the vertical axis and one on the horizontal
axis, out-of-grid neighbours counting as absent. -/
theorem C4_erosion_postcondition (w h : Int) (mat : Mat) (g : Grid) (hmat : mat ≠ "D")
    (hlen : g.length = (w * h).toNat) :
    erodePass w h mat (remove_thin_strips w h mat g) =
        (remove_thin_strips w h mat g, false) ∧
      ∀ x y : Int, 0 ≤ x → x < w → 0 ≤ y → y < h →
        gridGet (remove_thin_strips w h mat g) (idx w x y) = mat →
          ((matAt w h (remove_thin_strips w h mat g) x (y - 1) = mat ∨
              matAt w h (remove_thin_strips w h mat g) x (y + 1) = mat) ∧
            (matAt w h (remove_thin_strips w h mat g) (x + 1) y = mat ∨
              matAt w h (remove_thin_strips w h mat g) (x - 1) y = mat)) := by
  have hfix : erodePass w h mat (remove_thin_strips w h mat g) =
      (remove_thin_strips w h mat g, false) := by
    rw [remove_thin_strips]
    refine erodeLoop_fixed hmat _ g ?_
    have := List.countP_le_length (fun m => m == mat) (l := g)
    omega
  refine ⟨hfix, ?_⟩
  intro x y hx hx2 hy hy2 hcell
  obtain ⟨-, hall⟩ := erodePass_false hfix
  have hc := hall (x, y) ((mem_coords (c := (x, y))).mpr ⟨⟨hx, hx2⟩, hy, hy2⟩)
  rw [not_and, not_not] at hc
  exact hc hcell

/-- Witness for C4 on a concrete one-cell grid. -/
theorem C4_erosion_postcondition_witness :
    (("A" : Mat) ≠ "D" ∧ (["A"] : Grid).length = ((1 : Int) * 1).toNat) ∧
      (erodePass 1 1 "A" (remove_thin_strips 1 1 "A" ["A"]) =
          (remove_thin_strips 1 1 "A" ["A"], false) ∧
        ∀ x y : Int, 0 ≤ x → x < 1 → 0 ≤ y → y < 1 →
          gridGet (remove_thin_strips 1 1 "A" ["A"]) (idx 1 x y) = "A" →
            ((matAt 1 1 (remove_thin_strips 1 1 "A" ["A"]) x (y - 1) = "A" ∨
                matAt 1 1 (remove_thin_strips 1 1 "A" ["A"]) x (y + 1) = "A") ∧
              (matAt 1 1 (remove_thin_strips 1 1 "A" ["A"]) (x + 1) y = "A" ∨
                matAt 1 1 (remove_thin_strips 1 1 "A" ["A"]) (x - 1) y = "A"))) :=
  ⟨⟨by decide, by decide⟩,
    C4_erosion_postcondition 1 1 "A" ["A"] (by decide) (by decide)⟩

/-- `chooseBlobCenters` is the fold of `blobStep` from the empty state. -/
theorem chooseBlobCenters_eq (nBlobs : Nat) (rLo rHi minSep : Int)
    (valid : List (Int × Int)) (s : RS) :
    chooseBlobCenters nBlobs rLo rHi minSep valid s =
      valid.foldl (blobStep nBlobs rLo rHi minSep) ([], [], s) := rfl

/-- One selection step either leaves the state unchanged or, when the
candidate is far from every chosen centre, appends a blob centred at the
candidate and the candidate itself. -/
theorem blobStep_cases (n : Nat) (rLo rHi minSep : Int)
    (st : List Blob × List (Int × Int) × RS) (c : Int × Int) :
    blobStep n rLo rHi minSep st c = st ∨
      ((st.2.1.any (fun o => |c.1 - o.1| + |c.2 - o.2| < minSep)) = false ∧
        ∃ b s2, b.cx = c.1 ∧ b.cy = c.2 ∧
          blobStep n rLo rHi minSep st c = (st.1 ++ [b], st.2.1 ++ [c], s2)) := by
  obtain ⟨bs, cs, s⟩ := st
  have hred : blobStep n rLo rHi minSep (bs, cs, s) c =
      if n ≤ bs.length then (bs, cs, s)
      else if cs.any (fun o => |c.1 - o.1| + |c.2 - o.2| < minSep) then (bs, cs, s)
      else (bs ++ [⟨c.1, c.2, (randint rLo rHi s).1,
              (randint rLo rHi (randint rLo rHi s).2).1⟩],
            cs ++ [c], (randint rLo rHi (randint rLo rHi s).2).2) := rfl
  by_cases h1 : n ≤ bs.length
  · left
    rw [hred, if_pos h1]
  · by_cases h2 : cs.any (fun o => |c.1 - o.1| + |c.2 - o.2| < minSep) = true
    · left
      rw [hred, if_neg h1, if_pos h2]
    · right
      refine ⟨by simpa using h2,
        ⟨c.1, c.2, (randint rLo rHi s).1, (randint rLo rHi (randint rLo rHi s).2).1⟩,
        (randint rLo rHi (randint rLo rHi s).2).2, rfl, rfl, ?_⟩
      rw [hred, if_neg h1, if_neg (by simpa using h2)]

/-- The centres chosen by the fold extend the initial centres by a sublist
of the candidate list. -/
theorem blobFold_sublist (n : Nat) (rLo rHi minSep : Int) :
    ∀ (l : List (Int × Int)) (st : List Blob × List (Int × Int) × RS),
      ∃ t, (l.foldl (blobStep n rLo rHi minSep) st).2.1 = st.2.1 ++ t ∧
        t.Sublist l := by
  intro l
  induction l with
  | nil => exact fun st => ⟨[], by simp⟩
  | cons c cs ih =>
    intro st
    rw [List.foldl_cons]
    rcases blobStep_cases n rLo rHi minSep st c with heq | ⟨-, b, s2, -, -, heq⟩
    · obtain ⟨t, ht1, ht2⟩ := ih (blobStep n rLo rHi minSep st c)
      exact ⟨t, by rw [ht1, heq], ht2.cons c⟩
    · obtain ⟨t, ht1, ht2⟩ := ih (blobStep n rLo rHi minSep st c)
      refine ⟨c :: t, ?_, ht2.cons₂ c⟩
      rw [ht1, heq]
      simp

/-- Invariants of the centre-selection fold: blob centres mirror the
centre list, every centre satisfies any property of the candidates, and
the centres are pairwise at Manhattan distance at least the separation. -/
theorem blobFold_inv (n : Nat) (rLo rHi minSep : Int) (l : List (Int × Int))
    (Q : Int × Int → Prop) (hQ : ∀ c ∈ l, Q c)
    (st : List Blob × List (Int × Int) × RS)
    (hmap : (st.1.map fun b => (b.cx, b.cy)) = st.2.1)
    (hmem : ∀ c ∈ st.2.1, Q c)
    (hpw : List.Pairwise (fun a b => minSep ≤ manhattan a b) st.2.1) :
    ((((l.foldl (blobStep n rLo rHi minSep) st).1.map fun b => (b.cx, b.cy)) =
        (l.foldl (blobStep n rLo rHi minSep) st).2.1) ∧
      (∀ c ∈ (l.foldl (blobStep n rLo rHi minSep) st).2.1, Q c) ∧
      List.Pairwise (fun a b => minSep ≤ manhattan a b)
        (l.foldl (blobStep n rLo rHi minSep) st).2.1) := by
  refine foldl_inv (P := fun (st : List Blob × List (Int × Int) × RS) =>
      ((st.1.map fun b => (b.cx, b.cy)) = st.2.1) ∧
      (∀ c ∈ st.2.1, Q c) ∧
      List.Pairwise (fun a b => minSep ≤ manhattan a b) st.2.1)
    ⟨hmap, hmem, hpw⟩ ?_
  intro st2 a ha ⟨h1, h2, h3⟩
  rcases blobStep_cases n rLo rHi minSep st2 a with heq | ⟨hany, b, s2, hb1, hb2, heq⟩
  · rw [heq]
    exact ⟨h1, h2, h3⟩
  · rw [heq]
    have hfar : ∀ x ∈ st2.2.1, minSep ≤ manhattan x a := by
      intro x hx
      have := (List.any_eq_false.mp hany) x hx
      rw [decide_eq_true_eq] at this
      push_neg at this
      rw [manhattan, abs_sub_comm x.1 a.1, abs_sub_comm x.2 a.2]
      exact this
    refine ⟨?_, ?_, ?_⟩
    · simp only [List.map_append, h1, List.map_cons, List.map_nil, hb1, hb2]
    · intro c hc
      rcases List.mem_append.mp hc with hc | hc
      · exact h2 c hc
      · rw [List.mem_singleton.mp hc]
        exact hQ a ha
    · rw [List.pairwise_append]
      exact ⟨h3, List.pairwise_singleton _ _, fun x hx y hy => by
        rw [List.mem_singleton.mp hy]; exact hfar x hx⟩

/-- Every cell collected by `blobValidCells` holds the base material and is
outside the exclusion mask. -/
theorem blobValidCells_mem {w h : Int} {excl : List Bool} {g : Grid}
    {c : Int × Int} (hc : c ∈ blobValidCells w h excl g) :
    gridGet g (idx w c.1 c.2) = "D" ∧ excl.getD (idx w c.1 c.2) false = false := by
  have key : ∀ c ∈ blobValidCells w h excl g,
      gridGet g (idx w c.1 c.2) = "D" ∧ excl.getD (idx w c.1 c.2) false = false := by
    rw [blobValidCells]
    refine foldl_inv (P := fun (acc : List (Int × Int)) => ∀ c ∈ acc,
      gridGet g (idx w c.1 c.2) = "D" ∧ excl.getD (idx w c.1 c.2) false = false)
      (by simp) ?_
    intro acc y _ hacc
    refine foldl_inv (P := fun (acc : List (Int × Int)) => ∀ c ∈ acc,
      gridGet g (idx w c.1 c.2) = "D" ∧ excl.getD (idx w c.1 c.2) false = false)
      hacc ?_
    intro acc2 x _ hacc2
    split
    case isTrue hcond =>
      intro c hc
      rcases List.mem_append.mp hc with hc | hc
      · exact hacc2 c hc
      · rw [List.mem_singleton.mp hc]
        exact ⟨hcond.2, by simpa using hcond.1⟩
    case isFalse _ => exact hacc2
  exact key c hc

/-- C5 (amended): in `place_blobs` - the painter used for water "A" and
gravel "E" - the chosen blob centres are centred on the chosen centre
cells, form a sublist of the deterministically shuffled candidate list,
each held base material "D" and was outside the exclusion mask at
selection time, and all pairs of centres are at Manhattan distance at
least `min_sep`; the painted result uses exactly these blobs.  The
original claim also asserted this for grass "G", which is refuted by
`C5_counterexample`: the grass blobs of `generate_world` are generated by
plain coordinate draws without the candidate enumeration, the shuffle, or
the separation check. -/
theorem C5_center_selection (w h : Int) (mat : Mat) (excl : List Bool)
    (nBlobs : Nat) (rLo rHi minSep : Int) (g : Grid) (s : RS) :
    ((chooseBlobCenters nBlobs rLo rHi minSep
          (shuffle (blobValidCells w h excl g) s).1
          (shuffle (blobValidCells w h excl g) s).2).1.map
        fun b => (b.cx, b.cy)) =
      (chooseBlobCenters nBlobs rLo rHi minSep
          (shuffle (blobValidCells w h excl g) s).1
          (shuffle (blobValidCells w h excl g) s).2).2.1 ∧
    (chooseBlobCenters nBlobs rLo rHi minSep
        (shuffle (blobValidCells w h excl g) s).1
        (shuffle (blobValidCells w h excl g) s).2).2.1.Sublist
      (shuffle (blobValidCells w h excl g) s).1 ∧
    (∀ c ∈ (chooseBlobCenters nBlobs rLo rHi minSep
        (shuffle (blobValidCells w h excl g) s).1
        (shuffle (blobValidCells w h excl g) s).2).2.1,
      gridGet g (idx w c.1 c.2) = "D" ∧ excl.getD (idx w c.1 c.2) false = false) ∧
    List.Pairwise (fun a b => minSep ≤ manhattan a b)
      (chooseBlobCenters nBlobs rLo rHi minSep
          (shuffle (blobValidCells w h excl g) s).1
          (shuffle (blobValidCells w h excl g) s).2).2.1 ∧
    place_blobs w h mat excl nBlobs rLo rHi minSep g s =
      paintBlobs w h mat excl
        (chooseBlobCenters nBlobs rLo rHi minSep
            (shuffle (blobValidCells w h excl g) s).1
            (shuffle (blobValidCells w h excl g) s).2).1 g
        (chooseBlobCenters nBlobs rLo rHi minSep
            (shuffle (blobValidCells w h excl g) s).1
            (shuffle (blobValidCells w h excl g) s).2).2.2 := by
  rw [chooseBlobCenters_eq]
  have hinv := blobFold_inv nBlobs rLo rHi minSep
    (shuffle (blobValidCells w h excl g) s).1
    (fun c => gridGet g (idx w c.1 c.2) = "D" ∧
      excl.getD (idx w c.1 c.2) false = false)
    (fun c hc => blobValidCells_mem (mem_shuffle hc))
    ([], [], (shuffle (blobValidCells w h excl g) s).2)
    (by simp) (by simp) (by simp)
  obtain ⟨hsub_t, hsub_eq, hsub_sl⟩ := blobFold_sublist nBlobs rLo rHi minSep
    (shuffle (blobValidCells w h excl g) s).1
    ([], [], (shuffle (blobValidCells w h excl g) s).2)
  exact ⟨hinv.1, by rw [hsub_eq, List.nil_append]; exact hsub_sl,
    hinv.2.1, hinv.2.2, rfl⟩

/-- `randint` only advances the stream position, never the stream. -/
theorem randint_f (lo hi : Int) (s : RS) : (randint lo hi s).2.f = s.f := rfl

/-- `randq` only advances the stream position, never the stream. -/
theorem randq_f (s : RS) : (randq s).2.f = s.f := rfl

/-- `choice` only advances the stream position, never the stream. -/
theorem choice_f {α : Type} (l : List α) (d : α) (s : RS) : (choice l d s).2.f = s.f := rfl

/-- The horizontal core paints only the grid; the rng state is untouched. -/
theorem roadCoreH_s {w h hRow : Int} (st : RoadState) : (roadCoreH w h hRow st).s = st.s := by
  rw [roadCoreH]
  refine foldl_inv (P := fun st2 : RoadState => st2.s = st.s) rfl ?_
  intro st2 dy _ hP
  dsimp only
  split
  · refine foldl_inv (P := fun st2 : RoadState => st2.s = st.s) hP ?_
    intro st3 x _ hP3
    exact hP3
  · exact hP

/-- The vertical core paints only the grid; the rng state is untouched. -/
theorem roadCoreV_s {w h hRow vCol : Int} (st : RoadState) :
    (roadCoreV w h hRow vCol st).s = st.s := by
  rw [roadCoreV]
  refine foldl_inv (P := fun st2 : RoadState => st2.s = st.s) rfl ?_
  intro st2 dx _ hP
  dsimp only
  split
  · refine foldl_inv (P := fun st2 : RoadState => st2.s = st.s) hP ?_
    intro st3 y _ hP3
    exact hP3
  · exact hP

/-- The plaza draws from the stream but never replaces its function. -/
theorem roadPlaza_sf {w h hRow vCol : Int} (st : RoadState) :
    (roadPlaza w h hRow vCol st).s.f = st.s.f := by
  rw [roadPlaza]
  refine foldl_inv (P := fun st2 : RoadState => st2.s.f = st.s.f) rfl ?_
  intro st2 dy _ hP
  refine foldl_inv (P := fun st2 : RoadState => st2.s.f = st.s.f) hP ?_
  intro st3 dx _ hP3
  dsimp only
  split
  · split
    · exact hP3
    · exact hP3
  · exact hP3

/-- Bulge painting draws from the stream but never replaces its function. -/
theorem bulgePaint_sf {w h bx by2 brx bry : Int} (st : RoadState) :
    (bulgePaint w h bx by2 brx bry st).s.f = st.s.f := by
  rw [bulgePaint]
  refine foldl_inv (P := fun st2 : RoadState => st2.s.f = st.s.f) rfl ?_
  intro st2 dy _ hP
  refine foldl_inv (P := fun st2 : RoadState => st2.s.f = st.s.f) hP ?_
  intro st3 dx _ hP3
  dsimp only
  split
  · split
    · exact hP3
    · exact hP3
  · exact hP3

/-- One bulge never replaces the stream function. -/
theorem roadBulge_sf {w h hRow vCol : Int} (st : RoadState) :
    (roadBulge w h hRow vCol st).s.f = st.s.f := by
  rw [roadBulge]
  dsimp only
  rw [bulgePaint_sf]
  by_cases hu : (randq st.s).1 < 1 / 2
  · rw [if_pos hu]
    rfl
  · rw [if_neg hu]
    rfl

/-- The bulge loop never replaces the stream function. -/
theorem roadBulges_sf {w h hRow vCol : Int} (st : RoadState) :
    (roadBulges w h hRow vCol st).s.f = st.s.f := by
  rw [roadBulges]
  refine foldl_inv (P := fun st2 : RoadState => st2.s.f = st.s.f) rfl ?_
  intro st2 _ _ hP
  rw [roadBulge_sf]
  exact hP

/-- Horizontal stub painting leaves the rng state untouched. -/
theorem stubPaintH_s {w h hRow sx dir len : Int} (st : RoadState) :
    (stubPaintH w h hRow sx dir len st).s = st.s := by
  rw [stubPaintH]
  refine foldl_inv (P := fun st2 : RoadState => st2.s = st.s) rfl ?_
  intro st2 step _ hP
  dsimp only
  split
  · refine foldl_inv (P := fun st2 : RoadState => st2.s = st.s) hP ?_
    intro st3 dx _ hP3
    dsimp only
    split
    · exact hP3
    · exact hP3
  · exact hP

/-- Vertical stub painting leaves the rng state untouched. -/
theorem stubPaintV_s {w h vCol sy dir len : Int} (st : RoadState) :
    (stubPaintV w h vCol sy dir len st).s = st.s := by
  rw [stubPaintV]
  refine foldl_inv (P := fun st2 : RoadState => st2.s = st.s) rfl ?_
  intro st2 step _ hP
  dsimp only
  split
  · refine foldl_inv (P := fun st2 : RoadState => st2.s = st.s) hP ?_
    intro st3 dy _ hP3
    dsimp only
    split
    · exact hP3
    · exact hP3
  · exact hP

/-- One stub never replaces the stream function. -/
theorem roadStub_sf {w h hRow vCol : Int} (st : RoadState) :
    (roadStub w h hRow vCol st).s.f = st.s.f := by
  rw [roadStub]
  dsimp only
  split
  · rw [stubPaintH_s]
    rfl
  · rw [stubPaintV_s]
    rfl

/-- The stub loop never replaces the stream function. -/
theorem roadStubs_sf {w h hRow vCol : Int} (st : RoadState) :
    (roadStubs w h hRow vCol st).s.f = st.s.f := by
  rw [roadStubs]
  refine foldl_inv (P := fun st2 : RoadState => st2.s.f = st.s.f) rfl ?_
  intro st2 _ _ hP
  rw [roadStub_sf]
  exact hP

/-- The whole corridor generator never replaces the stream function: it
only advances the position. -/
theorem place_road_corridors_f {w h : Int} (g : Grid) (s : RS) :
    (place_road_corridors w h g s).rs.f = s.f := by
  rw [place_road_corridors]
  dsimp only
  rw [roadStubs_sf, roadBulges_sf, roadPlaza_sf]
  show (roadCoreV w h (hRowOf h) (vColOf w) _).s.f = s.f
  rw [roadCoreV_s, roadCoreH_s]

/-- The horizontal core paints "B" on every in-corridor cell of each of
its three rows. -/
theorem roadCoreH_setsB_at {w h hRow x row : Int} (st : RoadState)
    (hx1 : 2 ≤ x) (hx2 : x < w - 2) (h0 : 0 ≤ row) (hh : row < h)
    (hdy : row - hRow = -1 ∨ row - hRow = 0 ∨ row - hRow = 1)
    (hlen : st.grid.length = (w * h).toNat) :
    (roadCoreH w h hRow st).grid.getD (idx w x row) "D" = "B" := by
  rw [roadCoreH]
  refine foldl_estab (I := fun st2 : RoadState => st2.grid.length = (w * h).toNat)
    (P := fun st2 : RoadState => st2.grid.getD (idx w x row) "D" = "B")
    (x := row - hRow) (mem_intRange.mpr (by omega)) hlen ?_ ?_ ?_
  · intro b a _ hI
    dsimp only
    split
    · refine foldl_inv (P := fun st2 : RoadState => st2.grid.length = (w * h).toNat) hI ?_
      intro b2 x2 _ hI2
      show (b2.grid.set _ "B").length = _
      rw [List.length_set]
      exact hI2
    · exact hI
  · intro b hI
    dsimp only
    rw [if_pos (show (0 : Int) ≤ hRow + (row - hRow) ∧ hRow + (row - hRow) < h by omega)]
    refine foldl_estab (I := fun st2 : RoadState => st2.grid.length = (w * h).toNat)
      (P := fun st2 : RoadState => st2.grid.getD (idx w x row) "D" = "B")
      (x := x) (mem_intRange.mpr (by omega)) hI ?_ ?_ ?_
    · intro b2 x2 _ hI2
      show (b2.grid.set _ "B").length = _
      rw [List.length_set]
      exact hI2
    · intro b2 hI2
      show (b2.grid.set (idx w x (hRow + (row - hRow))) "B").getD (idx w x row) "D" = "B"
      rw [show hRow + (row - hRow) = row from by omega]
      exact getD_set_self (by rw [hI2]; exact idx_lt (by omega) (by omega) (by omega) (by omega))
    · intro b2 x2 _ hP
      show (b2.grid.set (idx w x2 (hRow + (row - hRow))) "B").getD (idx w x row) "D" = "B"
      rcases getD_set_or (l := b2.grid) (i := idx w x2 (hRow + (row - hRow)))
          (j := idx w x row) (a := "B") (d := "D") with hc | hc
      · exact hc
      · rw [hc]
        exact hP
  · intro b a _ hP
    dsimp only
    split
    · refine foldl_inv
        (P := fun st2 : RoadState => st2.grid.getD (idx w x row) "D" = "B") hP ?_
      intro b2 x2 _ hP2
      show (b2.grid.set _ "B").getD (idx w x row) "D" = "B"
      rcases getD_set_or (l := b2.grid) (j := idx w x row) (a := "B") (d := "D") with hc | hc
      · exact hc
      · rw [hc]
        exact hP2
    · exact hP

/-- Any cell of the three horizontal corridor rows with
`2 <= x < w - 2` holds "B" after the whole corridor generator. -/
theorem place_road_corridors_B_row {w h : Int} (g : Grid) (s : RS) {x row : Int}
    (hx1 : 2 ≤ x) (hx2 : x < w - 2) (h0 : 0 ≤ row) (hh : row < h)
    (hdy : row - hRowOf h = -1 ∨ row - hRowOf h = 0 ∨ row - hRowOf h = 1)
    (hlen : g.length = (w * h).toNat) :
    (place_road_corridors w h g s).grid.getD (idx w x row) "D" = "B" := by
  rw [place_road_corridors]
  dsimp only
  rcases @roadStubs_grid_or w h (hRowOf h) (vColOf w) _
      (idx w x row) with h6 | h6
  · exact h6
  rw [h6]
  rcases @roadBulges_grid_or w h (hRowOf h) (vColOf w) _
      (idx w x row) with h5 | h5
  · exact h5
  rw [h5]
  rcases @roadPlaza_grid_or w h (hRowOf h) (vColOf w) _
      (idx w x row) with h4 | h4
  · exact h4
  rw [h4]
  show (roadCoreV w h (hRowOf h) (vColOf w) _).grid.getD (idx w x row) "D" = "B"
  rcases @roadCoreV_grid_or w h (hRowOf h) (vColOf w) _
      (idx w x row) with h2 | h2
  · exact h2
  rw [h2]
  exact roadCoreH_setsB_at _ hx1 hx2 h0 hh hdy hlen

/-- `grassBlobsGen` is the fold of `gStep` from the empty list. -/
theorem grassBlobsGen_eq (w h : Int) (s : RS) :
    grassBlobsGen w h s =
      (List.range (max 20 ((w * h) / 600)).toNat).foldl
        (gStep w h (max 5 (min w h / 20)) (max ((max 5 (min w h / 20)) + 3) (min w h / 8)))
        ([], s) := rfl

/-- A grass-blob step keeps every blob already in the accumulator. -/
theorem gStep_mem {w h rLo rHi : Int} {st : List Blob × RS} {k : Nat} {b : Blob}
    (hb : b ∈ st.1) : b ∈ (gStep w h rLo rHi st k).1 := by
  obtain ⟨bs, s⟩ := st
  show b ∈ bs ++ _
  exact List.mem_append_left _ hb

/-- From the empty accumulator, one grass-blob step yields a single blob
whose centre is the pair of fresh coordinate draws. -/
theorem gStep_first (w h rLo rHi : Int) (s : RS) (k : Nat) :
    ∃ b, (gStep w h rLo rHi ([], s) k).1 = [b] ∧
      b.cx = (randint 3 (w - 4) s).1 ∧
      b.cy = (randint 3 (h - 4) (randint 3 (w - 4) s).2).1 :=
  ⟨_, rfl, rfl, rfl⟩

/-- When at least one grass blob is generated, the first one is centred at
the first two coordinate draws of the stream. -/
theorem grassBlobsGen_center_mem (w h : Int) (s : RS)
    (hn : 0 < (max 20 ((w * h) / 600)).toNat) :
    ∃ b ∈ (grassBlobsGen w h s).1,
      b.cx = (randint 3 (w - 4) s).1 ∧
      b.cy = (randint 3 (h - 4) (randint 3 (w - 4) s).2).1 := by
  rw [grassBlobsGen_eq]
  obtain ⟨m, hm⟩ : ∃ m, (max (20 : Int) ((w * h) / 600)).toNat = m + 1 :=
    ⟨_, (Nat.succ_pred_eq_of_pos hn).symm⟩
  rw [hm, List.range_eq_range']
  rw [show List.range' 0 (m + 1) = 0 :: List.range' 1 m from rfl]
  rw [List.foldl_cons]
  obtain ⟨b0, hb0, hcx, hcy⟩ := gStep_first w h (max 5 (min w h / 20))
    (max ((max 5 (min w h / 20)) + 3) (min w h / 8)) s 0
  refine ⟨b0, ?_, hcx, hcy⟩
  refine foldl_inv (P := fun (st : List Blob × RS) => b0 ∈ st.1) ?_ ?_
  · dsimp only
    rw [hb0]
    simp
  · intro st k _ hmem
    exact gStep_mem hmem

/-- C5 (counterexample): with the standard configuration on a 12 by 12
world and the zero stream, the grass blobs of `generate_world` include one
whose centre cell is a road cell "B", not base material "D", at selection
time - so grass centres do not obey the centre-selection discipline the
claim states for every blob-painted material. -/
theorem C5_counterexample :
    ¬ (∀ b ∈ (grassBlobsGen 12 12 (roadsResult cfgStd 12 12 zeroStream).2.2).1,
        gridGet (roadsResult cfgStd 12 12 zeroStream).1 (idx 12 b.cx b.cy) = "D") := by
  intro hall
  have hB : ((cfgStd.tileId "B").isSome = true) := by decide
  have hroads : roadsResult cfgStd 12 12 zeroStream =
      ((place_road_corridors 12 12 (List.replicate ((12 : Int) * 12).toNat "D")
          zeroStream).grid,
        some (place_road_corridors 12 12 (List.replicate ((12 : Int) * 12).toNat "D")
          zeroStream).overlay,
        (place_road_corridors 12 12 (List.replicate ((12 : Int) * 12).toNat "D")
          zeroStream).rs) := by
    rw [roadsResult, if_pos hB]
  have hsf : (roadsResult cfgStd 12 12 zeroStream).2.2.f = zeroStream.f := by
    rw [hroads]
    exact place_road_corridors_f _ _
  have hrand : ∀ s2 : RS, s2.f = zeroStream.f → (randint 3 ((12 : Int) - 4) s2).1 = 3 := by
    intro s2 hf
    show (3 : Int) + Int.ofNat (s2.next.1 % (((12 : Int) - 4) - 3 + 1).toNat.max 1) = 3
    have hz : s2.next.1 = 0 := by
      show s2.f s2.pos = 0
      rw [hf]
      rfl
    rw [hz]
    decide
  obtain ⟨b, hb, hcx, hcy⟩ := grassBlobsGen_center_mem 12 12
    (roadsResult cfgStd 12 12 zeroStream).2.2 (by decide)
  have hcell := hall b hb
  have hx3 : b.cx = 3 := by
    rw [hcx]
    exact hrand _ hsf
  have hy3 : b.cy = 3 := by
    rw [hcy]
    refine hrand _ ?_
    rw [randint_f]
    exact hsf
  rw [hx3, hy3] at hcell
  have hdy12 : (3 : Int) - hRowOf 12 = -1 ∨ (3 : Int) - hRowOf 12 = 0 ∨
      (3 : Int) - hRowOf 12 = 1 := Or.inl (by decide)
  have hX : (place_road_corridors 12 12 (List.replicate ((12 : Int) * 12).toNat "D")
      zeroStream).grid.getD (idx 12 3 3) "D" = "B" :=
    @place_road_corridors_B_row 12 12 _ zeroStream 3 3
      (by decide) (by decide) (by decide) (by decide) hdy12 (by simp)
  have hBcell : gridGet (roadsResult cfgStd 12 12 zeroStream).1 (idx 12 3 3) = "B" := by
    rw [hroads]
    exact hX
  exact absurd (hBcell.symm.trans hcell) (by decide)

/-- Painting blobs never changes the grid size. -/
theorem paintBlobs_length (w h : Int) (mat : Mat) (excl : List Bool) (blobs : List Blob)
    (g : Grid) (s : RS) : (paintBlobs w h mat excl blobs g s).1.length = g.length := by
  rw [paintBlobs]
  refine foldl_inv (P := fun (st : Grid × RS) => st.1.length = g.length) rfl ?_
  intro st c _ hP
  dsimp only
  split
  · exact hP
  · show (if _ then st.1.set _ mat else st.1).length = g.length
    split
    · rw [List.length_set]
      exact hP
    · exact hP

/-- One erosion pass never changes the grid size. -/
theorem erodePass_length (w h : Int) (mat : Mat) (g : Grid) :
    (erodePass w h mat g).1.length = g.length := by
  rw [erodePass]
  refine foldl_inv (P := fun (st : Grid × Bool) => st.1.length = g.length) rfl ?_
  intro st c _ hP
  dsimp only
  split
  · show (st.1.set _ "D").length = g.length
    rw [List.length_set]
    exact hP
  · exact hP

/-- The erosion loop never changes the grid size. -/
theorem erodeLoop_length (w h : Int) (mat : Mat) (fuel : Nat) (g : Grid) :
    (erodeLoop w h mat fuel g).length = g.length := by
  induction fuel generalizing g with
  | zero => rfl
  | succ n ih =>
    rw [erodeLoop]
    split
    · rw [ih]
      exact erodePass_length w h mat g
    · exact erodePass_length w h mat g

/-- `remove_thin_strips` never changes the grid size. -/
theorem remove_thin_strips_length (w h : Int) (mat : Mat) (g : Grid) :
    (remove_thin_strips w h mat g).length = g.length := by
  rw [remove_thin_strips]
  exact erodeLoop_length w h mat _ g

/-- `place_blobs` never changes the grid size. -/
theorem place_blobs_length (w h : Int) (mat : Mat) (excl : List Bool) (nBlobs : Nat)
    (rLo rHi minSep : Int) (g : Grid) (s : RS) :
    (place_blobs w h mat excl nBlobs rLo rHi minSep g s).1.length = g.length :=
  paintBlobs_length w h mat excl _ g _

/-- The grass stage never changes the grid size. -/
theorem grassStage_length (w h : Int) (g1 : Grid) (roadBuf : List Bool) (s1 : RS) :
    (grassStage w h g1 roadBuf s1).1.length = g1.length := by
  show (remove_thin_strips w h "G" _).length = g1.length
  rw [remove_thin_strips_length]
  exact paintBlobs_length w h "G" roadBuf _ g1 _

/-- The water stage never changes the grid size. -/
theorem waterStage_length (w h : Int) (g3 : Grid) (grassBuf roadBuf : List Bool)
    (s3 : RS) : (waterStage w h g3 grassBuf roadBuf s3).1.length = g3.length := by
  show (remove_thin_strips w h "A" _).length = g3.length
  rw [remove_thin_strips_length]
  exact place_blobs_length w h "A" _ _ _ _ _ g3 _

/-- The gravel stage never changes the grid size. -/
theorem gravelStage_length (w h : Int) (g5 : Grid) (grassBuf roadBuf : List Bool)
    (s4 : RS) : (gravelStage w h g5 grassBuf roadBuf s4).1.length = g5.length := by
  show (remove_thin_strips w h "E" _).length = g5.length
  rw [remove_thin_strips_length]
  exact place_blobs_length w h "E" _ _ _ _ _ g5 _

/-- The pipeline never changes the grid size produced by the road step. -/
theorem generateWorldCore_length (cfg : Config) (w h : Int) (s : RS) :
    (generateWorldCore cfg w h s).grid.length = (roadsResult cfg w h s).1.length := by
  rw [generateWorldCore]
  rcases hr1 : roadsResult cfg w h s with ⟨g1, ov1, s1⟩
  dsimp only
  rcases hgs : grassStage w h g1 (compute_buffer w h g1 "B" 2) s1 with ⟨g3, s3⟩
  dsimp only
  rcases hws : waterStage w h g3 (compute_buffer w h g3 "G" 2)
      (compute_buffer w h g1 "B" 2) s3 with ⟨g5, s4⟩
  dsimp only
  have hl3 : g3.length = g1.length := by
    have := grassStage_length w h g1 (compute_buffer w h g1 "B" 2) s1
    rw [hgs] at this
    exact this
  have hl5 : g5.length = g3.length := by
    have := waterStage_length w h g3 (compute_buffer w h g3 "G" 2)
      (compute_buffer w h g1 "B" 2) s3
    rw [hws] at this
    exact this
  split
  · rcases hgr : gravelStage w h g5 (compute_buffer w h g3 "G" 2)
        (compute_buffer w h g1 "B" 2) s4 with ⟨g7, s5⟩
    dsimp only
    have hl7 : g7.length = g5.length := by
      have := gravelStage_length w h g5 (compute_buffer w h g3 "G" 2)
        (compute_buffer w h g1 "B" 2) s4
      rw [hgr] at this
      exact this
    rw [hl7, hl5, hl3]
  · rw [hl5, hl3]

/-- Mapping a list through a pointwise-failing partial function fails as
soon as the list is nonempty. -/
theorem mapM_none_of_all {α β : Type} (f : α → Option β) (l : List α) (hne : l ≠ [])
    (hf : ∀ a ∈ l, f a = none) : l.mapM f = none := by
  cases l with
  | nil => exact absurd rfl hne
  | cons a t =>
    rw [List.mapM_cons, hf a (by simp)]
    rfl

/-- Mapping a list through a pointwise-succeeding partial function
succeeds. -/
theorem mapM_isSome_of_all {α β : Type} (f : α → Option β) (l : List α)
    (hf : ∀ a ∈ l, (f a).isSome = true) : (l.mapM f).isSome = true := by
  induction l with
  | nil => rfl
  | cons a t ih =>
    rw [List.mapM_cons]
    obtain ⟨b, hb⟩ := Option.isSome_iff_exists.mp (hf a (by simp))
    rw [hb]
    obtain ⟨ts, hts⟩ := Option.isSome_iff_exists.mp
      (ih (fun x hx => hf x (by simp [hx])))
    rw [show t.mapM f = some ts from hts]
    rfl

/-- Every cell of the final material map holds one of the five paintable
materials. -/
theorem generateWorldCore_values (cfg : Config) (w h : Int) (s : RS) (i : Nat) :
    (generateWorldCore cfg w h s).grid.getD i "D" = "D" ∨
      (generateWorldCore cfg w h s).grid.getD i "D" = "B" ∨
      (generateWorldCore cfg w h s).grid.getD i "D" = "G" ∨
      (generateWorldCore cfg w h s).grid.getD i "D" = "A" ∨
      (generateWorldCore cfg w h s).grid.getD i "D" = "E" := by
  have hval1 := roadsResult_values cfg w h s
  rw [generateWorldCore]
  rcases hr1 : roadsResult cfg w h s with ⟨g1, ov1, s1⟩
  rw [hr1] at hval1
  dsimp only
  dsimp only at hval1
  rcases hgs : grassStage w h g1 (compute_buffer w h g1 "B" 2) s1 with ⟨g3, s3⟩
  dsimp only
  rcases hws : waterStage w h g3 (compute_buffer w h g3 "G" 2)
      (compute_buffer w h g1 "B" 2) s3 with ⟨g5, s4⟩
  dsimp only
  have hchar3 := grassStage_char w h g1 (compute_buffer w h g1 "B" 2) s1 i
  rw [hgs] at hchar3
  dsimp only at hchar3
  have hchar5 := waterStage_char w h g3 (compute_buffer w h g3 "G" 2)
    (compute_buffer w h g1 "B" 2) s3 i
  rw [hws] at hchar5
  dsimp only at hchar5
  have hv3 : g3.getD i "D" = "D" ∨ g3.getD i "D" = "B" ∨ g3.getD i "D" = "G" := by
    rcases hchar3 with hc | hc | hc | hc
    · rw [hc]
      rcases hval1 i with hv | hv
      · exact Or.inr (Or.inl hv)
      · exact Or.inl hv
    · exact Or.inr (Or.inr hc.2.2)
    · exact Or.inl hc.2
    · exact Or.inl hc.2
  have hv5 : g5.getD i "D" = "D" ∨ g5.getD i "D" = "B" ∨ g5.getD i "D" = "G" ∨
      g5.getD i "D" = "A" := by
    rcases hchar5 with hc | hc | hc | hc
    · rw [hc]
      rcases hv3 with hv | hv | hv
      · exact Or.inl hv
      · exact Or.inr (Or.inl hv)
      · exact Or.inr (Or.inr (Or.inl hv))
    · exact Or.inr (Or.inr (Or.inr hc.2.2))
    · exact Or.inl hc.2
    · exact Or.inl hc.2
  split
  · rcases hgr : gravelStage w h g5 (compute_buffer w h g3 "G" 2)
        (compute_buffer w h g1 "B" 2) s4 with ⟨g7, s5⟩
    dsimp only
    have hchar7 := gravelStage_char w h g5 (compute_buffer w h g3 "G" 2)
      (compute_buffer w h g1 "B" 2) s4 i
    rw [hgr] at hchar7
    dsimp only at hchar7
    rcases hchar7 with hc | hc | hc | hc
    · rw [hc]
      rcases hv5 with hv | hv | hv | hv
      · exact Or.inl hv
      · exact Or.inr (Or.inl hv)
      · exact Or.inr (Or.inr (Or.inl hv))
      · exact Or.inr (Or.inr (Or.inr (Or.inl hv)))
    · exact Or.inr (Or.inr (Or.inr (Or.inr hc.2)))
    · exact Or.inl hc.2
    · exact Or.inl hc.2
  · rcases hv5 with hv | hv | hv | hv
    · exact Or.inl hv
    · exact Or.inr (Or.inl hv)
    · exact Or.inr (Or.inr (Or.inl hv))
    · exact Or.inr (Or.inr (Or.inr (Or.inl hv)))

/-- C7 (counterexample): a configuration with no registered tile ids - in
particular grass "G" and water "A" have none - makes `generate_world`
fail (the `KeyError` of `MATERIAL_TO_TILE_ID[m]`, modelled by `none`)
rather than fall back: configuration errors are fatal here. -/
theorem C7_counterexample : generate_world cfgNone 8 8 zeroStream = none := by
  have hroads : (roadsResult cfgNone 8 8 zeroStream).1 =
      List.replicate ((8 : Int) * 8).toNat "D" := by
    rw [roadsResult]
    dsimp only
    rw [if_neg (by decide : ¬ ((cfgNone.tileId "B").isSome = true))]
  have hlen : (generateWorldCore cfgNone 8 8 zeroStream).grid.length = 64 := by
    rw [generateWorldCore_length, hroads]
    simp
  have hne : (generateWorldCore cfgNone 8 8 zeroStream).grid ≠ [] := by
    intro he
    rw [he] at hlen
    exact absurd hlen (by decide)
  have hrw : generate_world cfgNone 8 8 zeroStream =
      ((generateWorldCore cfgNone 8 8 zeroStream).grid.mapM cfgNone.tileId).map
        (fun tiles => (tiles, (generateWorldCore cfgNone 8 8 zeroStream).overlay,
          (generateWorldCore cfgNone 8 8 zeroStream).grid)) := rfl
  rw [hrw, mapM_none_of_all cfgNone.tileId _ hne (fun a _ => rfl)]
  rfl

/-- C7 (amended): when every material the generator can paint resolves a
tile id - as the shipped atlas directory does - the conversion
`MATERIAL_TO_TILE_ID[m]` succeeds on every cell and `generate_world`
returns a tile array.  The original "never fatal for every configuration"
is refuted by `C7_counterexample`: there is no fallback in the code, a
missing entry raises. -/
theorem C7_amended (cfg : Config) (w h : Int) (s : RS)
    (hD : (cfg.tileId "D").isSome = true) (hB : (cfg.tileId "B").isSome = true)
    (hG : (cfg.tileId "G").isSome = true) (hA : (cfg.tileId "A").isSome = true)
    (hE : (cfg.tileId "E").isSome = true) :
    (generate_world cfg w h s).isSome = true := by
  have hrw : generate_world cfg w h s =
      ((generateWorldCore cfg w h s).grid.mapM cfg.tileId).map
        (fun tiles => (tiles, (generateWorldCore cfg w h s).overlay,
          (generateWorldCore cfg w h s).grid)) := rfl
  rw [hrw]
  have hall : ∀ m ∈ (generateWorldCore cfg w h s).grid, (cfg.tileId m).isSome = true := by
    intro m hm
    obtain ⟨i, hlt, hmi⟩ := List.mem_iff_getElem.mp hm
    have hgd : (generateWorldCore cfg w h s).grid.getD i "D" = m := by
      rw [List.getD_eq_getElem?_getD, List.getElem?_eq_getElem hlt, hmi]
      rfl
    rcases generateWorldCore_values cfg w h s i with hv | hv | hv | hv | hv
    · rw [hgd] at hv
      rw [hv]
      exact hD
    · rw [hgd] at hv
      rw [hv]
      exact hB
    · rw [hgd] at hv
      rw [hv]
      exact hG
    · rw [hgd] at hv
      rw [hv]
      exact hA
    · rw [hgd] at hv
      rw [hv]
      exact hE
  obtain ⟨ts, hts⟩ := Option.isSome_iff_exists.mp
    (mapM_isSome_of_all cfg.tileId (generateWorldCore cfg w h s).grid hall)
  rw [hts]
  rfl

/-- Witness for C7 (amended) at the standard configuration. -/
theorem C7_amended_witness :
    ((cfgStd.tileId "D").isSome = true ∧ (cfgStd.tileId "B").isSome = true ∧
      (cfgStd.tileId "G").isSome = true ∧ (cfgStd.tileId "A").isSome = true ∧
      (cfgStd.tileId "E").isSome = true) ∧
      (generate_world cfgStd 8 8 zeroStream).isSome = true :=
  ⟨⟨by decide, by decide, by decide, by decide, by decide⟩,
    C7_amended cfgStd 8 8 zeroStream (by decide) (by decide) (by decide) (by decide)
      (by decide)⟩

/-- `set.add` keeps existing members. -/
theorem setAdd_mem_of_mem {l : List (Int × Int)} {c x : Int × Int} (hx : x ∈ l) :
    x ∈ setAdd l c := by
  rw [setAdd]
  split
  · exact hx
  · exact List.mem_append_left _ hx

/-- `set.add` makes the added cell a member. -/
theorem setAdd_mem_self {l : List (Int × Int)} {c : Int × Int} : c ∈ setAdd l c := by
  rw [setAdd]
  split
  case isTrue hc => exact contains_iff.mp hc
  case isFalse _ => exact List.mem_append_right _ (by simp)

/-- The cell of a decoration built from `iso_grid_to_world` is the grid
cell it was placed on. -/
theorem cellOf_mk (tx ty : Int) (v : String) :
    cellOf ((iso_grid_to_world tx ty).1, (iso_grid_to_world tx ty).2, v) = (tx, ty) :=
  isoWorldToGrid_iso tx ty

/-- In-bounds `mat_at` is the flat-grid lookup. -/
theorem matAt_eq_gridGet {w h x y : Int} (g : Grid) (hx : 0 ≤ x) (hx2 : x < w)
    (hy : 0 ≤ y) (hy2 : y < h) : matAt w h g x y = gridGet g (idx w x y) := by
  rw [matAt, if_neg (by omega)]

/-- Appending a decoration on a cell outside the occupancy set that covers
all previous cells keeps the world positions pairwise distinct. -/
theorem nodup_map_append_pos {ps : List Pos} {occ : List (Int × Int)} {tx ty : Int}
    {v : String} (hnd : (ps.map wpos).Nodup) (hmem : ∀ q ∈ ps, cellOf q ∈ occ)
    (hnot : (tx, ty) ∉ occ) :
    ((ps ++ [((iso_grid_to_world tx ty).1, (iso_grid_to_world tx ty).2, v)]).map
        wpos).Nodup := by
  rw [List.map_append, List.nodup_append]
  refine ⟨hnd, List.nodup_singleton _, ?_⟩
  intro a ha hb
  obtain ⟨q, hq, rfl⟩ := List.mem_map.mp ha
  rw [List.map_cons, List.map_nil, List.mem_singleton] at hb
  have hcell : cellOf q = (tx, ty) := by
    rw [cellOf, hb]
    exact cellOf_mk tx ty v
  exact hnot (hcell ▸ hmem q hq)

/-- Material facts of the candidate-tile lists: grass tiles and the grass
set hold "G", road tiles hold "B". -/
theorem collectCandidates_spec (mm : Grid) (w h : Int) :
    (∀ p ∈ (collectCandidates mm w h).grassTiles, gridGet mm (idx w p.1 p.2) = "G") ∧
      (∀ p ∈ (collectCandidates mm w h).grassSet, gridGet mm (idx w p.1 p.2) = "G") ∧
      (∀ p ∈ (collectCandidates mm w h).roadTiles, gridGet mm (idx w p.1 p.2) = "B") := by
  rw [collectCandidates]
  refine foldl_inv (P := fun (c : Collect) =>
      (∀ p ∈ c.grassTiles, gridGet mm (idx w p.1 p.2) = "G") ∧
      (∀ p ∈ c.grassSet, gridGet mm (idx w p.1 p.2) = "G") ∧
      (∀ p ∈ c.roadTiles, gridGet mm (idx w p.1 p.2) = "B"))
    ⟨by simp, by simp, by simp⟩ ?_
  intro c p _ hP
  obtain ⟨h1, h2, h3⟩ := hP
  dsimp only
  split
  case isTrue hG =>
    refine ⟨?_, ?_, h3⟩
    · intro q hq
      rcases List.mem_append.mp hq with hq | hq
      · exact h1 q hq
      · rw [List.mem_singleton.mp hq]
        exact hG
    · intro q hq
      rcases List.mem_append.mp hq with hq | hq
      · exact h2 q hq
      · rw [List.mem_singleton.mp hq]
        exact hG
  case isFalse hnG =>
    split
    case isTrue hB =>
      split
      case isTrue hEdge =>
        refine ⟨h1, h2, ?_⟩
        intro q hq
        rcases List.mem_append.mp hq with hq | hq
        · exact h3 q hq
        · rw [List.mem_singleton.mp hq]
          exact hB
      case isFalse hEdge =>
        refine ⟨h1, h2, ?_⟩
        intro q hq
        rcases List.mem_append.mp hq with hq | hq
        · exact h3 q hq
        · rw [List.mem_singleton.mp hq]
          exact hB
    case isFalse hnB =>
      split
      case isTrue hDE => exact ⟨h1, h2, h3⟩
      case isFalse hnDE => exact ⟨h1, h2, h3⟩

/-- Every flora-B candidate neighbour of a road-edge tile is an in-bounds
grass, dirt or gravel cell, hence not a road cell. -/
theorem floraB_cands_spec (mm : Grid) (w h : Int) (t : Int × Int) :
    ∀ fc ∈ cardinals.foldl
        (fun (acc : List (Int × Int)) d =>
          let nx := t.1 + d.1
          let ny := t.2 + d.2
          if 3 ≤ nx ∧ nx < w - 3 ∧ 3 ≤ ny ∧ ny < h - 3 ∧
              (matAt w h mm nx ny = "G" ∨ matAt w h mm nx ny = "D" ∨
                matAt w h mm nx ny = "E") then
            acc ++ [(nx, ny)]
          else acc) [],
      gridGet mm (idx w fc.1 fc.2) ≠ "B" := by
  refine foldl_inv (P := fun (acc : List (Int × Int)) =>
      ∀ fc ∈ acc, gridGet mm (idx w fc.1 fc.2) ≠ "B") (by simp) ?_
  intro acc d _ hP
  dsimp only
  split
  case isTrue hcond =>
    intro fc hfc
    rcases List.mem_append.mp hfc with hfc | hfc
    · exact hP fc hfc
    · rw [List.mem_singleton.mp hfc]
      obtain ⟨ha, hb, hc, hd, hmat⟩ := hcond
      rw [matAt_eq_gridGet mm (by omega) (by omega) (by omega) (by omega)] at hmat
      rcases hmat with hm | hm | hm <;> rw [hm] <;> decide
  case isFalse hcond => exact hP

/-- Appending a tree on an unoccupied cell preserves the tree invariant. -/
theorem treeI_push {st : PlaceState} (hI : treeI st) {tx ty : Int} {v : String} {s3 : RS}
    (hnot : (tx, ty) ∉ st.occ) :
    treeI ⟨st.occ ++ [(tx, ty)],
      st.ps ++ [((iso_grid_to_world tx ty).1, (iso_grid_to_world tx ty).2, v)], s3⟩ := by
  obtain ⟨h1, h2⟩ := hI
  refine ⟨nodup_map_append_pos h1 h2 hnot, ?_⟩
  intro q hq
  rcases List.mem_append.mp hq with hq | hq
  · exact List.mem_append_left _ (h2 q hq)
  · rw [List.mem_singleton.mp hq]
    rw [cellOf_mk]
    exact List.mem_append_right _ (by simp)

/-- The inner tree scatter loop preserves the tree invariant. -/
theorem treeInner_inv (w h : Int) (patchAll : List (Int × Int)) (variants : List String)
    (sx sy cr cs : Int) (maxTrees : Nat) :
    ∀ (fuel : Nat) (placed : Int) (st : PlaceState), treeI st →
      treeI (treeInner w h patchAll variants sx sy cr cs maxTrees fuel placed st) := by
  intro fuel
  induction fuel with
  | zero =>
    intro placed st hI
    exact hI
  | succ n ih =>
    intro placed st hI
    rw [treeInner]
    split
    · exact hI
    · dsimp only
      split
      · exact ih _ _ hI
      · split
        · exact ih _ _ hI
        · split
          · exact ih _ _ hI
          · split
            case isTrue hocc => exact ih _ _ hI
            case isFalse hocc =>
              have hnot : (sx + (randint (-cr) cr st.s).1,
                  sy + (randint (-cr) cr (randint (-cr) cr st.s).2).1) ∉ st.occ :=
                fun hm => hocc (contains_iff.mpr hm)
              split
              · exact treeI_push hI hnot
              · exact ih _ _ (treeI_push hI hnot)

/-- The outer tree loop preserves the tree invariant. -/
theorem treeSeedLoop_inv (w h : Int) (patchAll : List (Int × Int)) (maxTrees : Nat) :
    ∀ (l : List ((Int × Int) × String × List String)) (st : PlaceState), treeI st →
      treeI (treeSeedLoop w h patchAll maxTrees l st) := by
  intro l
  induction l with
  | nil =>
    intro st hI
    exact hI
  | cons sc rest ih =>
    intro st hI
    rw [treeSeedLoop]
    split
    · exact hI
    · exact ih _ (treeInner_inv w h patchAll _ _ _ _ _ maxTrees _ _ _ hI)

/-- The whole tree phase satisfies the tree invariant. -/
theorem placeTrees_inv (w h : Int) (floraPatchAll floraBPatch : List (Int × Int))
    (s : RS) : treeI (placeTrees w h floraPatchAll floraBPatch s) := by
  rw [placeTrees]
  exact treeSeedLoop_inv w h floraPatchAll _ _ _ ⟨by simp, by simp⟩

/-- Appending a flora item on a fresh non-tree non-road cell preserves the
flora invariant. -/
theorem floraI_push {mm : Grid} {w : Int} {treeOcc : List (Int × Int)} {st : FloraState}
    (hI : floraI mm w treeOcc st) {fx fy : Int} {v : String} {cnt2 : Nat} {s3 : RS}
    (hnotocc : (fx, fy) ∉ st.occ) (hnottree : (fx, fy) ∉ treeOcc)
    (hmat : gridGet mm (idx w fx fy) ≠ "B") :
    floraI mm w treeOcc ⟨setAdd st.occ (fx, fy),
      st.ps ++ [((iso_grid_to_world fx fy).1, (iso_grid_to_world fx fy).2, v)],
      cnt2, s3⟩ := by
  obtain ⟨h1, h2⟩ := hI
  refine ⟨nodup_map_append_pos h1 (fun q hq => (h2 q hq).1) hnotocc, ?_⟩
  intro q hq
  rcases List.mem_append.mp hq with hq | hq
  · obtain ⟨ha, hb, hc⟩ := h2 q hq
    exact ⟨setAdd_mem_of_mem ha, hb, hc⟩
  · rw [List.mem_singleton.mp hq, cellOf_mk]
    exact ⟨setAdd_mem_self, hnottree, hmat⟩

/-- Appending an object on a fresh non-tree non-flora cell preserves the
object invariant. -/
theorem objI_push {treeOcc floraOcc : List (Int × Int)} {st : PlaceState}
    (hI : objI treeOcc floraOcc st) {tx ty : Int} {v : String} {s3 : RS}
    (hnotocc : (tx, ty) ∉ st.occ) (hnottree : (tx, ty) ∉ treeOcc)
    (hnotflora : (tx, ty) ∉ floraOcc) :
    objI treeOcc floraOcc ⟨setAdd st.occ (tx, ty),
      st.ps ++ [((iso_grid_to_world tx ty).1, (iso_grid_to_world tx ty).2, v)], s3⟩ := by
  obtain ⟨h1, h2⟩ := hI
  refine ⟨nodup_map_append_pos h1 (fun q hq => (h2 q hq).1) hnotocc, ?_⟩
  intro q hq
  rcases List.mem_append.mp hq with hq | hq
  · obtain ⟨ha, hb, hc⟩ := h2 q hq
    exact ⟨setAdd_mem_of_mem ha, hb, hc⟩
  · rw [List.mem_singleton.mp hq, cellOf_mk]
    exact ⟨setAdd_mem_self, hnottree, hnotflora⟩

/-- Appending a car on a fresh non-tree non-object road cell preserves the
car invariant. -/
theorem carI_push {mm : Grid} {w : Int} {treeOcc objOcc : List (Int × Int)}
    {st : PlaceState} (hI : carI mm w treeOcc objOcc st) {tx ty : Int} {v : String}
    {s3 : RS} (hnotocc : (tx, ty) ∉ st.occ) (hnottree : (tx, ty) ∉ treeOcc)
    (hnotobj : (tx, ty) ∉ objOcc) (hmat : gridGet mm (idx w tx ty) = "B") :
    carI mm w treeOcc objOcc ⟨setAdd st.occ (tx, ty),
      st.ps ++ [((iso_grid_to_world tx ty).1, (iso_grid_to_world tx ty).2, v)], s3⟩ := by
  obtain ⟨h1, h2⟩ := hI
  refine ⟨nodup_map_append_pos h1 (fun q hq => (h2 q hq).1) hnotocc, ?_⟩
  intro q hq
  rcases List.mem_append.mp hq with hq | hq
  · obtain ⟨ha, hb, hc, hd⟩ := h2 q hq
    exact ⟨setAdd_mem_of_mem ha, hb, hc, hd⟩
  · rw [List.mem_singleton.mp hq, cellOf_mk]
    exact ⟨setAdd_mem_self, hnottree, hnotobj, hmat⟩

/-- The inner understory loop preserves the flora invariant. -/
theorem understoryInner_inv (mm : Grid) (w h : Int)
    (grassSet treeOcc : List (Int × Int)) (target : Nat) (ttx tty : Int)
    (hgs : ∀ p ∈ grassSet, gridGet mm (idx w p.1 p.2) = "G") :
    ∀ (k : Nat) (st : FloraState), floraI mm w treeOcc st →
      floraI mm w treeOcc (understoryInner mm w h grassSet treeOcc target ttx tty k st) := by
  intro k
  induction k with
  | zero =>
    intro st hI
    exact hI
  | succ n ih =>
    intro st hI
    rw [understoryInner]
    split
    · exact hI
    · dsimp only
      split
      · exact ih _ hI
      · split
        case isTrue hgrass => exact ih _ hI
        case isFalse hgrass =>
          split
          case isTrue htree => exact ih _ hI
          case isFalse htree =>
            split
            case isTrue hclear => exact ih _ hI
            case isFalse hclear =>
              split
              case isTrue hwater => exact ih _ hI
              case isFalse hwater =>
                refine ih _ (floraI_push hI ?_ ?_ ?_)
                · exact is_clear_of_not_mem (by omega) (not_not.mp hclear)
                · exact fun hm => htree (contains_iff.mpr hm)
                · have hmem := contains_iff.mp (not_not.mp hgrass)
                  intro he
                  exact absurd ((hgs _ hmem).symm.trans he) (by decide)

/-- The outer understory loop preserves the flora invariant. -/
theorem understoryLoop_inv (mm : Grid) (w h : Int)
    (grassSet treeOcc : List (Int × Int)) (target : Nat)
    (hgs : ∀ p ∈ grassSet, gridGet mm (idx w p.1 p.2) = "G") :
    ∀ (l : List (Int × Int)) (st : FloraState), floraI mm w treeOcc st →
      floraI mm w treeOcc (understoryLoop mm w h grassSet treeOcc target l st) := by
  intro l
  induction l with
  | nil =>
    intro st hI
    exact hI
  | cons t rest ih =>
    intro st hI
    rw [understoryLoop]
    split
    · exact hI
    · exact ih _ (understoryInner_inv mm w h grassSet treeOcc target t.1 t.2 hgs _ _ hI)

/-- The grass scatter loop preserves the flora invariant when run over
grass tiles. -/
theorem scatterLoop_inv (mm : Grid) (w h : Int) (treeOcc : List (Int × Int))
    (maxFloraA : Nat) :
    ∀ (l : List (Int × Int)),
      (∀ t ∈ l, gridGet mm (idx w t.1 t.2) = "G") →
      ∀ (st : FloraState), floraI mm w treeOcc st →
        floraI mm w treeOcc (scatterLoop mm w h treeOcc maxFloraA l st) := by
  intro l
  induction l with
  | nil =>
    intro _ st hI
    exact hI
  | cons t rest ih =>
    intro hl st hI
    have hrest : ∀ t2 ∈ rest, gridGet mm (idx w t2.1 t2.2) = "G" :=
      fun t2 ht2 => hl t2 (by simp [ht2])
    rw [scatterLoop]
    split
    · exact hI
    · split
      case isTrue htree => exact ih hrest _ hI
      case isFalse htree =>
        split
        case isTrue hclear => exact ih hrest _ hI
        case isFalse hclear =>
          split
          case isTrue hwater => exact ih hrest _ hI
          case isFalse hwater =>
            refine ih hrest _ (floraI_push hI ?_ ?_ ?_)
            · exact is_clear_of_not_mem (by omega) (not_not.mp hclear)
            · exact fun hm => htree (contains_iff.mpr hm)
            · intro he
              exact absurd ((hl t (by simp)).symm.trans he) (by decide)

/-- The road-edge flora-B loop preserves the flora invariant. -/
theorem floraBLoop_inv (mm : Grid) (w h : Int) (treeOcc : List (Int × Int))
    (maxFloraB : Nat) :
    ∀ (l : List (Int × Int)) (st : FloraState × Nat), floraI mm w treeOcc st.1 →
      floraI mm w treeOcc (floraBLoop mm w h treeOcc maxFloraB l st).1 := by
  intro l
  induction l with
  | nil =>
    intro st hI
    exact hI
  | cons t rest ih =>
    intro st hI
    rcases st with ⟨fst1, bcnt⟩
    rw [floraBLoop]
    split
    · exact hI
    · dsimp only
      split
      case isTrue hemp => exact ih _ hI
      case isFalse hemp =>
        split
        case isTrue hocc => exact ih _ hI
        case isFalse hocc =>
          split
          case isTrue hclear => exact ih _ hI
          case isFalse hclear =>
            refine ih _ (floraI_push hI ?_ ?_ ?_)
            · exact fun hm => hocc (Or.inr (contains_iff.mpr hm))
            · exact fun hm => hocc (Or.inl (contains_iff.mpr hm))
            · have hne : ¬ (cardinals.foldl
                  (fun (acc : List (Int × Int)) d =>
                    let nx := t.1 + d.1
                    let ny := t.2 + d.2
                    if 3 ≤ nx ∧ nx < w - 3 ∧ 3 ≤ ny ∧ ny < h - 3 ∧
                        (matAt w h mm nx ny = "G" ∨ matAt w h mm nx ny = "D" ∨
                          matAt w h mm nx ny = "E") then
                      acc ++ [(nx, ny)]
                    else acc) [] = []) := by
                intro he
                rw [List.isEmpty_iff] at hemp
                exact hemp he
              exact floraB_cands_spec mm w h t _ (choice_mem hne)

/-- The object loop preserves the object invariant. -/
theorem objectsLoop_inv (mm : Grid) (w h : Int)
    (treeOcc floraOcc : List (Int × Int)) (maxObjects : Nat) :
    ∀ (l : List (Int × Int)) (st : PlaceState), objI treeOcc floraOcc st →
      objI treeOcc floraOcc (objectsLoop mm w h treeOcc floraOcc maxObjects l st) := by
  intro l
  induction l with
  | nil =>
    intro st hI
    exact hI
  | cons t rest ih =>
    intro st hI
    rw [objectsLoop]
    split
    · exact hI
    · split
      case isTrue hclear => exact ih _ hI
      case isFalse hclear =>
        split
        case isTrue hocc => exact ih _ hI
        case isFalse hocc =>
          split
          case isTrue hwater => exact ih _ hI
          case isFalse hwater =>
            refine ih _ (objI_push hI ?_ ?_ ?_)
            · exact is_clear_of_not_mem (by omega) (not_not.mp hclear)
            · exact fun hm => hocc (Or.inl (contains_iff.mpr hm))
            · exact fun hm => hocc (Or.inr (contains_iff.mpr hm))

/-- The car loop preserves the car invariant when run over road tiles. -/
theorem carsLoop_inv (mm : Grid) (w : Int) (treeOcc objOcc : List (Int × Int))
    (maxCars : Nat) :
    ∀ (l : List (Int × Int)),
      (∀ t ∈ l, gridGet mm (idx w t.1 t.2) = "B") →
      ∀ (st : PlaceState), carI mm w treeOcc objOcc st →
        carI mm w treeOcc objOcc (carsLoop treeOcc objOcc maxCars l st) := by
  intro l
  induction l with
  | nil =>
    intro _ st hI
    exact hI
  | cons t rest ih =>
    intro hl st hI
    have hrest : ∀ t2 ∈ rest, gridGet mm (idx w t2.1 t2.2) = "B" :=
      fun t2 ht2 => hl t2 (by simp [ht2])
    rw [carsLoop]
    split
    · exact hI
    · split
      case isTrue hclear => exact ih hrest _ hI
      case isFalse hclear =>
        split
        case isTrue hocc => exact ih hrest _ hI
        case isFalse hocc =>
          refine ih hrest _ (carI_push hI ?_ ?_ ?_ ?_)
          · exact is_clear_of_not_mem (by omega) (not_not.mp hclear)
          · exact fun hm => hocc (Or.inl (contains_iff.mpr hm))
          · exact fun hm => hocc (Or.inr (contains_iff.mpr hm))
          · exact hl t (by simp)

/-- The flora invariant ignores the rng component of the state. -/
theorem floraI_setS {mm : Grid} {w : Int} {treeOcc : List (Int × Int)} {st : FloraState}
    (hI : floraI mm w treeOcc st) (s2 : RS) : floraI mm w treeOcc { st with s := s2 } := hI

/-- Assembly: the four category invariants make all world positions
pairwise distinct. -/
theorem decorations_nodup_aux (mm : Grid) (w : Int) {tre : PlaceState}
    {fst3 : FloraState} {ost cst : PlaceState} (htre : treeI tre)
    (hf : floraI mm w tre.occ fst3) (ho : objI tre.occ fst3.occ ost)
    (hc : carI mm w tre.occ ost.occ cst) :
    ((tre.ps ++ fst3.ps ++ ost.ps ++ cst.ps).map wpos).Nodup := by
  have cellEq : ∀ (q r : Pos), wpos r = wpos q → cellOf r = cellOf q := by
    intro q r he
    rw [cellOf, cellOf, he]
  have dTF : (tre.ps.map wpos).Disjoint (fst3.ps.map wpos) := by
    intro a ha hb
    obtain ⟨q, hq, rfl⟩ := List.mem_map.mp ha
    obtain ⟨r, hr, he⟩ := List.mem_map.mp hb
    have h1 := htre.2 q hq
    rw [← cellEq q r he] at h1
    exact (hf.2 r hr).2.1 h1
  have dTO : (tre.ps.map wpos).Disjoint (ost.ps.map wpos) := by
    intro a ha hb
    obtain ⟨q, hq, rfl⟩ := List.mem_map.mp ha
    obtain ⟨r, hr, he⟩ := List.mem_map.mp hb
    have h1 := htre.2 q hq
    rw [← cellEq q r he] at h1
    exact (ho.2 r hr).2.1 h1
  have dTC : (tre.ps.map wpos).Disjoint (cst.ps.map wpos) := by
    intro a ha hb
    obtain ⟨q, hq, rfl⟩ := List.mem_map.mp ha
    obtain ⟨r, hr, he⟩ := List.mem_map.mp hb
    have h1 := htre.2 q hq
    rw [← cellEq q r he] at h1
    exact (hc.2 r hr).2.1 h1
  have dFO : (fst3.ps.map wpos).Disjoint (ost.ps.map wpos) := by
    intro a ha hb
    obtain ⟨q, hq, rfl⟩ := List.mem_map.mp ha
    obtain ⟨r, hr, he⟩ := List.mem_map.mp hb
    have h1 := (hf.2 q hq).1
    rw [← cellEq q r he] at h1
    exact (ho.2 r hr).2.2 h1
  have dFC : (fst3.ps.map wpos).Disjoint (cst.ps.map wpos) := by
    intro a ha hb
    obtain ⟨q, hq, rfl⟩ := List.mem_map.mp ha
    obtain ⟨r, hr, he⟩ := List.mem_map.mp hb
    have h1 := (hc.2 r hr).2.2.2
    rw [cellEq q r he] at h1
    exact (hf.2 q hq).2.2 h1
  have dOC : (ost.ps.map wpos).Disjoint (cst.ps.map wpos) := by
    intro a ha hb
    obtain ⟨q, hq, rfl⟩ := List.mem_map.mp ha
    obtain ⟨r, hr, he⟩ := List.mem_map.mp hb
    have h1 := (ho.2 q hq).1
    rw [← cellEq q r he] at h1
    exact (hc.2 r hr).2.2.1 h1
  rw [List.map_append, List.map_append, List.map_append]
  refine List.nodup_append.mpr ⟨?_, hc.1, ?_⟩
  · refine List.nodup_append.mpr ⟨?_, ho.1, ?_⟩
    · exact List.nodup_append.mpr ⟨htre.1, hf.1, dTF⟩
    · intro a ha hmem
      rcases List.mem_append.mp ha with hm | hm
      · exact dTO hm hmem
      · exact dFO hm hmem
  · intro a ha hmem
    rcases List.mem_append.mp ha with hm | hm
    · rcases List.mem_append.mp hm with hm2 | hm2
      · exact dTC hm2 hmem
      · exact dFC hm2 hmem
    · exact dOC hm hmem

set_option maxHeartbeats 1600000 in
/-- C9: decoration non-overlap: for every material map and seed, no two
decorations returned by `find_decoration_positions` - across the tree,
flora, object and car categories - share a world position, hence a grid
cell.  Trees, flora and objects are excluded through the propagated
occupancy sets; cars check trees and objects, and cannot collide with
flora because cars sit on road cells "B" while flora always sits on
grass, dirt or gravel cells. -/
theorem C9_decoration_nonoverlap (tiles : List Int) (mm : Grid) (w h : Int) (s : RS) :
    ((allDecorations (find_decoration_positions tiles mm w h s)).map wpos).Nodup := by
  obtain ⟨hgt, hgs, hrt⟩ := collectCandidates_spec mm w h
  rw [allDecorations, find_decoration_positions]
  dsimp only
  exact decorations_nodup_aux mm w
    (placeTrees_inv w h _ _ _)
    (floraBLoop_inv mm w h _ _ _ _
      (floraI_setS
        (scatterLoop_inv mm w h _ _ _ (fun t ht => hgt t (mem_shuffle ht)) _
          (floraI_setS
            (understoryLoop_inv mm w h _ _ _ hgs _ _ ⟨by simp, by simp⟩) _)) _))
    (objectsLoop_inv mm w h _ _ _ _ _ ⟨by simp, by simp⟩)
    (carsLoop_inv mm w _ _ _ _ (fun t ht => hrt t (mem_shuffle ht)) _ ⟨by simp, by simp⟩)

end ZombieGame
